import Mathlib

/-!
AURA backend: identity and tokens, the authorization gate, the feed and its pagination,
likes and comments, trending hashtags, the follow graph and the admin analytics.

A shallow embedding of the request handlers of `backend/routes/auth.js`,
`backend/routes/users.js`, `backend/routes/memories.js`, `backend/routes/follow.js`,
`backend/routes/admin.js`, the middleware `backend/middleware/auth.js` and
`backend/middleware/adminAuth.js`, the strategy of `backend/config/passport.js` and the
schemas of `backend/models/`.

Conventions of the embedding:
* the document store is passed explicitly: a handler maps a store to a response and a store;
* ObjectIds are natural numbers;
* a JSON body field that may be `undefined` is an `Option`;
* JavaScript strings are Lean strings (all characters the handlers inspect are in the
  basic multilingual plane, so code-unit and character positions agree);
* library code outside the repository (jsonwebtoken, bcryptjs, the email setters of the
  schema) is a parameter of the handlers.
-/

namespace Aura

/-! ## Data model (`backend/models/User.js`, `backend/models/Memory.js`) -/

abbrev ObjectId := Nat

/-- Values of the `role` enum of the user schema. -/
inductive Role where
  | user
  | admin
  deriving DecidableEq, Repr

/-- A stored user document (`userSchema`). -/
structure User where
  id : ObjectId
  email : String
  password : Option String
  username : String
  interests : List String
  emotions : List String
  followers : List ObjectId
  following : List ObjectId
  role : Role
  profilePicture : Option String
  deriving DecidableEq, Repr

/-- The jsonwebtoken library, restricted to the payload `{id}` used by the routes:
`sign id secret iat ttl` issues a token at second `iat` living `ttl` seconds,
`verify token secret now` returns the embedded id or fails. -/
structure JwtLib where
  sign : ObjectId → String → Nat → Nat → String
  verify : String → String → Nat → Option ObjectId

/-- The behaviour of jsonwebtoken the routes rely on: a token verifies under the secret that
signed it, strictly before its expiry, to the id it was issued for. -/
def JwtLib.Lawful (jwt : JwtLib) : Prop :=
  ∀ (id : ObjectId) (secret : String) (iat ttl now : Nat),
    now < iat + ttl → jwt.verify (jwt.sign id secret iat ttl) secret now = some id

/-- Process configuration and library code the handlers use. -/
structure Env where
  jwt : JwtLib
  jwtSecret : String
  bcryptHash : String → String
  normalizeEmail : String → String

/-- The token lifetime `expiresIn: "30d"` in seconds. -/
def thirtyDays : Nat := 30 * 24 * 60 * 60

/-- JSON response of a handler: HTTP status, `success`, `message`, `token` and `user.id`. -/
structure Response where
  status : Nat
  success : Bool
  message : Option String
  token : Option String
  userId : Option ObjectId
  deriving DecidableEq, Repr

/-- A failure response `res.status(code).json({success: false, message})`. -/
def fail (code : Nat) (msg : String) : Response :=
  ⟨code, false, some msg, none, none⟩

/-! ## Strings -/

/-- `String.prototype.startsWith`. -/
def startsWith (s p : String) : Bool := p.data.isPrefixOf s.data

/-- `String.prototype.substring(n)`. -/
def substringFrom (s : String) (n : Nat) : String := ⟨s.data.drop n⟩

/-! ## `backend/middleware/auth.js` -/

/-- Outcome of the `auth` middleware: a 401 response, or `next()` with `req.user.id` bound. -/
inductive AuthOutcome where
  | rejected (res : Response)
  | next (userId : ObjectId)
  deriving DecidableEq, Repr

/-- The `auth` middleware on the `authorization` header at second `now`. -/
def auth (env : Env) (now : Nat) (authHeader : Option String) : AuthOutcome :=
  match authHeader with
  | none => .rejected (fail 401 "No token provided")
  | some h =>
    if !(startsWith h "Bearer ") then .rejected (fail 401 "No token provided")
    else
      let token := substringFrom h 7
      match env.jwt.verify token env.jwtSecret now with
      | some id => .next id
      | none => .rejected (fail 401 "Invalid token")

/-! ## `User.create` and `save` (schema validators, unique indexes, pre-save hook) -/

/-- The `length` of a JavaScript string: UTF-16 code units. -/
def jsLength (s : String) : Nat :=
  (s.data.map (fun c => if c.val.toNat < 65536 then 1 else 2)).sum

/-- The built-in `minlength: 6` validator of `password`. -/
def minlengthOk (v : String) : Bool := decide (6 ≤ jsLength v)

/-- The custom validator of `password` (schema lines 18-24). -/
def customPasswordOk (v : String) : Bool :=
  if v != "" && !(startsWith v "google_") then decide (6 ≤ jsLength v) else true

/-- Both `password` validators; validators do not run on an `undefined` value. -/
def passwordValid (p : Option String) : Bool :=
  match p with
  | none => true
  | some v => minlengthOk v && customPasswordOk v

/-- The validator of `interests` and of `emotions`: `v.length <= 3`. -/
def tagsValid (v : List String) : Bool := decide (v.length ≤ 3)

/-- The pre-save hook on a new document (`User.js` 83-97), whose password counts as
modified: a value starting with `google_` is stored as it is, every other value is hashed,
and on an `undefined` password `bcrypt.hash` throws. -/
def preSavePassword (env : Env) (p : Option String) : Except String String :=
  match p with
  | none => .error "Illegal arguments: undefined, string"
  | some v => if startsWith v "google_" then .ok v else .ok (env.bcryptHash v)

/-- Fields given to `User.create`. -/
structure NewUser where
  email : Option String
  password : Option String
  username : Option String
  interests : List String
  emotions : List String
  role : Role

/-- The first failing check of `User.create`, if any: schema validation, then the pre-save
hook, then the unique indexes on `email` and `username`. -/
def createError (env : Env) (store : List User) (u : NewUser) : Option String :=
  match u.email, u.username with
  | none, _ => some "Email is required"
  | _, none => some "Username is required"
  | some e, some n =>
    if env.normalizeEmail e == "" then some "Email is required"
    else if n == "" then some "Username is required"
    else if !(passwordValid u.password) then some "Password must be at least 6 characters long"
    else if !(tagsValid u.interests) then some "Interests array cannot have more than 3 items"
    else if !(tagsValid u.emotions) then some "Emotions array cannot have more than 3 items"
    else
      match preSavePassword env u.password with
      | .error msg => some msg
      | .ok _ =>
        if store.any (fun x => x.email == env.normalizeEmail e) then
          some "E11000 duplicate key: email"
        else if store.any (fun x => x.username == n) then some "E11000 duplicate key: username"
        else none

/-- `User.create`: the document inserted under the fresh id `newId`, or the error thrown. -/
def userCreate (env : Env) (store : List User) (newId : ObjectId) (u : NewUser) :
    Except String (User × List User) :=
  match createError env store u with
  | some msg => .error msg
  | none =>
    match preSavePassword env u.password with
    | .error msg => .error msg
    | .ok stored =>
      let doc : User :=
        { id := newId
          email := env.normalizeEmail (u.email.getD "")
          password := some stored
          username := u.username.getD ""
          interests := u.interests
          emotions := u.emotions
          followers := []
          following := []
          role := u.role
          profilePicture := none }
      .ok (doc, store ++ [doc])

/-- `User.findOne({email})`: the query value goes through the setters of the schema. -/
def findOneByEmail (env : Env) (store : List User) (email : Option String) : Option User :=
  match email with
  | none => none
  | some e => store.find? (fun x => x.email == env.normalizeEmail e)

/-- `User.findById`. -/
def findById (store : List User) (id : ObjectId) : Option User :=
  store.find? (fun x => x.id == id)

/-! ## `POST /auth/signup` (`backend/routes/auth.js`) -/

/-- Body of a signup request. -/
structure SignupBody where
  email : Option String
  password : Option String
  username : Option String
  interests : Option (List String)
  emotions : Option (List String)

/-- The signup handler at second `now`, the store generating `newId` for a new document. -/
def signup (env : Env) (now : Nat) (newId : ObjectId) (store : List User) (body : SignupBody) :
    Response × List User :=
  match findOneByEmail env store body.email with
  | some _ => (fail 400 "User already exists", store)
  | none =>
    match userCreate env store newId
        { email := body.email
          password := body.password
          username := body.username
          interests := body.interests.getD []
          emotions := body.emotions.getD []
          role := Role.user } with
    | .error msg => (fail 500 msg, store)
    | .ok (user, store') =>
      let token := env.jwt.sign user.id env.jwtSecret now thirtyDays
      (⟨201, true, none, some token, some user.id⟩, store')

/-! ## `PUT /users/profile` (`backend/routes/users.js`) -/

/-- Body of a profile update; `profilePicture` may be `undefined`, `null` or a string. -/
structure ProfileBody where
  username : Option String
  interests : Option (List String)
  emotions : Option (List String)
  profilePicture : Option (Option String)

/-- The document after the assignments of lines 85-108. -/
def applyProfile (user : User) (body : ProfileBody) : User :=
  let u1 := match body.username with
    | some n => { user with username := n }
    | none => user
  let u2 := match body.interests with
    | some v => { u1 with interests := v }
    | none => u1
  let u3 := match body.emotions with
    | some v => { u2 with emotions := v }
    | none => u2
  match body.profilePicture with
  | some p => { u3 with profilePicture := p }
  | none => u3

/-- The error thrown by `user.save()` on an updated document, if any. -/
def saveError (store : List User) (u : User) : Option (Nat × String) :=
  if u.username == "" then some (500, "Username is required")
  else if !(tagsValid u.interests) then some (500, "Interests array cannot have more than 3 items")
  else if !(tagsValid u.emotions) then some (500, "Emotions array cannot have more than 3 items")
  else if store.any (fun x => x.id != u.id && x.username == u.username) then
    some (400, "Username already exists")
  else none

/-- Replace the stored document that has the id of `u`. -/
def replaceUser (store : List User) (u : User) : List User :=
  store.map (fun x => if x.id == u.id then u else x)

/-- The profile-update handler for the authenticated caller `actor`. -/
def updateProfile (store : List User) (actor : ObjectId) (body : ProfileBody) :
    Response × List User :=
  if (match body.interests with | some v => decide (3 < v.length) | none => false) then
    (fail 400 "Interests array cannot have more than 3 items", store)
  else if (match body.emotions with | some v => decide (3 < v.length) | none => false) then
    (fail 400 "Emotions array cannot have more than 3 items", store)
  else
    match findById store actor with
    | none => (fail 404 "User not found", store)
    | some user =>
      let updated := applyProfile user body
      match saveError store updated with
      | some (code, msg) => (fail code msg, store)
      | none => (⟨200, true, none, none, some updated.id⟩, replaceUser store updated)

/-! ## Memories (`backend/models/Memory.js`) -/

/-- Values of the `visibility` enum of the memory schema. -/
inductive Visibility where
  | isPublic
  | isFriends
  | isPrivate
  deriving DecidableEq, Repr

/-- A comment subdocument (`commentSchema`). -/
structure Comment where
  user : ObjectId
  text : String
  createdAt : Nat
  deriving DecidableEq, Repr

/-- A stored memory document (`memorySchema`). -/
structure Memory where
  id : ObjectId
  user : ObjectId
  caption : String
  image : Option String
  emotions : List String
  likes : List ObjectId
  comments : List Comment
  createdAt : Nat
  visibility : Visibility
  deriving DecidableEq, Repr

/-- JSON response of a memory handler: status, `success`, `message` and `memory`. -/
structure MemoryResponse where
  status : Nat
  success : Bool
  message : Option String
  memory : Option Memory
  deriving DecidableEq, Repr

/-- A failure response of a memory handler. -/
def failMemory (code : Nat) (msg : String) : MemoryResponse :=
  ⟨code, false, some msg, none⟩

/-- The characters `String.prototype.trim` strips: WhiteSpace and LineTerminator. -/
def isJsWhiteSpace (c : Char) : Bool :=
  let n := c.val.toNat
  n == 9 || n == 10 || n == 11 || n == 12 || n == 13 || n == 32 || n == 160 || n == 5760 ||
  (decide (8192 ≤ n) && decide (n ≤ 8202)) || n == 8232 || n == 8233 || n == 8239 ||
  n == 8287 || n == 12288 || n == 65279

/-- `String.prototype.trim`. -/
def trim (s : String) : String :=
  ⟨((s.data.dropWhile isJsWhiteSpace).reverse.dropWhile isJsWhiteSpace).reverse⟩

/-- `Memory.findById`. -/
def findMemoryById (store : List Memory) (id : ObjectId) : Option Memory :=
  store.find? (fun m => m.id == id)

/-- Replace the stored document that has the id of `m`. -/
def replaceMemory (store : List Memory) (m : Memory) : List Memory :=
  store.map (fun x => if x.id == m.id then m else x)

/-- The error thrown by `memory.save()`, if any: the `caption` validators (required,
`maxlength: 500`) and the `required` validator of the text of every comment. -/
def memorySaveError (m : Memory) : Option String :=
  if m.caption == "" then some "Caption is required"
  else if decide (500 < jsLength m.caption) then some "Caption cannot exceed 500 characters"
  else if m.comments.any (fun c => c.text == "") then some "Path `text` is required."
  else none

/-! ## `POST /memories/:id/comment` (`backend/routes/memories.js`) -/

/-- The guard of line 298: `!text || text.trim() === ""`. -/
def isBlank (text : Option String) : Bool :=
  match text with
  | none => true
  | some t => t == "" || trim t == ""

/-- The comment handler for the authenticated caller `actor` at instant `now`. -/
def addComment (now : Nat) (store : List Memory) (actor : ObjectId) (id : ObjectId)
    (text : Option String) : MemoryResponse × List Memory :=
  if isBlank text then (failMemory 400 "Comment text is required", store)
  else
    match findMemoryById store id with
    | none => (failMemory 404 "Memory not found", store)
    | some memory =>
      let pushed : Memory :=
        { memory with comments := memory.comments ++ [⟨actor, trim (text.getD ""), now⟩] }
      match memorySaveError pushed with
      | some msg => (failMemory 500 msg, store)
      | none => (⟨200, true, none, some pushed⟩, replaceMemory store pushed)

/-! ## `GET /memories/trending-hashtags` -/

/-- The class `\w` of a regular expression without the unicode flag. -/
def isWordChar (c : Char) : Bool :=
  (decide ('a' ≤ c) && decide (c ≤ 'z')) || (decide ('A' ≤ c) && decide (c ≤ 'Z')) ||
  (decide ('0' ≤ c) && decide (c ≤ '9')) || c == '_'

/-- The token collected after a `#`, if it has at least one word character. -/
def emitTag (w : List Char) : List String :=
  if w.isEmpty then [] else [String.mk ('#' :: w)]

/-- Left-to-right scan for `/#\w+/g`. The state is `none` outside a candidate and `some w`
after a `#` followed by the word characters `w` read so far. -/
def scanTags : Option (List Char) → List Char → List String
  | none, [] => []
  | some w, [] => emitTag w
  | none, c :: cs => if c == '#' then scanTags (some []) cs else scanTags none cs
  | some w, c :: cs =>
    if isWordChar c then scanTags (some (w ++ [c])) cs
    else emitTag w ++ (if c == '#' then scanTags (some []) cs else scanTags none cs)

/-- The statement `caption.match(/#\w+/g) || []`. -/
def matchHashtags (caption : String) : List String :=
  scanTags none caption.data

/-- `String.prototype.toLowerCase` on the characters a hashtag token can hold. -/
def toLowerCase (s : String) : String := ⟨s.data.map Char.toLower⟩

/-- The update `hashtagCounts[key] = (hashtagCounts[key] || 0) + 1` on an object whose
entries are kept in insertion order. -/
def bump : List (String × Nat) → String → List (String × Nat)
  | [], key => [(key, 1)]
  | (k, n) :: rest, key => if k == key then (k, n + 1) :: rest else (k, n) :: bump rest key

/-- The inner loop of lines 23-26 over the tokens of one caption. -/
def countTokens (counts : List (String × Nat)) (tokens : List String) : List (String × Nat) :=
  tokens.foldl (fun acc tag => bump acc (toLowerCase tag)) counts

/-- The loop of lines 19-28 over the captions of the public memories. -/
def hashtagCounts (captions : List String) : List (String × Nat) :=
  captions.foldl
    (fun acc caption => if caption != "" then countTokens acc (matchHashtags caption) else acc) []

/-- Captions selected by `Memory.find({visibility: "public"}).select("caption")`. -/
def publicCaptions (store : List Memory) : List String :=
  (store.filter (fun m => m.visibility == Visibility.isPublic)).map (fun m => m.caption)

/-- The comparator `(a, b) => b[1] - a[1]` as an order: `a` may stand before `b`. -/
def byCountDesc (a b : String × Nat) : Prop := b.2 ≤ a.2

instance : DecidableRel byCountDesc := fun a b => inferInstanceAs (Decidable (b.2 ≤ a.2))

/-- The display form `tag.charAt(0).toUpperCase() + tag.slice(1)`. -/
def displayTag (tag : String) : String :=
  match tag.data with
  | [] => ""
  | c :: cs => ⟨Char.toUpper c :: cs⟩

/-- The exponent `e` with `2^e ≤ q < 2^(e+1)`, for `1 ≤ q < 2^53`. -/
def binaryExponent (q : Nat) : Nat :=
  ((List.range 53).filter (fun e => decide (2 ^ e ≤ q))).length - 1

/-- Division rounded to the nearest integer, ties to even. -/
def divRoundHalfEven (a b : Nat) : Nat :=
  let q := a / b
  let r := a % b
  if 2 * r < b then q else if b < 2 * r then q + 1 else if q % 2 == 0 then q else q + 1

/-- The tenths printed by `(count / 1000).toFixed(1)` for `1000 ≤ count < 2^53`: the double
nearest to `count / 1000` is `m / 2^k` with a 53-bit significand `m`, and `toFixed(1)` takes
the integer `n` nearest to ten times that double, the larger one on a tie. -/
def toFixedTenths (count : Nat) : Nat :=
  let k := 52 - binaryExponent (count / 1000)
  let m := divRoundHalfEven (count * 2 ^ k) 1000
  (20 * m + 2 ^ k) / 2 ^ (k + 1)

/-- The string `(count / 1000).toFixed(1)`. -/
def toFixed1 (count : Nat) : String :=
  toString (toFixedTenths count / 10) ++ "." ++ toString (toFixedTenths count % 10)

/-- The field `posts` of line 36. -/
def formatPosts (count : Nat) : String :=
  if 1000 < count then toFixed1 count ++ "k" else toString count

/-- An entry of the `hashtags` array of the response. -/
structure Trend where
  tag : String
  posts : String
  count : Nat
  deriving DecidableEq, Repr

/-- The entries of `hashtagCounts` after the stable `sort` of line 32. -/
def sortedCounts (captions : List String) : List (String × Nat) :=
  (hashtagCounts captions).insertionSort byCountDesc

/-- Lines 31-38: sort by count, keep five, build the entries. -/
def trending (captions : List String) : List Trend :=
  ((sortedCounts captions).take 5).map
    (fun e => ⟨displayTag e.1, formatPosts e.2, e.2⟩)

/-- The handler: the trending entries of the public captions of the store. -/
def trendingHashtags (store : List Memory) : List Trend :=
  trending (publicCaptions store)

/-! ## Pagination parameters (`memories.js` 185-187, `admin.js` 128-130) -/

/-- The value of a digit character in the given radix, if it is one. -/
def digitValue (radix : Nat) (c : Char) : Option Nat :=
  let v :=
    if decide ('0' ≤ c) && decide (c ≤ '9') then some (c.toNat - 48)
    else if decide ('a' ≤ c) && decide (c ≤ 'z') then some (c.toNat - 87)
    else if decide ('A' ≤ c) && decide (c ≤ 'Z') then some (c.toNat - 55)
    else none
  v.bind (fun d => if d < radix then some d else none)

/-- The value of the longest prefix of digits, `none` when that prefix is empty. -/
def digitsPrefix (radix : Nat) : Option Nat → List Char → Option Nat
  | acc, [] => acc
  | acc, c :: cs =>
    match digitValue radix c with
    | some d => digitsPrefix radix (some (acc.getD 0 * radix + d)) cs
    | none => acc

/-- The global `parseInt(string)` without a radix argument; `none` is `NaN`. Leading white
space is skipped, a sign is read, a prefix `0x` or `0X` selects radix 16, and the longest
prefix of digits gives the value (exact here; JavaScript rounds beyond `2^53`). -/
def parseInt (s : String) : Option Int :=
  let cs := s.data.dropWhile isJsWhiteSpace
  let signed : Int × List Char :=
    match cs with
    | '-' :: r => (-1, r)
    | '+' :: r => (1, r)
    | _ => (1, cs)
  let based : Nat × List Char :=
    match signed.2 with
    | '0' :: 'x' :: r => (16, r)
    | '0' :: 'X' :: r => (16, r)
    | _ => (10, signed.2)
  (digitsPrefix based.1 none based.2).map (fun n => signed.1 * (n : Int))

/-- The idiom `parseInt(req.query.x) || dflt`: an absent parameter is `undefined`, which
`parseInt` reads as the string "undefined"; `NaN` and `0` are falsy. -/
def queryInt (param : Option String) (dflt : Int) : Int :=
  match parseInt (param.getD "undefined") with
  | none => dflt
  | some n => if n = 0 then dflt else n

/-- The `page`, `limit` and `skip` of a listing whose default limit is `dflt`. -/
structure PageParams where
  page : Int
  limit : Int
  skip : Int
  deriving DecidableEq, Repr

/-- Lines 185-187 with the default limit as a parameter. -/
def pageParams (dflt : Int) (page limit : Option String) : PageParams :=
  let p := queryInt page 1
  let l := queryInt limit dflt
  ⟨p, l, (p - 1) * l⟩

/-- The parameters of `GET /memories/feed`. -/
def feedParams (page limit : Option String) : PageParams := pageParams 10 page limit

/-- The parameters of the admin listings. -/
def adminParams (page limit : Option String) : PageParams := pageParams 20 page limit

/-! ## A reference instance of the token library -/

/-- A token library satisfying `JwtLib.Lawful`: the token spells the id and the expiry in
unary, followed by the secret. -/
def referenceJwt : JwtLib where
  sign id secret iat ttl :=
    ⟨List.replicate id 'i' ++ '.' :: (List.replicate (iat + ttl) 'e' ++ '.' :: secret.data)⟩
  verify tok secret now :=
    let idPart := tok.data.takeWhile (fun c => c == 'i')
    let rest := (tok.data.dropWhile (fun c => c == 'i')).drop 1
    let expPart := rest.takeWhile (fun c => c == 'e')
    let sec := (rest.dropWhile (fun c => c == 'e')).drop 1
    if sec = secret.data ∧ now < expPart.length then some idPart.length else none

/-- An environment for examples: the reference tokens, a marker in place of bcrypt and the
ASCII lower-casing of emails. -/
def referenceEnv : Env where
  jwt := referenceJwt
  jwtSecret := "s3cret"
  bcryptHash := fun p => "$2a$10$" ++ p
  normalizeEmail := fun e => toLowerCase (trim e)

/-- Every stored user has at most three interests and at most three emotions. -/
def TagsBounded (store : List User) : Prop :=
  ∀ u ∈ store, u.interests.length ≤ 3 ∧ u.emotions.length ≤ 3

/-- The user stores reachable from the empty store by signups and profile updates. -/
inductive Reachable (env : Env) : List User → Prop where
  | empty : Reachable env []
  | signup (now newId : Nat) (body : SignupBody) (s : List User) :
      Reachable env s → Reachable env (signup env now newId s body).2
  | profile (actor : ObjectId) (body : ProfileBody) (s : List User) :
      Reachable env s → Reachable env (updateProfile s actor body).2

/-- The read `hashtagCounts[key] || 0`. -/
def getCount : List (String × Nat) → String → Nat
  | [], _ => 0
  | (k, n) :: rest, key => if k == key then n else getCount rest key

/-- Every hashtag token of the captions, in order, repeats included. -/
def allTokens : List String → List String
  | [] => []
  | caption :: rest => matchHashtags caption ++ allTokens rest

/-- Well-formedness of a counting object: no key twice, every count positive. -/
def CountsOk (c : List (String × Nat)) : Prop :=
  (c.map Prod.fst).Nodup ∧ ∀ e ∈ c, 0 < e.2

/-- The form "N.Nk": a decimal numeral, a point, one decimal digit and the letter k. -/
def IsKForm (s : String) : Prop :=
  ∃ a d : Nat, d < 10 ∧ s = toString a ++ "." ++ toString d ++ "k"

instance : IsTotal (String × Nat) byCountDesc := ⟨fun a b => Nat.le_total b.2 a.2⟩

instance : IsTrans (String × Nat) byCountDesc := ⟨fun _ _ _ h1 h2 => Nat.le_trans h2 h1⟩

/-! ## Password comparison (`matchPassword`, `backend/models/User.js` 100-102) -/

/-- The call `bcrypt.compare(entered, stored)` of bcryptjs. The library throws on a value
that is not a string, answers `false` on a stored value that is not 60 code units long, and
otherwise hashes the entered password under the salt held by the stored value, which throws
on a salt that does not start with `$2`. The hashing itself is `env.bcryptHash`. -/
def bcryptCompare (env : Env) (entered stored : Option String) : Except String Bool :=
  match entered, stored with
  | some s, some h =>
    if jsLength h != 60 then .ok false
    else if !(startsWith h "$2") then .error "Invalid salt version"
    else .ok (env.bcryptHash s == h)
  | _, _ => .error "Illegal arguments"

/-! ## `POST /auth/login` (`backend/routes/auth.js` 55-106) -/

/-- The login handler at second `now`; it never writes to the store. -/
def login (env : Env) (now : Nat) (store : List User) (email password : Option String) :
    Response :=
  match findOneByEmail env store email with
  | none => fail 401 "Invalid credentials"
  | some user =>
    match bcryptCompare env password user.password with
    | .error _ => fail 500 "Server error during login"
    | .ok false => fail 401 "Invalid credentials"
    | .ok true =>
      ⟨200, true, none, some (env.jwt.sign user.id env.jwtSecret now thirtyDays), some user.id⟩

/-! ## The Google strategy (`backend/config/passport.js` 15-53) -/

/-- The fields of the provider profile the verify callback reads. -/
structure GoogleProfile where
  id : String
  displayName : Option String
  email : String

/-- The expression `email.split("@")[0]`. -/
def localPart (email : String) : String :=
  ⟨email.data.takeWhile (fun c => c != '@')⟩

/-- The base username of lines 25-27; `lower` is `String.prototype.toLowerCase`. A display
name that is `undefined` or empty is falsy. -/
def baseUsername (lower : String → String) (p : GoogleProfile) : String :=
  match p.displayName with
  | none => localPart p.email
  | some d =>
    if d == "" then localPart p.email
    else lower ⟨d.data.filter (fun c => !(isJsWhiteSpace c))⟩

/-- `User.findOne({username})` as a truth value. -/
def usernameTaken (store : List User) (username : String) : Bool :=
  store.any (fun u => u.username == username)

/-- The loop of lines 30-35 from the state `(username, counter)`, run for at most `fuel`
iterations; `none` when the fuel runs out. -/
def uniqueUsernameLoop (store : List User) (base : String) :
    Nat → String → Nat → Option String
  | 0, _, _ => none
  | fuel + 1, username, counter =>
    if usernameTaken store username then
      uniqueUsernameLoop store base fuel (base ++ toString counter) (counter + 1)
    else some username

/-- Lines 30-35 with the fuel that always suffices: one more than the number of users. -/
def uniqueUsername (store : List User) (base : String) : Option String :=
  uniqueUsernameLoop store base (store.length + 1) base 1

/-- The verify callback at millisecond `nowMs`: the user handed to `done` and the store
afterwards, or the error handed to `done`. -/
def googleVerify (env : Env) (lower : String → String) (nowMs : Nat) (newId : ObjectId)
    (store : List User) (p : GoogleProfile) : Except String (User × List User) :=
  match findOneByEmail env store (some p.email) with
  | some user => .ok (user, store)
  | none =>
    match uniqueUsername store (baseUsername lower p) with
    | none => .error "username loop did not finish"
    | some username =>
      userCreate env store newId
        { email := some p.email
          username := some username
          password := some ("google_" ++ p.id ++ "_" ++ toString nowMs)
          interests := []
          emotions := []
          role := Role.user }

/-! ## `POST /auth/admin-login` (`backend/routes/auth.js` 109-196) -/

/-- An entry of the `adminCredentials` array. -/
structure AdminCredential where
  email : String
  password : String
  username : String
  deriving DecidableEq, Repr

/-- The array of lines 114-117. -/
def adminCredentials : List AdminCredential :=
  [⟨"admin@aura.com", "admin123", "admin"⟩, ⟨"ashar@gmail.com", "123456", "ashar"⟩]

/-- The validation run by `save()` on a document loaded with its password. -/
def validateError (u : User) : Option String :=
  if u.username == "" then some "Username is required"
  else if !(passwordValid u.password) then some "Password must be at least 6 characters long"
  else if !(tagsValid u.interests) then some "Interests array cannot have more than 3 items"
  else if !(tagsValid u.emotions) then some "Emotions array cannot have more than 3 items"
  else none

/-- The admin-login handler at second `now`. -/
def adminLogin (env : Env) (now : Nat) (newId : ObjectId) (store : List User)
    (email password : Option String) : Response × List User :=
  match adminCredentials.find? (fun cred => some cred.email == email) with
  | none => (fail 401 "Invalid admin credentials", store)
  | some adminCred =>
    if password != some adminCred.password then (fail 401 "Invalid admin credentials", store)
    else
      match findOneByEmail env store email with
      | none =>
        match userCreate env store newId
            { email := some adminCred.email
              password := some adminCred.password
              username := some adminCred.username
              interests := []
              emotions := []
              role := Role.admin } with
        | .error _ => (fail 500 "Server error during admin login", store)
        | .ok (adminUser, store1) =>
          (⟨200, true, none, some (env.jwt.sign adminUser.id env.jwtSecret now thirtyDays),
            some adminUser.id⟩, store1)
      | some found =>
        let promoted : Except String (User × List User) :=
          if found.role != Role.admin then
            match validateError { found with role := Role.admin } with
            | some msg => .error msg
            | none =>
              .ok ({ found with role := Role.admin },
                replaceUser store { found with role := Role.admin })
          else .ok (found, store)
        match promoted with
        | .error _ => (fail 500 "Server error during admin login", store)
        | .ok (adminUser, store1) =>
          match bcryptCompare env password adminUser.password with
          | .error _ => (fail 500 "Server error during admin login", store1)
          | .ok false => (fail 401 "Invalid admin credentials", store1)
          | .ok true =>
            (⟨200, true, none, some (env.jwt.sign adminUser.id env.jwtSecret now thirtyDays),
              some adminUser.id⟩, store1)

/-- The k-th candidate of the username loop: the base name, then the base name followed by
the decimal numeral of k. -/
def candidate (base : String) : Nat → String
  | 0 => base
  | k + 1 => base ++ toString (k + 1)

/-- The value of a decimal numeral, read left to right. -/
def decodeDecimal (cs : List Char) : Nat :=
  cs.foldl (fun acc c => acc * 10 + (c.toNat - 48)) 0

/-- The stored credential of an account created by the Google strategy (line 42). -/
def googleSentinel (p : GoogleProfile) (nowMs : Nat) : String :=
  "google_" ++ p.id ++ "_" ++ toString nowMs

/-! ## Follow graph (`backend/routes/follow.js`) -/

/-- JSON response of the follow and unfollow handlers. -/
structure FollowResponse where
  status : Nat
  success : Bool
  message : Option String
  followerCount : Option Nat
  followingCount : Option Nat
  deriving DecidableEq, Repr

/-- A failure response of a follow handler. -/
def failFollow (code : Nat) (msg : String) : FollowResponse :=
  ⟨code, false, some msg, none, none⟩

/-- The validation run by `save()` on a document loaded without its password. -/
def docError (u : User) : Option String :=
  if u.username == "" then some "Username is required"
  else if !(tagsValid u.interests) then some "Interests array cannot have more than 3 items"
  else if !(tagsValid u.emotions) then some "Emotions array cannot have more than 3 items"
  else none

/-- The write of `save()` when `following` is the only modified path. -/
def setFollowing (store : List User) (id : ObjectId) (v : List ObjectId) : List User :=
  store.map (fun x => if x.id == id then { x with following := v } else x)

/-- The write of `save()` when `followers` is the only modified path. -/
def setFollowers (store : List User) (id : ObjectId) (v : List ObjectId) : List User :=
  store.map (fun x => if x.id == id then { x with followers := v } else x)

/-- The handler of `POST /follow/:userId` for the authenticated caller `currentUserId`. -/
def follow (store : List User) (currentUserId userId : ObjectId) :
    FollowResponse × List User :=
  if currentUserId == userId then (failFollow 400 "Cannot follow yourself", store)
  else
    match findById store userId with
    | none => (failFollow 404 "User not found", store)
    | some targetUser =>
      match findById store currentUserId with
      | none => (failFollow 404 "Current user not found", store)
      | some currentUser =>
        if currentUser.following.contains userId then
          (failFollow 400 "Already following this user", store)
        else
          match docError { currentUser with following := currentUser.following ++ [userId] } with
          | some msg => (failFollow 500 msg, store)
          | none =>
            match docError
                { targetUser with followers := targetUser.followers ++ [currentUserId] } with
            | some msg =>
              (failFollow 500 msg,
                setFollowing store currentUserId (currentUser.following ++ [userId]))
            | none =>
              (⟨200, true, none, some (targetUser.followers ++ [currentUserId]).length,
                  some (currentUser.following ++ [userId]).length⟩,
                setFollowers
                  (setFollowing store currentUserId (currentUser.following ++ [userId]))
                  userId (targetUser.followers ++ [currentUserId]))

/-- The handler of `DELETE /follow/:userId` for the authenticated caller `currentUserId`. -/
def unfollow (store : List User) (currentUserId userId : ObjectId) :
    FollowResponse × List User :=
  match findById store userId with
  | none => (failFollow 404 "User not found", store)
  | some targetUser =>
    match findById store currentUserId with
    | none => (failFollow 404 "Current user not found", store)
    | some currentUser =>
      match docError
          { currentUser with following := currentUser.following.filter (fun id => id != userId) }
        with
      | some msg => (failFollow 500 msg, store)
      | none =>
        match docError
            { targetUser with
              followers := targetUser.followers.filter (fun id => id != currentUserId) } with
        | some msg =>
          (failFollow 500 msg,
            setFollowing store currentUserId
              (currentUser.following.filter (fun id => id != userId)))
        | none =>
          (⟨200, true, none,
              some (targetUser.followers.filter (fun id => id != currentUserId)).length,
              some (currentUser.following.filter (fun id => id != userId)).length⟩,
            setFollowers
              (setFollowing store currentUserId
                (currentUser.following.filter (fun id => id != userId)))
              userId (targetUser.followers.filter (fun id => id != currentUserId)))

/-- The handler of `GET /follow/check/:userId`: the status and the field `isFollowing`. -/
def checkFollowing (store : List User) (currentUserId userId : ObjectId) :
    Nat × Option Bool :=
  match findById store currentUserId with
  | none => (404, none)
  | some currentUser => (200, some (currentUser.following.any (fun id => id == userId)))

/-- The follow graph is symmetric: B is in the following of A exactly when A is in the
followers of B, for all stored users A and B. -/
def Symmetric (store : List User) : Prop :=
  ∀ a ∈ store, ∀ b ∈ store, (b.id ∈ a.following ↔ a.id ∈ b.followers)

/-! ## `DELETE /memories/:id` (`backend/routes/memories.js` 373-405) -/

/-- The delete handler for the authenticated caller `actor`. -/
def deleteMemory (store : List Memory) (actor id : ObjectId) : MemoryResponse × List Memory :=
  match findMemoryById store id with
  | none => (failMemory 404 "Memory not found", store)
  | some memory =>
    if memory.user != actor then (failMemory 403 "Not authorized to delete this memory", store)
    else
      (⟨200, true, some "Memory deleted successfully", none⟩,
        store.eraseP (fun m => m.id == id))

/-! ## The flag `hasMore` (`admin.js` 163, 204, 245, 300; `memories.js` 208) -/

/-- The flag of the admin listings: `skip + limit < total`. -/
def adminHasMore (page limit : Int) (total : Nat) : Bool :=
  decide ((page - 1) * limit + limit < (total : Int))

/-- The number of items a listing returns: `skip(skip).limit(limit)` on `total` documents,
and `slice(skip, skip + limit)` on an array of that length. -/
def returnedCount (page limit : Int) (total : Nat) : Nat :=
  ((List.range total).drop ((page - 1) * limit).toNat).take limit.toNat |>.length

/-- The flag of the feed: `skip + memories.length < totalMemories`. -/
def feedHasMore (page limit : Int) (total : Nat) : Bool :=
  decide ((page - 1) * limit + (returnedCount page limit total : Int) < (total : Int))

/-- The Paginate definition in the words of the specification: `hasMore` is
`skip + returnedCount < total` with `returnedCount = min(limit, max(0, total - skip))`. -/
def paginateHasMoreSpec (page limit : Int) (total : Nat) : Bool :=
  decide ((page - 1) * limit + min limit (max 0 ((total : Int) - (page - 1) * limit)) <
    (total : Int))

/-! ## `GET /admin/analytics/user-growth` (`backend/routes/admin.js` 46-81) -/

/-- The day number, counted from 1970-01-01, of the first day of month `month` (0-based,
any integer) of year `year`: the `MakeDay` of ECMAScript for day 1. -/
def firstDayOfMonth (year month : Int) : Int :=
  let ym := year + month / 12
  let mn := month % 12
  let y := if mn < 2 then ym - 1 else ym
  let era := y / 400
  let yoe := y - era * 400
  let mp := (mn + 10) % 12
  let doy := (153 * mp + 2) / 5
  era * 146097 + (yoe * 365 + yoe / 4 - yoe / 100 + doy) - 719468

/-- The instant `new Date(year, month, day, h, m, s)` in milliseconds, the time zone of the
process taken as UTC. -/
def jsDate (year month day h m s : Int) : Int :=
  (firstDayOfMonth year month + (day - 1)) * 86400000 + h * 3600000 + m * 60000 + s * 1000

/-- The bounds of the bucket `i` months before the month of `now` (lines 54-55). -/
def monthStart (year month : Int) (i : Nat) : Int := jsDate year (month - i) 1 0 0 0

/-- The upper bound of the bucket `i`: day 0 of the next month at 23:59:59. -/
def monthEnd (year month : Int) (i : Nat) : Int := jsDate year (month - i + 1) 0 23 59 59

/-- The loop of lines 53-68: for i = 11 down to 0, the count of the users created within
`[monthStart, monthEnd]`, both bounds included. -/
def userGrowth (year month : Int) (createdAt : List Int) : List (Int × Nat) :=
  ((List.range 12).reverse).map (fun i =>
    (monthStart year month i,
      (createdAt.filter (fun t =>
        decide (monthStart year month i ≤ t) && decide (t ≤ monthEnd year month i))).length))

/-- The upper bound the sibling handler `memory-activity` uses for a day (line 97):
23:59:59.999. -/
def dayEndMs (dayStart : Int) : Int := dayStart + 23 * 3600000 + 59 * 60000 + 59 * 1000 + 999

/-- The combined write of both saves of a follow or unfollow: `following` of the documents
with id `c` and `followers` of the documents with id `t`. -/
def writeBoth (c t : ObjectId) (fl fr : List ObjectId) (x : User) : User :=
  { x with
    following := if x.id == c then fl else x.following
    followers := if x.id == t then fr else x.followers }

/-! ## Listings of memories (`backend/routes/memories.js` 183-224, 336-370) -/

/-- The order of `.sort({ createdAt: -1 })`: `a` may stand before `b`. -/
def byCreatedDesc (a b : Memory) : Prop := b.createdAt ≤ a.createdAt

instance : DecidableRel byCreatedDesc :=
  fun a b => inferInstanceAs (Decidable (b.createdAt ≤ a.createdAt))

instance : IsTotal Memory byCreatedDesc := ⟨fun a b => Nat.le_total b.createdAt a.createdAt⟩

instance : IsTrans Memory byCreatedDesc := ⟨fun _ _ _ h1 h2 => Nat.le_trans h2 h1⟩

/-- The public memories in the order of the feed: `find({visibility: "public"})` sorted by
creation time, newest first. -/
def publicFeed (store : List Memory) : List Memory :=
  (store.filter (fun m => m.visibility == Visibility.isPublic)).insertionSort byCreatedDesc

/-- The JSON answer of `GET /memories/feed`, or the message of the 500 answer. -/
structure FeedResponse where
  memories : List Memory
  likesCounts : List Nat
  hasMore : Bool
  page : Int
  limit : Int
  total : Nat
  deriving DecidableEq, Repr

/-- Lines 189-217 on the parsed parameters. The database rejects a negative skip, which the
handler answers with 500; the driver reads a negative limit as its absolute value. -/
def feedWith (store : List Memory) (pp : PageParams) : Except String FeedResponse :=
  if pp.skip < 0 then .error "skip value must be non-negative"
  else
    let memories := ((publicFeed store).drop pp.skip.toNat).take pp.limit.natAbs
    .ok
      { memories := memories
        likesCounts := memories.map (fun m => m.likes.length)
        hasMore := decide (pp.skip + (memories.length : Int) < ((publicFeed store).length : Int))
        page := pp.page
        limit := pp.limit
        total := (publicFeed store).length }

/-- The handler of `GET /memories/feed` on the query parameters `page` and `limit`. -/
def feed (store : List Memory) (page limit : Option String) : Except String FeedResponse :=
  feedWith store (feedParams page limit)

/-- The handler of `GET /memories/user/:userId` for the authenticated caller `actor`: the
query is on the owner, restricted to public memories unless the caller asks for their own
id. -/
def userMemories (store : List Memory) (actor userId : ObjectId) : List Memory :=
  (store.filter (fun m =>
    m.user == userId && (actor == userId || m.visibility == Visibility.isPublic))).insertionSort
    byCreatedDesc

/-! ## `backend/middleware/adminAuth.js` -/

/-- Outcome of the `adminAuth` middleware: a response, or `next()`. -/
inductive AdminOutcome where
  | rejected (res : Response)
  | next
  deriving DecidableEq, Repr

/-- The `adminAuth` middleware on the identity bound to the request, if any; it returns the
store it read. -/
def adminAuth (store : List User) (reqUser : Option ObjectId) : AdminOutcome × List User :=
  match reqUser with
  | none => (.rejected (fail 401 "Authentication required"), store)
  | some id =>
    match findById store id with
    | none => (.rejected (fail 404 "User not found"), store)
    | some user =>
      if user.role != Role.admin then (.rejected (fail 403 "Admin access required"), store)
      else (.next, store)

/-! ## The admin router (`backend/routes/admin.js`) -/

/-- The middleware functions a route can name. -/
inductive Middleware where
  | auth
  | adminAuth
  deriving DecidableEq, Repr

/-- A route registration `router.METHOD(path, ...middleware, handler)`. -/
structure Route where
  method : String
  path : String
  middleware : List Middleware
  deriving DecidableEq, Repr

/-- The eight registrations of the admin router, in source order. -/
def adminRoutes : List Route :=
  [⟨"GET", "/stats", [.auth, .adminAuth]⟩,
    ⟨"GET", "/analytics/user-growth", [.auth, .adminAuth]⟩,
    ⟨"GET", "/analytics/memory-activity", [.auth, .adminAuth]⟩,
    ⟨"GET", "/users", [.auth, .adminAuth]⟩,
    ⟨"GET", "/memories", [.auth, .adminAuth]⟩,
    ⟨"GET", "/nfts", [.auth, .adminAuth]⟩,
    ⟨"GET", "/likes", [.auth, .adminAuth]⟩,
    ⟨"DELETE", "/memories/:id", [.auth, .adminAuth]⟩]

/-- What a request meets on a route: the response of a middleware that did not call
`next()`, or the handler, reached with the identity bound so far. -/
inductive RouteOutcome where
  | rejected (res : Response)
  | handler (reqUser : Option ObjectId)
  deriving DecidableEq, Repr

/-- Express runs the middleware of a route in the order of registration; each one either
answers or calls `next()`. -/
def runMiddleware (env : Env) (now : Nat) (store : List User) (authHeader : Option String) :
    List Middleware → Option ObjectId → RouteOutcome
  | [], reqUser => .handler reqUser
  | .auth :: rest, _ =>
    match auth env now authHeader with
    | .rejected res => .rejected res
    | .next id => runMiddleware env now store authHeader rest (some id)
  | .adminAuth :: rest, reqUser =>
    match (adminAuth store reqUser).1 with
    | .rejected res => .rejected res
    | .next => runMiddleware env now store authHeader rest reqUser

/-- A request with the given `authorization` header on a route. -/
def runRoute (env : Env) (now : Nat) (store : List User) (route : Route)
    (authHeader : Option String) : RouteOutcome :=
  runMiddleware env now store authHeader route.middleware none

/-! ## `POST /memories/:id/like` (`backend/routes/memories.js` 254-291) -/

/-- The likes after lines 266-276 for the caller `actor`. -/
def toggledLikes (likes : List ObjectId) (actor : ObjectId) : List ObjectId :=
  if likes.contains actor then likes.filter (fun id => id != actor) else likes ++ [actor]

/-- The like handler for the authenticated caller `actor`. -/
def toggleLike (store : List Memory) (actor id : ObjectId) : MemoryResponse × List Memory :=
  match findMemoryById store id with
  | none => (failMemory 404 "Memory not found", store)
  | some memory =>
    match memorySaveError { memory with likes := toggledLikes memory.likes actor } with
    | some msg => (failMemory 500 msg, store)
    | none =>
      (⟨200, true, none, some { memory with likes := toggledLikes memory.likes actor }⟩,
        replaceMemory store { memory with likes := toggledLikes memory.likes actor })

/-- The likes lists reachable from the empty one by toggles. -/
inductive LikesReachable : List ObjectId → Prop where
  | empty : LikesReachable []
  | toggle (likes : List ObjectId) (actor : ObjectId) :
      LikesReachable likes → LikesReachable (toggledLikes likes actor)

/-! # Theorems -/

/-! ## Strings and lookups -/

theorem startsWith_append (p t : String) : startsWith (p ++ t) p = true := by
  simp [startsWith, String.data_append]

theorem substringFrom_append (p t : String) : substringFrom (p ++ t) p.data.length = t := by
  simp [substringFrom, String.data_append]

theorem findOneByEmail_eq_none (env : Env) (store : List User) (e : String)
    (h : store.all (fun x => x.email != env.normalizeEmail e) = true) :
    findOneByEmail env store (some e) = none := by
  simp only [findOneByEmail, List.find?_eq_none]
  intro x hx
  have := (List.all_eq_true.mp h) x hx
  simpa using this

theorem takeWhile_replicate_append (c d : Char) (hd : d ≠ c) (n : Nat) (l : List Char) :
    (List.replicate n c ++ d :: l).takeWhile (fun x => x == c) = List.replicate n c := by
  induction n with
  | zero => simp [List.takeWhile_cons, hd]
  | succ n ih => simp [List.replicate_succ, List.takeWhile_cons, ih]

theorem dropWhile_replicate_append (c d : Char) (hd : d ≠ c) (n : Nat) (l : List Char) :
    (List.replicate n c ++ d :: l).dropWhile (fun x => x == c) = d :: l := by
  induction n with
  | zero => simp [List.dropWhile_cons, hd]
  | succ n ih => simp [List.replicate_succ, List.dropWhile_cons, ih]

theorem referenceJwt_lawful : referenceJwt.Lawful := by
  intro id secret iat ttl now h
  simp only [referenceJwt]
  rw [takeWhile_replicate_append 'i' '.' (by decide),
    dropWhile_replicate_append 'i' '.' (by decide)]
  simp only [List.drop_succ_cons, List.drop_zero]
  simp only [takeWhile_replicate_append 'e' '.' (by decide),
    dropWhile_replicate_append 'e' '.' (by decide)]
  simp [h]

/-! ## Signup -/

theorem passwordValid_of_length (p : Option String) (h : ∀ v, p = some v → 6 ≤ jsLength v) :
    passwordValid p = true := by
  cases p with
  | none => rfl
  | some v =>
    have := h v rfl
    simp [passwordValid, minlengthOk, customPasswordOk, this]

theorem any_eq_false_of_forall_ne {α β : Type} [DecidableEq β] (l : List α) (f : α → β) (b : β)
    (h : ∀ x ∈ l, f x ≠ b) : l.any (fun x => f x == b) = false := by
  rw [List.any_eq_false]
  intro x hx
  simpa using h x hx

theorem preSavePassword_some (env : Env) (v : String) :
    preSavePassword env (some v) =
      .ok (if startsWith v "google_" then v else env.bcryptHash v) := by
  simp only [preSavePassword]
  split <;> rfl

theorem signup_valid (env : Env) (now newId : Nat) (store : List User) (body : SignupBody)
    (e n p : String) (hemail : body.email = some e) (hname : body.username = some n)
    (he : env.normalizeEmail e ≠ "") (hn : n ≠ "")
    (hpw : body.password = some p) (hlen : 6 ≤ jsLength p)
    (hint : (body.interests.getD []).length ≤ 3) (hemo : (body.emotions.getD []).length ≤ 3)
    (hfreeE : ∀ u ∈ store, u.email ≠ env.normalizeEmail e)
    (hfreeN : ∀ u ∈ store, u.username ≠ n) :
    ∃ user : User, user.id = newId ∧ user.email = env.normalizeEmail e ∧ user.username = n ∧
      user.password = some (if startsWith p "google_" then p else env.bcryptHash p) ∧
      signup env now newId store body =
        (⟨201, true, none, some (env.jwt.sign newId env.jwtSecret now thirtyDays), some newId⟩,
          store ++ [user]) := by
  have h1 : findOneByEmail env store body.email = none := by
    rw [hemail]
    apply findOneByEmail_eq_none
    rw [List.all_eq_true]
    intro x hx
    simpa using hfreeE x hx
  have h2 := any_eq_false_of_forall_ne store (fun x => x.email) _ hfreeE
  have h3 := any_eq_false_of_forall_ne store (fun x => x.username) _ hfreeN
  have h4 : passwordValid body.password = true :=
    passwordValid_of_length body.password (by
      intro v hv
      rw [hpw] at hv
      cases hv
      exact hlen)
  have h2' : store.any (fun x => x.email == env.normalizeEmail e) = false := h2
  have h3' : store.any (fun x => x.username == n) = false := h3
  refine ⟨⟨newId, env.normalizeEmail e,
    some (if startsWith p "google_" then p else env.bcryptHash p), n,
    body.interests.getD [], body.emotions.getD [], [], [], Role.user, none⟩, rfl, rfl, rfl,
    rfl, ?_⟩
  rw [hemail] at h1
  rw [hpw] at h4
  simp only [signup, userCreate, createError, hemail, hname, hpw, preSavePassword_some]
  simp [h1, he, hn, h4, tagsValid, hint, hemo, h2', h3']

/-- C11: for every valid signup input (email and username present, non-empty and not taken,
a password of at least 6 code units, at most 3 interests and emotions), signup answers 201
with a token, and that token presented as `Bearer <token>` to the auth middleware under the
same secret at any instant before its expiry binds `req.user.id` to the id of the user the
signup appended to the store, which is the `user.id` of the response. -/
theorem signup_token_roundtrip (env : Env) (hjwt : env.jwt.Lawful) (now later newId : Nat)
    (store : List User) (body : SignupBody) (e n p : String)
    (hemail : body.email = some e) (hname : body.username = some n)
    (he : env.normalizeEmail e ≠ "") (hn : n ≠ "")
    (hpw : body.password = some p) (hlen : 6 ≤ jsLength p)
    (hint : (body.interests.getD []).length ≤ 3) (hemo : (body.emotions.getD []).length ≤ 3)
    (hfreeE : ∀ u ∈ store, u.email ≠ env.normalizeEmail e)
    (hfreeN : ∀ u ∈ store, u.username ≠ n)
    (hlater : later < now + thirtyDays) :
    ∃ (tok : String) (user : User),
      signup env now newId store body =
        (⟨201, true, none, some tok, some user.id⟩, store ++ [user]) ∧
      user.id = newId ∧
      auth env later (some ("Bearer " ++ tok)) = AuthOutcome.next user.id := by
  obtain ⟨user, hid, -, -, -, hs⟩ :=
    signup_valid env now newId store body e n p hemail hname he hn hpw hlen hint hemo hfreeE
      hfreeN
  refine ⟨env.jwt.sign newId env.jwtSecret now thirtyDays, user, ?_, hid, ?_⟩
  · rw [hs, hid]
  · have hsub : substringFrom ("Bearer " ++ env.jwt.sign newId env.jwtSecret now thirtyDays) 7
        = env.jwt.sign newId env.jwtSecret now thirtyDays :=
      substringFrom_append "Bearer " _
    simp only [auth, startsWith_append, Bool.not_true, Bool.false_eq_true, if_false, hsub]
    rw [hjwt newId env.jwtSecret now thirtyDays later hlater, hid]

/-- C12: a signup whose email is already registered answers 400 with success false and
"User already exists", carries no token, and leaves the user store unchanged. -/
theorem signup_existing_email (env : Env) (now newId : Nat) (store : List User)
    (body : SignupBody) (e : String) (hemail : body.email = some e)
    (hreg : ∃ u ∈ store, u.email = env.normalizeEmail e) :
    signup env now newId store body =
      (⟨400, false, some "User already exists", none, none⟩, store) := by
  obtain ⟨u, hu, hue⟩ := hreg
  have hsome : (findOneByEmail env store body.email).isSome = true := by
    rw [hemail]
    simp only [findOneByEmail, List.find?_isSome]
    exact ⟨u, hu, by simp [hue]⟩
  obtain ⟨v, hv⟩ := Option.isSome_iff_exists.mp hsome
  simp [signup, hv, fail]

/-- Witness of C11 on a store holding one user. -/
theorem signup_token_roundtrip_witness :
    ∃ (tok : String) (user : User),
      signup referenceEnv 1000 7
          [⟨3, "bob@x.com", some "h", "bob", [], [], [], [], Role.user, none⟩]
          ⟨some " Alice@X.com", some "secret1", some "alice", none, some ["joy", "calm", "awe"]⟩ =
        (⟨201, true, none, some tok, some user.id⟩,
          [⟨3, "bob@x.com", some "h", "bob", [], [], [], [], Role.user, none⟩] ++ [user]) ∧
      user.id = 7 ∧
      auth referenceEnv 2000 (some ("Bearer " ++ tok)) = AuthOutcome.next user.id :=
  signup_token_roundtrip referenceEnv referenceJwt_lawful 1000 2000 7
    [⟨3, "bob@x.com", some "h", "bob", [], [], [], [], Role.user, none⟩]
    ⟨some " Alice@X.com", some "secret1", some "alice", none, some ["joy", "calm", "awe"]⟩
    " Alice@X.com" "alice" "secret1" rfl rfl (by decide) (by decide)
    rfl (by decide) (by decide) (by decide) (by decide) (by decide)
    (by decide)

/-- Witness of C12: a second signup under a registered email, written in another case. -/
theorem signup_existing_email_witness :
    signup referenceEnv 1000 7
        [⟨3, "bob@x.com", some "h", "bob", ["a"], [], [], [], Role.user, none⟩]
        ⟨some "BOB@x.com", some "secret1", some "bobby", none, none⟩ =
      (⟨400, false, some "User already exists", none, none⟩,
        [⟨3, "bob@x.com", some "h", "bob", ["a"], [], [], [], Role.user, none⟩]) :=
  signup_existing_email referenceEnv 1000 7
    [⟨3, "bob@x.com", some "h", "bob", ["a"], [], [], [], Role.user, none⟩]
    ⟨some "BOB@x.com", some "secret1", some "bobby", none, none⟩ "BOB@x.com" rfl
    ⟨_, List.mem_singleton.mpr rfl, by decide⟩

/-! ## The bound on interests and emotions -/

theorem mem_replaceUser (store : List User) (u x : User) (h : x ∈ replaceUser store u) :
    x = u ∨ x ∈ store := by
  simp only [replaceUser, List.mem_map] at h
  obtain ⟨y, hy, rfl⟩ := h
  by_cases hc : (y.id == u.id) = true
  · left; simp [hc]
  · right; simpa [hc] using hy

theorem saveError_none_tags (store : List User) (u : User) (h : saveError store u = none) :
    u.interests.length ≤ 3 ∧ u.emotions.length ≤ 3 := by
  unfold saveError at h
  split at h
  · cases h
  · split at h
    · cases h
    · split at h
      · cases h
      · rename_i h1 h2
        simp only [tagsValid, Bool.not_eq_true', decide_eq_false_iff_not, not_not] at h1 h2
        exact ⟨h1, h2⟩

theorem updateProfile_store (store : List User) (actor : ObjectId) (pb : ProfileBody) :
    (updateProfile store actor pb).2 = store ∨
      ∃ u, saveError store u = none ∧ (updateProfile store actor pb).2 = replaceUser store u := by
  unfold updateProfile
  split
  · left; rfl
  · split
    · left; rfl
    · split
      · left; rfl
      · rename_i user _
        cases hs : saveError store (applyProfile user pb) with
        | some e =>
          left
          simp only [hs]
        | none =>
          right
          exact ⟨_, hs, by simp only [hs]⟩

theorem createError_none (env : Env) (store : List User) (u : NewUser)
    (h : createError env store u = none) :
    ∃ e n pw, u.email = some e ∧ u.username = some n ∧ u.password = some pw ∧
      u.interests.length ≤ 3 ∧ u.emotions.length ≤ 3 := by
  obtain ⟨email, password, username, interests, emotions, role⟩ := u
  cases email with
  | none => simp [createError] at h
  | some e =>
    cases username with
    | none => simp [createError] at h
    | some n =>
      cases password with
      | none =>
        exfalso
        simp only [createError, preSavePassword] at h
        split at h
        · cases h
        · split at h
          · cases h
          · split at h
            · cases h
            · split at h
              · cases h
              · split at h
                · cases h
                · cases h
      | some pw =>
        refine ⟨e, n, pw, rfl, rfl, rfl, ?_⟩
        simp only [createError] at h
        split at h
        · cases h
        · split at h
          · cases h
          · split at h
            · cases h
            · split at h
              · cases h
              · split at h
                · cases h
                · rename_i h1 h2
                  simp only [tagsValid, Bool.not_eq_true', decide_eq_false_iff_not,
                    not_not] at h1 h2
                  exact ⟨h1, h2⟩

theorem createError_none_tags (env : Env) (store : List User) (u : NewUser)
    (h : createError env store u = none) : u.interests.length ≤ 3 ∧ u.emotions.length ≤ 3 := by
  obtain ⟨_, _, _, -, -, -, h1, h2⟩ := createError_none env store u h
  exact ⟨h1, h2⟩

theorem userCreate_cases (env : Env) (store : List User) (newId : ObjectId) (nu : NewUser) :
    (∃ msg, userCreate env store newId nu = .error msg) ∨
      ∃ e n pw, nu.email = some e ∧ nu.username = some n ∧ nu.password = some pw ∧
        nu.interests.length ≤ 3 ∧ nu.emotions.length ≤ 3 ∧
        userCreate env store newId nu =
          .ok (⟨newId, env.normalizeEmail e,
              some (if startsWith pw "google_" then pw else env.bcryptHash pw), n,
              nu.interests, nu.emotions, [], [], nu.role, none⟩,
            store ++ [⟨newId, env.normalizeEmail e,
              some (if startsWith pw "google_" then pw else env.bcryptHash pw), n,
              nu.interests, nu.emotions, [], [], nu.role, none⟩]) := by
  cases hce : createError env store nu with
  | some msg =>
    left
    exact ⟨msg, by simp only [userCreate, hce]⟩
  | none =>
    right
    obtain ⟨e, n, pw, he, hn, hp, h1, h2⟩ := createError_none env store nu hce
    refine ⟨e, n, pw, he, hn, hp, h1, h2, ?_⟩
    simp only [userCreate, hce, hp, preSavePassword_some, he, hn, Option.getD_some]

theorem signup_store (env : Env) (now newId : Nat) (store : List User) (sb : SignupBody) :
    ((signup env now newId store sb).1.success = false ∧
        (signup env now newId store sb).1.token = none ∧
        (signup env now newId store sb).2 = store) ∨
      ∃ doc : User, doc.interests = sb.interests.getD [] ∧ doc.emotions = sb.emotions.getD [] ∧
        doc.interests.length ≤ 3 ∧ doc.emotions.length ≤ 3 ∧
        (signup env now newId store sb).2 = store ++ [doc] := by
  unfold signup
  split
  · left; exact ⟨rfl, rfl, rfl⟩
  · rcases userCreate_cases env store newId
        { email := sb.email, password := sb.password, username := sb.username,
          interests := sb.interests.getD [], emotions := sb.emotions.getD [],
          role := Role.user } with ⟨msg, hm⟩ | ⟨e, n, pw, -, -, -, h1, h2, hok⟩
    · left
      rw [hm]
      exact ⟨rfl, rfl, rfl⟩
    · right
      rw [hok]
      exact ⟨_, rfl, rfl, h1, h2, rfl⟩

theorem updateProfile_rejects_long (store : List User) (actor : ObjectId) (pb : ProfileBody)
    (h : ∃ v, (pb.interests = some v ∨ pb.emotions = some v) ∧ 4 ≤ v.length) :
    (updateProfile store actor pb).1.status = 400 ∧
      (updateProfile store actor pb).1.success = false ∧
      (updateProfile store actor pb).2 = store := by
  obtain ⟨v, hv, hlen⟩ := h
  have hlt : 3 < v.length := hlen
  unfold updateProfile
  split
  · exact ⟨rfl, rfl, rfl⟩
  · rename_i hi
    split
    · exact ⟨rfl, rfl, rfl⟩
    · rename_i he
      exfalso
      rcases hv with hv | hv
      · rw [hv] at hi
        simp [hlt] at hi
      · rw [hv] at he
        simp [hlt] at he

theorem updateProfile_preserves (store : List User) (actor : ObjectId) (pb : ProfileBody)
    (h : TagsBounded store) : TagsBounded (updateProfile store actor pb).2 := by
  rcases updateProfile_store store actor pb with hs | ⟨u, hu, hs⟩
  · rw [hs]; exact h
  · rw [hs]
    intro x hx
    rcases mem_replaceUser store u x hx with rfl | hx
    · exact saveError_none_tags store _ hu
    · exact h x hx

theorem signup_preserves (env : Env) (now newId : Nat) (store : List User) (sb : SignupBody)
    (h : TagsBounded store) : TagsBounded (signup env now newId store sb).2 := by
  rcases signup_store env now newId store sb with ⟨-, -, hs⟩ | ⟨doc, -, -, h1, h2, hs⟩
  · rw [hs]; exact h
  · rw [hs]
    intro x hx
    rcases List.mem_append.mp hx with hx | hx
    · exact h x hx
    · rw [List.mem_singleton.mp hx]
      exact ⟨h1, h2⟩

theorem reachable_tagsBounded (env : Env) (s : List User) (h : Reachable env s) :
    TagsBounded s := by
  induction h with
  | empty => intro u hu; cases hu
  | signup now newId body s _ ih => exact signup_preserves env now newId s body ih
  | profile actor body s _ ih => exact updateProfile_preserves s actor body ih

theorem findById_mem (store : List User) (id : ObjectId) (u : User)
    (h : findById store id = some u) : u ∈ store :=
  List.mem_of_find?_eq_some h

theorem applyProfile_tags (user : User) (pb : ProfileBody)
    (hu : user.interests.length ≤ 3 ∧ user.emotions.length ≤ 3)
    (hi : ∀ v, pb.interests = some v → v.length ≤ 3)
    (he : ∀ v, pb.emotions = some v → v.length ≤ 3) :
    (applyProfile user pb).interests.length ≤ 3 ∧ (applyProfile user pb).emotions.length ≤ 3 := by
  obtain ⟨n, i, e, p⟩ := pb
  cases n <;> cases i <;> cases e <;> cases p <;>
    simp_all [applyProfile]

theorem updateProfile_passes_short (store : List User) (actor : ObjectId) (pb : ProfileBody)
    (hs : TagsBounded store)
    (hi : ∀ v, pb.interests = some v → v.length ≤ 3)
    (he : ∀ v, pb.emotions = some v → v.length ≤ 3) :
    (updateProfile store actor pb).1.message ≠
        some "Interests array cannot have more than 3 items" ∧
      (updateProfile store actor pb).1.message ≠
        some "Emotions array cannot have more than 3 items" := by
  unfold updateProfile
  split
  · rename_i h
    exfalso
    cases hv : pb.interests with
    | none => simp [hv] at h
    | some v => have := hi v hv; simp [hv] at h; omega
  · split
    · rename_i h
      exfalso
      cases hv : pb.emotions with
      | none => simp [hv] at h
      | some v => have := he v hv; simp [hv] at h; omega
    · split
      · simp [fail]
      · rename_i user hf
        have ht := applyProfile_tags user pb (hs user (findById_mem store actor user hf)) hi he
        simp only [saveError, tagsValid, ht.1, ht.2, decide_True, Bool.not_true,
          Bool.false_eq_true, if_false]
        split
        · rename_i hh
          split at hh
          · cases hh; simp [fail]
          · split at hh
            · cases hh; simp [fail]
            · cases hh
        · simp

/-- C13: a profile update or a signup carrying an interests or emotions array of length 4 or
more is rejected (400 for the profile update, an unsuccessful response without token for the
signup) and leaves the user store unchanged; arrays of length 0 to 3 pass the length checks
of the route and of the schema; both operations preserve, and every store reachable from the
empty one satisfies, that each user has at most 3 interests and at most 3 emotions. -/
theorem tags_at_most_three (env : Env) (now newId : Nat) (store : List User) (actor : ObjectId)
    (pb : ProfileBody) (sb : SignupBody) :
    ((∃ v, (pb.interests = some v ∨ pb.emotions = some v) ∧ 4 ≤ v.length) →
      (updateProfile store actor pb).1.status = 400 ∧
      (updateProfile store actor pb).1.success = false ∧
      (updateProfile store actor pb).2 = store) ∧
    ((∃ v, (sb.interests = some v ∨ sb.emotions = some v) ∧ 4 ≤ v.length) →
      (signup env now newId store sb).1.success = false ∧
      (signup env now newId store sb).1.token = none ∧
      (signup env now newId store sb).2 = store) ∧
    (TagsBounded store → (∀ v, pb.interests = some v → v.length ≤ 3) →
      (∀ v, pb.emotions = some v → v.length ≤ 3) →
      (updateProfile store actor pb).1.message ≠
          some "Interests array cannot have more than 3 items" ∧
        (updateProfile store actor pb).1.message ≠
          some "Emotions array cannot have more than 3 items") ∧
    (∀ v : List String, tagsValid v = true ↔ v.length ≤ 3) ∧
    (TagsBounded store →
      TagsBounded (updateProfile store actor pb).2 ∧
      TagsBounded (signup env now newId store sb).2) ∧
    (Reachable env store → TagsBounded store) := by
  refine ⟨updateProfile_rejects_long store actor pb, ?_,
    updateProfile_passes_short store actor pb, ?_, ?_, reachable_tagsBounded env store⟩
  · rintro ⟨v, hv, hlen⟩
    rcases signup_store env now newId store sb with h | ⟨doc, h1, h2, h3, h4, -⟩
    · exact h
    · exfalso
      rcases hv with hv | hv
      · rw [h1, hv] at h3
        simp only [Option.getD_some] at h3
        omega
      · rw [h2, hv] at h4
        simp only [Option.getD_some] at h4
        omega
  · intro v
    simp [tagsValid]
  · intro h
    exact ⟨updateProfile_preserves store actor pb h, signup_preserves env now newId store sb h⟩

/-- Witness of C13: four interests in a profile update and four emotions in a signup are
refused on a one-user store, which satisfies the bound and keeps it. -/
theorem tags_at_most_three_witness :
    ((updateProfile [⟨3, "bob@x.com", some "h", "bob", ["a"], [], [], [], Role.user, none⟩] 3
        ⟨none, some ["a", "b", "c", "d"], none, none⟩).1.status = 400 ∧
      (updateProfile [⟨3, "bob@x.com", some "h", "bob", ["a"], [], [], [], Role.user, none⟩] 3
        ⟨none, some ["a", "b", "c", "d"], none, none⟩).1.success = false ∧
      (updateProfile [⟨3, "bob@x.com", some "h", "bob", ["a"], [], [], [], Role.user, none⟩] 3
        ⟨none, some ["a", "b", "c", "d"], none, none⟩).2 =
        [⟨3, "bob@x.com", some "h", "bob", ["a"], [], [], [], Role.user, none⟩]) ∧
    ((signup referenceEnv 1000 7
        [⟨3, "bob@x.com", some "h", "bob", ["a"], [], [], [], Role.user, none⟩]
        ⟨some "al@x.com", some "secret1", some "al", none, some ["a", "b", "c", "d"]⟩).1.success
        = false ∧
      (signup referenceEnv 1000 7
        [⟨3, "bob@x.com", some "h", "bob", ["a"], [], [], [], Role.user, none⟩]
        ⟨some "al@x.com", some "secret1", some "al", none, some ["a", "b", "c", "d"]⟩).1.token
        = none ∧
      (signup referenceEnv 1000 7
        [⟨3, "bob@x.com", some "h", "bob", ["a"], [], [], [], Role.user, none⟩]
        ⟨some "al@x.com", some "secret1", some "al", none, some ["a", "b", "c", "d"]⟩).2 =
        [⟨3, "bob@x.com", some "h", "bob", ["a"], [], [], [], Role.user, none⟩]) ∧
    (TagsBounded (updateProfile
        [⟨3, "bob@x.com", some "h", "bob", ["a"], [], [], [], Role.user, none⟩] 3
        ⟨none, some ["a", "b", "c", "d"], none, none⟩).2 ∧
      TagsBounded (signup referenceEnv 1000 7
        [⟨3, "bob@x.com", some "h", "bob", ["a"], [], [], [], Role.user, none⟩]
        ⟨some "al@x.com", some "secret1", some "al", none, some ["a", "b", "c", "d"]⟩).2) :=
  have h := tags_at_most_three referenceEnv 1000 7
    [⟨3, "bob@x.com", some "h", "bob", ["a"], [], [], [], Role.user, none⟩] 3
    ⟨none, some ["a", "b", "c", "d"], none, none⟩
    ⟨some "al@x.com", some "secret1", some "al", none, some ["a", "b", "c", "d"]⟩
  ⟨h.1 ⟨_, Or.inl rfl, by decide⟩, h.2.1 ⟨_, Or.inr rfl, by decide⟩,
    h.2.2.2.2.1 (by intro u hu; rw [List.mem_singleton.mp hu]; decide)⟩

/-! ## Comments -/

theorem string_eq_empty_iff (l : List Char) : (String.mk l = "") ↔ l = [] := by
  constructor
  · intro h
    exact congrArg String.data h
  · intro h
    rw [h]

theorem trim_eq_empty_of_all (t : String) (h : ∀ c ∈ t.data, isJsWhiteSpace c = true) :
    trim t = "" := by
  have h1 : t.data.dropWhile isJsWhiteSpace = [] := List.dropWhile_eq_nil_iff.mpr h
  simp [trim, h1]

theorem trim_ne_empty_of_exists (t : String) (h : ∃ c ∈ t.data, isJsWhiteSpace c = false) :
    trim t ≠ "" := by
  obtain ⟨c, hc, hcw⟩ := h
  have h1 : t.data.dropWhile isJsWhiteSpace ≠ [] := by
    intro h0
    have := List.dropWhile_eq_nil_iff.mp h0 c hc
    rw [hcw] at this
    cases this
  have h2 : isJsWhiteSpace ((t.data.dropWhile isJsWhiteSpace).head h1) = false := by
    simpa using List.head_dropWhile_not isJsWhiteSpace t.data h1
  have h3 : (t.data.dropWhile isJsWhiteSpace).reverse.dropWhile isJsWhiteSpace ≠ [] := by
    intro h0
    have := List.dropWhile_eq_nil_iff.mp h0 _
      (List.mem_reverse.mpr (List.head_mem h1))
    rw [h2] at this
    cases this
  intro h0
  have := (string_eq_empty_iff _).mp h0
  exact h3 (List.reverse_eq_nil_iff.mp this)

theorem isBlank_of_all (t : String) (h : ∀ c ∈ t.data, isJsWhiteSpace c = true) :
    isBlank (some t) = true := by
  simp [isBlank, trim_eq_empty_of_all t h]

theorem isBlank_of_exists (t : String) (h : ∃ c ∈ t.data, isJsWhiteSpace c = false) :
    isBlank (some t) = false := by
  have h1 := trim_ne_empty_of_exists t h
  have h2 : t ≠ "" := by
    rintro rfl
    obtain ⟨c, hc, -⟩ := h
    cases hc
  simp [isBlank, h1, h2]

/-- C14: a comment request whose text is absent, empty or made of white space only answers
400 "Comment text is required" and leaves every memory unchanged, whether or not the memory
id exists; a request with a non-blank text on an id no memory has answers 404 "Memory not
found" and leaves every memory unchanged. -/
theorem comment_validation (now : Nat) (store : List Memory) (actor id : ObjectId) :
    (∀ text : Option String,
      (text = none ∨ ∃ t, text = some t ∧ ∀ c ∈ t.data, isJsWhiteSpace c = true) →
      addComment now store actor id text =
        (⟨400, false, some "Comment text is required", none⟩, store)) ∧
    (∀ t : String, (∃ c ∈ t.data, isJsWhiteSpace c = false) →
      (∀ m ∈ store, m.id ≠ id) →
      addComment now store actor id (some t) =
        (⟨404, false, some "Memory not found", none⟩, store)) := by
  constructor
  · intro text h
    have hb : isBlank text = true := by
      rcases h with rfl | ⟨t, rfl, ht⟩
      · rfl
      · exact isBlank_of_all t ht
    simp [addComment, hb, failMemory]
  · intro t ht hid
    have hb := isBlank_of_exists t ht
    have hf : findMemoryById store id = none := by
      simp only [findMemoryById, List.find?_eq_none]
      intro m hm
      simpa using hid m hm
    simp [addComment, hb, hf, failMemory]

/-- Witness of C14: a text of blanks on an existing memory, and a real text on a missing id. -/
theorem comment_validation_witness :
    addComment 50 [⟨1, 3, "Hello #world", none, [], [], [], 10, Visibility.isPublic⟩] 4 1
        (some " \t\n ") =
      (⟨400, false, some "Comment text is required", none⟩,
        [⟨1, 3, "Hello #world", none, [], [], [], 10, Visibility.isPublic⟩]) ∧
    addComment 50 [⟨1, 3, "Hello #world", none, [], [], [], 10, Visibility.isPublic⟩] 4 2
        (some " nice ") =
      (⟨404, false, some "Memory not found", none⟩,
        [⟨1, 3, "Hello #world", none, [], [], [], 10, Visibility.isPublic⟩]) :=
  ⟨(comment_validation 50 [⟨1, 3, "Hello #world", none, [], [], [], 10, Visibility.isPublic⟩]
      4 1).1 (some " \t\n ") (Or.inr ⟨_, rfl, by decide⟩),
    (comment_validation 50 [⟨1, 3, "Hello #world", none, [], [], [], 10, Visibility.isPublic⟩]
      4 2).2 " nice " (by decide) (by decide)⟩

theorem findMemoryById_id (store : List Memory) (id : ObjectId) (m : Memory)
    (h : findMemoryById store id = some m) : m.id = id := by
  have := List.find?_some h
  simpa using this

theorem findMemoryById_replace (store : List Memory) (id : ObjectId) (m m1 : Memory)
    (h : findMemoryById store id = some m) (hid : m1.id = id) :
    findMemoryById (replaceMemory store m1) id = some m1 := by
  subst hid
  induction store with
  | nil => cases h
  | cons x xs ih =>
    have hcons : replaceMemory (x :: xs) m1 =
        (if x.id == m1.id then m1 else x) :: replaceMemory xs m1 := rfl
    rw [hcons]
    unfold findMemoryById at h ih ⊢
    rw [List.find?_cons] at h ⊢
    cases hx : (x.id == m1.id) with
    | true => simp
    | false =>
      rw [hx] at h
      simp only [Bool.false_eq_true, if_false, hx]
      exact ih h

theorem mem_replaceMemory_other (store : List Memory) (m1 x : Memory)
    (hx : x ∈ replaceMemory store m1) (hne : x.id ≠ m1.id) : x ∈ store := by
  simp only [replaceMemory, List.mem_map] at hx
  obtain ⟨y, hy, rfl⟩ := hx
  by_cases hc : (y.id == m1.id) = true
  · simp [hc] at hne
  · simpa [hc] using hy

theorem addComment_existing (now : Nat) (store : List Memory) (actor id : ObjectId)
    (t : String) (memory : Memory) (hfind : findMemoryById store id = some memory)
    (hnb : ∃ c ∈ t.data, isJsWhiteSpace c = false) :
    addComment now store actor id (some t) =
      match memorySaveError
          { memory with comments := memory.comments ++ [⟨actor, trim t, now⟩] } with
      | some msg => (failMemory 500 msg, store)
      | none =>
        (⟨200, true, none,
            some { memory with comments := memory.comments ++ [⟨actor, trim t, now⟩] }⟩,
          replaceMemory store
            { memory with comments := memory.comments ++ [⟨actor, trim t, now⟩] }) := by
  simp [addComment, isBlank_of_exists t hnb, hfind]

theorem memorySaveError_push (memory : Memory) (c : Comment) (hc : c.text ≠ "")
    (h : memorySaveError memory = none) :
    memorySaveError { memory with comments := memory.comments ++ [c] } = none := by
  unfold memorySaveError at h ⊢
  split at h
  · cases h
  · split at h
    · cases h
    · split at h
      · cases h
      · rename_i h1 h2 h3
        simp only [Bool.not_eq_true] at h3
        simp [h1, h2, h3, hc]

/-- C15: for an existing memory and a non-blank text, a successful comment request stores
the memory with its previous comments, unmodified and in order, followed by exactly one new
comment whose author is the actor and whose text is the trimmed input; the length grows by
one, every other field and every other memory is unchanged; and the request does succeed
whenever the stored memory satisfies its schema. -/
theorem comment_appends (now : Nat) (store : List Memory) (actor id : ObjectId) (t : String)
    (memory : Memory) (hfind : findMemoryById store id = some memory)
    (hnb : ∃ c ∈ t.data, isJsWhiteSpace c = false) :
    ((addComment now store actor id (some t)).1.success = true →
      ∃ m1 : Memory,
        (addComment now store actor id (some t)).1.memory = some m1 ∧
        findMemoryById (addComment now store actor id (some t)).2 id = some m1 ∧
        m1.comments = memory.comments ++ [⟨actor, trim t, now⟩] ∧
        m1.comments.length = memory.comments.length + 1 ∧
        m1 = { memory with comments := m1.comments } ∧
        (addComment now store actor id (some t)).2.length = store.length ∧
        ∀ x ∈ (addComment now store actor id (some t)).2, x.id ≠ id → x ∈ store) ∧
    (memorySaveError memory = none →
      (addComment now store actor id (some t)).1.success = true) := by
  have hid := findMemoryById_id store id memory hfind
  rw [addComment_existing now store actor id t memory hfind hnb]
  constructor
  · intro hs
    cases hm : memorySaveError
        { memory with comments := memory.comments ++ [⟨actor, trim t, now⟩] } with
    | some msg =>
      rw [hm] at hs
      simp [failMemory] at hs
    | none =>
      refine ⟨{ memory with comments := memory.comments ++ [⟨actor, trim t, now⟩] },
        rfl, ?_, rfl, ?_, rfl, ?_, ?_⟩
      · exact findMemoryById_replace store id memory _ hfind hid
      · simp
      · simp [replaceMemory]
      · intro x hx hne
        exact mem_replaceMemory_other store _ x hx (by simpa [hid] using hne)
  · intro hv
    rw [memorySaveError_push memory ⟨actor, trim t, now⟩ (trim_ne_empty_of_exists t hnb) hv]

/-- Witness of C15: a second comment on a memory that has one. -/
theorem comment_appends_witness :
    (addComment 50 [⟨1, 3, "Hello #world", none, [], [], [⟨9, "first", 20⟩], 10,
        Visibility.isPublic⟩] 4 1 (some " nice ")).1.success = true ∧
    findMemoryById (addComment 50 [⟨1, 3, "Hello #world", none, [], [], [⟨9, "first", 20⟩], 10,
        Visibility.isPublic⟩] 4 1 (some " nice ")).2 1 =
      some ⟨1, 3, "Hello #world", none, [], [], [⟨9, "first", 20⟩, ⟨4, "nice", 50⟩], 10,
        Visibility.isPublic⟩ :=
  have h := comment_appends 50 [⟨1, 3, "Hello #world", none, [], [], [⟨9, "first", 20⟩], 10,
    Visibility.isPublic⟩] 4 1 " nice " ⟨1, 3, "Hello #world", none, [], [], [⟨9, "first", 20⟩],
    10, Visibility.isPublic⟩ (by decide) (by decide)
  ⟨h.2 (by decide), by
    obtain ⟨m1, -, h2, h3, -, h5, -⟩ := h.1 (h.2 (by decide))
    rw [h2, h5, h3]
    decide⟩

/-! ## Trending hashtags: counting -/

theorem getCount_bump (c : List (String × Nat)) (key k : String) :
    getCount (bump c key) k = getCount c k + (if k = key then 1 else 0) := by
  induction c with
  | nil =>
    by_cases h : key = k
    · simp [bump, getCount, h]
    · have h1 : ¬ k = key := fun e => h e.symm
      simp [bump, getCount, h, h1]
  | cons x rest ih =>
    obtain ⟨k0, n0⟩ := x
    by_cases h0 : k0 = key
    · subst h0
      by_cases h1 : k0 = k
      · subst h1
        simp [bump, getCount]
      · have h2 : ¬ k = k0 := fun e => h1 e.symm
        simp [bump, getCount, h1, h2]
    · by_cases h1 : k0 = k
      · subst h1
        simp [bump, getCount, h0]
      · simp [bump, getCount, h0, h1, ih]

theorem getCount_countTokens (toks : List String) (c : List (String × Nat)) (k : String) :
    getCount (countTokens c toks) k = getCount c k + (toks.map toLowerCase).count k := by
  induction toks generalizing c with
  | nil => simp [countTokens]
  | cons t ts ih =>
    have hstep : countTokens c (t :: ts) = countTokens (bump c (toLowerCase t)) ts := rfl
    rw [hstep, ih, getCount_bump, List.map_cons, List.count_cons]
    by_cases h : k = toLowerCase t
    · subst h
      simp
      omega
    · have h1 : ¬ toLowerCase t = k := fun e => h e.symm
      simp [h, h1]

theorem matchHashtags_empty : matchHashtags "" = [] := rfl

theorem hashtagCounts_fold (captions : List String) (c : List (String × Nat)) :
    captions.foldl
      (fun acc caption =>
        if caption != "" then countTokens acc (matchHashtags caption) else acc) c =
    countTokens c (allTokens captions) := by
  induction captions generalizing c with
  | nil => rfl
  | cons x xs ih =>
    rw [List.foldl_cons, ih]
    have happ : ∀ (a b : List String) (c0 : List (String × Nat)),
        countTokens c0 (a ++ b) = countTokens (countTokens c0 a) b := by
      intro a b c0
      simp [countTokens, List.foldl_append]
    rw [allTokens, happ]
    by_cases hx : x = ""
    · subst hx
      simp [matchHashtags_empty, countTokens]
    · simp [hx]

theorem getCount_hashtagCounts (captions : List String) (k : String) :
    getCount (hashtagCounts captions) k = ((allTokens captions).map toLowerCase).count k := by
  unfold hashtagCounts
  rw [hashtagCounts_fold, getCount_countTokens]
  simp [getCount]

theorem keys_bump (c : List (String × Nat)) (key : String) :
    (bump c key).map Prod.fst =
      if key ∈ c.map Prod.fst then c.map Prod.fst else c.map Prod.fst ++ [key] := by
  induction c with
  | nil => simp [bump]
  | cons x rest ih =>
    obtain ⟨k0, n0⟩ := x
    by_cases h0 : k0 = key
    · subst h0
      simp [bump]
    · have h1 : ¬ key = k0 := fun e => h0 e.symm
      simp only [bump, beq_iff_eq, h0, if_false, List.map_cons, ih, List.mem_cons, h1, false_or]
      split <;> simp

theorem countsOk_bump (c : List (String × Nat)) (key : String) (h : CountsOk c) :
    CountsOk (bump c key) := by
  constructor
  · rw [keys_bump]
    split
    · exact h.1
    · rename_i hk
      exact List.Nodup.append h.1 (List.nodup_singleton key) (by simpa using hk)
  · have hp := h.2
    clear h
    induction c with
    | nil => simp [bump]
    | cons x rest ih =>
      obtain ⟨k0, n0⟩ := x
      intro e he
      by_cases h0 : k0 = key
      · simp only [bump, h0, beq_self_eq_true, if_true, List.mem_cons] at he
        rcases he with rfl | he
        · simp
        · exact hp e (List.mem_cons_of_mem _ he)
      · simp only [bump, beq_iff_eq, h0, if_false, List.mem_cons] at he
        rcases he with rfl | he
        · exact hp _ (List.mem_cons_self _ _)
        · exact ih (fun e he => hp e (List.mem_cons_of_mem _ he)) e he

theorem countsOk_countTokens (toks : List String) (c : List (String × Nat)) (h : CountsOk c) :
    CountsOk (countTokens c toks) := by
  induction toks generalizing c with
  | nil => exact h
  | cons t ts ih => exact ih _ (countsOk_bump c _ h)

theorem countsOk_hashtagCounts (captions : List String) : CountsOk (hashtagCounts captions) := by
  unfold hashtagCounts
  rw [hashtagCounts_fold]
  exact countsOk_countTokens _ _ ⟨by simp, by simp⟩

theorem getCount_of_mem (c : List (String × Nat)) (k : String) (n : Nat)
    (hnd : (c.map Prod.fst).Nodup) (h : (k, n) ∈ c) : getCount c k = n := by
  induction c with
  | nil => cases h
  | cons x rest ih =>
    obtain ⟨k0, n0⟩ := x
    simp only [List.map_cons, List.nodup_cons] at hnd
    rcases List.mem_cons.mp h with he | he
    · cases he
      simp [getCount]
    · have hne : k0 ≠ k := by
        rintro rfl
        exact hnd.1 (List.mem_map.mpr ⟨(k0, n), he, rfl⟩)
      simp [getCount, hne, ih hnd.2 he]

theorem mem_of_getCount_pos (c : List (String × Nat)) (k : String)
    (h : 0 < getCount c k) : (k, getCount c k) ∈ c := by
  induction c with
  | nil => simp [getCount] at h
  | cons x rest ih =>
    obtain ⟨k0, n0⟩ := x
    by_cases h0 : k0 = k
    · subst h0
      simp [getCount]
    · simp only [getCount, beq_iff_eq, h0, if_false] at h ⊢
      exact List.mem_cons_of_mem _ (ih h)

theorem scanTags_shape (cs : List Char) (st : Option (List Char))
    (hst : ∀ w, st = some w → ∀ c ∈ w, isWordChar c = true) :
    ∀ tok ∈ scanTags st cs, ∃ w : List Char, tok = String.mk ('#' :: w) ∧ w ≠ [] ∧
      ∀ c ∈ w, isWordChar c = true := by
  have hemit : ∀ w : List Char, (∀ c ∈ w, isWordChar c = true) →
      ∀ tok ∈ emitTag w, ∃ w1 : List Char, tok = String.mk ('#' :: w1) ∧ w1 ≠ [] ∧
        ∀ c ∈ w1, isWordChar c = true := by
    intro w hw tok htok
    unfold emitTag at htok
    split at htok
    · cases htok
    · rename_i hne
      rw [List.mem_singleton] at htok
      exact ⟨w, htok, by simpa using hne, hw⟩
  induction cs generalizing st with
  | nil =>
    cases st with
    | none => intro tok htok; simp [scanTags] at htok
    | some w => intro tok htok; exact hemit w (hst w rfl) tok (by simpa [scanTags] using htok)
  | cons c cs ih =>
    have hnew : ∀ tok ∈ (if c == '#' then scanTags (some []) cs else scanTags none cs),
        ∃ w : List Char, tok = String.mk ('#' :: w) ∧ w ≠ [] ∧
          ∀ c ∈ w, isWordChar c = true := by
      intro tok htok
      split at htok
      · exact ih (some []) (by intro w hw; cases hw; simp) tok htok
      · exact ih none (by intro w hw; cases hw) tok htok
    cases st with
    | none =>
      intro tok htok
      exact hnew tok (by simpa [scanTags] using htok)
    | some w =>
      intro tok htok
      rw [scanTags] at htok
      split at htok
      · rename_i hc
        refine ih (some (w ++ [c])) ?_ tok htok
        intro w1 hw1 x hx
        cases hw1
        rcases List.mem_append.mp hx with hx | hx
        · exact hst w rfl x hx
        · rw [List.mem_singleton.mp hx]; exact hc
      · rcases List.mem_append.mp htok with h1 | h1
        · exact hemit w (hst w rfl) tok h1
        · exact hnew tok h1

/-- C16: every token matched by the hashtag pattern is a `#` followed by one or more word
characters; for every corpus the count stored under a key is the number of tokens of all
captions, repeats inside one caption included, whose lower-cased form is that key, and the
counting object holds exactly the keys with a positive count, each once. The one public
caption "Hello #world #World" yields exactly one entry, with count 2. -/
theorem hashtag_counts_exact (captions : List String) :
    (∀ tok ∈ allTokens captions, ∃ w : List Char, tok = String.mk ('#' :: w) ∧ w ≠ [] ∧
      ∀ c ∈ w, isWordChar c = true) ∧
    (∀ key, getCount (hashtagCounts captions) key =
      ((allTokens captions).map toLowerCase).count key) ∧
    ((hashtagCounts captions).map Prod.fst).Nodup ∧
    (∀ key n, (key, n) ∈ hashtagCounts captions ↔
      0 < n ∧ n = ((allTokens captions).map toLowerCase).count key) ∧
    hashtagCounts ["Hello #world #World"] = [("#world", 2)] ∧
    trendingHashtags [⟨1, 3, "Hello #world #World", none, [], [], [], 10, Visibility.isPublic⟩] =
      [⟨"#world", "2", 2⟩] := by
  have hok := countsOk_hashtagCounts captions
  refine ⟨?_, getCount_hashtagCounts captions, hok.1, ?_, by decide, by decide⟩
  · induction captions with
    | nil => intro tok htok; cases htok
    | cons x xs ih =>
      intro tok htok
      rw [allTokens] at htok
      rcases List.mem_append.mp htok with h | h
      · exact scanTags_shape x.data none (by intro w hw; cases hw) tok h
      · exact ih (countsOk_hashtagCounts xs) tok h
  · intro key n
    rw [← getCount_hashtagCounts]
    constructor
    · intro h
      exact ⟨hok.2 _ h, (getCount_of_mem _ key n hok.1 h).symm⟩
    · rintro ⟨hpos, hn⟩
      rw [hn]
      exact mem_of_getCount_pos _ key (hn ▸ hpos)

/-! ## Trending hashtags: the `posts` field -/

theorem not_isKForm_of_last (s : String) (c : Char) (hc : c ≠ 'k')
    (h : s.data.getLast? = some c) : ¬ IsKForm s := by
  rintro ⟨a, d, -, hs⟩
  rw [hs] at h
  have hk : (toString a ++ "." ++ toString d ++ "k").data.getLast? = some 'k' := by
    have : (toString a ++ "." ++ toString d ++ "k").data =
        (toString a ++ "." ++ toString d).data ++ ['k'] := by
      rw [String.data_append]
    rw [this, List.getLast?_append]
    rfl
  rw [hk] at h
  exact hc (Option.some.inj h).symm

theorem getLast?_cons_of_ne (c : Char) (ds : List Char) (h : ds ≠ []) :
    (c :: ds).getLast? = ds.getLast? := by
  cases ds with
  | nil => exact absurd rfl h
  | cons d rest => simp [List.getLast?_cons_cons]

theorem toDigitsCore_getLast (b fuel n : Nat) (ds : List Char) (h : ds ≠ []) :
    (Nat.toDigitsCore b fuel n ds).getLast? = ds.getLast? := by
  induction fuel generalizing n ds with
  | zero => rfl
  | succ f ih =>
    simp only [Nat.toDigitsCore]
    split
    · rw [getLast?_cons_of_ne _ _ h]
    · rw [ih _ _ (List.cons_ne_nil _ _), getLast?_cons_of_ne _ _ h]

theorem toString_getLast (n : Nat) :
    (toString n).data.getLast? = some (Nat.digitChar (n % 10)) := by
  have h : (toString n).data = Nat.toDigits 10 n := rfl
  rw [h]
  simp only [Nat.toDigits, Nat.toDigitsCore]
  split
  · rfl
  · rw [toDigitsCore_getLast _ _ _ _ (List.cons_ne_nil _ _)]
    rfl

theorem digitChar_ne_k (n : Nat) : Nat.digitChar (n % 10) ≠ 'k' := by
  have h : n % 10 < 10 := Nat.mod_lt _ (by decide)
  interval_cases (n % 10) <;> decide

theorem not_isKForm_toString (n : Nat) : ¬ IsKForm (toString n) :=
  not_isKForm_of_last _ _ (digitChar_ne_k n) (toString_getLast n)

theorem binaryExponent_le (q : Nat) (h : q < 2 ^ 44) : binaryExponent q ≤ 43 := by
  unfold binaryExponent
  have h1 : ((List.range 53).filter (fun e => decide (2 ^ e ≤ q))).length ≤
      ((List.range 53).filter (fun e => decide (e < 44))).length := by
    rw [← List.countP_eq_length_filter, ← List.countP_eq_length_filter]
    apply List.countP_mono_left
    intro e _ he
    simp only [decide_eq_true_eq] at he ⊢
    by_contra hc
    have : 2 ^ 44 ≤ 2 ^ e := Nat.pow_le_pow_right (by decide) (by omega)
    omega
  have h2 : ((List.range 53).filter (fun e => decide (e < 44))).length = 44 := by decide
  omega

theorem divRoundHalfEven_near (a : Nat) :
    1000 * divRoundHalfEven a 1000 ≤ a + 500 ∧ a ≤ 1000 * divRoundHalfEven a 1000 + 500 := by
  have h := Nat.div_add_mod a 1000
  have hr := Nat.mod_lt a (show 0 < 1000 by decide)
  unfold divRoundHalfEven
  simp only
  split
  · omega
  · split
    · omega
    · split <;> omega

theorem toFixedTenths_near (count : Nat) (h2 : count < 2 ^ 53) :
    100 * toFixedTenths count ≤ count + 50 ∧ count ≤ 100 * toFixedTenths count + 50 := by
  have he : binaryExponent (count / 1000) ≤ 43 := by
    apply binaryExponent_le
    have : (2:Nat) ^ 53 = 9007199254740992 := by norm_num
    have : (2:Nat) ^ 44 = 17592186044416 := by norm_num
    omega
  unfold toFixedTenths
  simp only
  generalize hk : 52 - binaryExponent (count / 1000) = k
  have hk9 : 9 ≤ k := by omega
  have hK : 512 ≤ 2 ^ k := by
    have : 2 ^ 9 ≤ 2 ^ k := Nat.pow_le_pow_right (by decide) hk9
    simpa using this
  generalize hm : divRoundHalfEven (count * 2 ^ k) 1000 = m
  have hnear := divRoundHalfEven_near (count * 2 ^ k)
  rw [hm] at hnear
  rw [pow_succ]
  generalize 2 ^ k = K at *
  generalize hn : (20 * m + K) / (K * 2) = n
  have hpos : 0 < K * 2 := by omega
  have hd := Nat.div_add_mod (20 * m + K) (K * 2)
  have hmod := Nat.mod_lt (20 * m + K) hpos
  rw [hn] at hd
  have e1 : K * 2 * n = 2 * (K * n) := by ring
  rw [e1] at hd
  have e2 : count * K = K * count := by ring
  rw [e2] at hnear
  constructor
  · by_contra hc
    have hc1 : count + 51 ≤ 100 * n := by omega
    have := Nat.mul_le_mul_left K hc1
    have e3 : K * (count + 51) = K * count + 51 * K := by ring
    have e4 : K * (100 * n) = 100 * (K * n) := by ring
    rw [e3, e4] at this
    omega
  · by_contra hc
    have hc1 : 100 * n + 51 ≤ count := by omega
    have := Nat.mul_le_mul_left K hc1
    have e3 : K * (100 * n + 51) = 100 * (K * n) + 51 * K := by ring
    rw [e3] at this
    omega
/-- C17, counterexample: at count = 1000 exactly the field `posts` is the plain numeral
"1000", which is not in the "N.Nk" form. -/
theorem formatPosts_1000_plain : formatPosts 1000 = "1000" ∧ ¬ IsKForm (formatPosts 1000) := by
  have h : formatPosts 1000 = "1000" := by decide
  exact ⟨h, not_isKForm_of_last _ '0' (by decide) (by rw [h]; rfl)⟩

/-- C17, amended: the field `posts` is in the "N.Nk" form whenever count > 1000, where N.N
are the tenths that `toFixed(1)` prints for count/1000, within 0.05 of count/1000 for every
count below 2^53; it is the plain decimal rendering of count, and not in the "N.Nk" form,
whenever count ≤ 1000, count = 1000 included. -/
theorem formatPosts_spec (count : Nat) :
    (1000 < count →
      IsKForm (formatPosts count) ∧
      formatPosts count =
        toString (toFixedTenths count / 10) ++ "." ++ toString (toFixedTenths count % 10) ++
          "k" ∧
      (count < 2 ^ 53 →
        100 * toFixedTenths count ≤ count + 50 ∧ count ≤ 100 * toFixedTenths count + 50)) ∧
    (count ≤ 1000 → formatPosts count = toString count ∧ ¬ IsKForm (formatPosts count)) ∧
    ∀ captions : List String, ∀ t ∈ trending captions, t.posts = formatPosts t.count := by
  refine ⟨?_, ?_, ?_⟩
  · intro h
    have hf : formatPosts count =
        toString (toFixedTenths count / 10) ++ "." ++ toString (toFixedTenths count % 10) ++
          "k" := by
      simp [formatPosts, h, toFixed1]
    exact ⟨⟨_, _, Nat.mod_lt _ (by decide), hf⟩, hf, toFixedTenths_near count⟩
  · intro h
    have hf : formatPosts count = toString count := by
      simp [formatPosts, Nat.not_lt.mpr h]
    rw [hf]
    exact ⟨rfl, not_isKForm_toString count⟩
  · intro captions t ht
    simp only [trending, List.mem_map] at ht
    obtain ⟨e, -, rfl⟩ := ht
    rfl

/-- Witness of C17 (amended) at count = 1500 and at count = 1000, with the fields printed
for 1001, 1150, 1250 and 1500. -/
theorem formatPosts_spec_witness :
    (IsKForm (formatPosts 1500) ∧
      formatPosts 1500 =
        toString (toFixedTenths 1500 / 10) ++ "." ++ toString (toFixedTenths 1500 % 10) ++
          "k" ∧
      (1500 < 2 ^ 53 →
        100 * toFixedTenths 1500 ≤ 1500 + 50 ∧ 1500 ≤ 100 * toFixedTenths 1500 + 50)) ∧
    (formatPosts 1000 = toString 1000 ∧ ¬ IsKForm (formatPosts 1000)) ∧
    formatPosts 1001 = "1.0k" ∧ formatPosts 1150 = "1.1k" ∧ formatPosts 1250 = "1.3k" ∧
    formatPosts 1500 = "1.5k" :=
  ⟨(formatPosts_spec 1500).1 (by decide), (formatPosts_spec 1000).2.1 (by decide),
    by decide, by decide, by decide, by decide⟩

/-! ## Trending hashtags: the display tag -/

theorem key_of_mem_hashtagCounts (captions : List String) (e : String × Nat)
    (h : e ∈ hashtagCounts captions) :
    ∃ w : List Char, e.1 = String.mk ('#' :: w.map Char.toLower) := by
  obtain ⟨k, n⟩ := e
  have hok := countsOk_hashtagCounts captions
  have hn := getCount_of_mem _ k n hok.1 h
  have hpos := hok.2 _ h
  rw [getCount_hashtagCounts] at hn
  have hmem : k ∈ (allTokens captions).map toLowerCase := by
    apply List.count_pos_iff.mp
    rw [hn]
    exact hpos
  obtain ⟨tok, htok, rfl⟩ := List.mem_map.mp hmem
  have hshape : ∀ tok ∈ allTokens captions, ∃ w : List Char, tok = String.mk ('#' :: w) := by
    clear hmem hn htok h hok hpos
    induction captions with
    | nil => intro tok htok; cases htok
    | cons x xs ih =>
      intro tok htok
      rw [allTokens] at htok
      rcases List.mem_append.mp htok with h | h
      · obtain ⟨w, hw, -⟩ := scanTags_shape x.data none (by intro w hw; cases hw) tok h
        exact ⟨w, hw⟩
      · exact ih tok h
  obtain ⟨w, rfl⟩ := hshape tok htok
  exact ⟨w, rfl⟩

/-- C19, the behaviour of the code: the display tag of every trending entry is the
lower-cased counting key itself, because the character that `charAt(0).toUpperCase()` acts on
is the leading `#`; the caption "I love #travel" is answered with the tag "#travel". -/
theorem displayTag_is_key :
    (∀ captions : List String, ∀ t ∈ trending captions,
      ∃ e ∈ hashtagCounts captions, t.tag = e.1 ∧ t.count = e.2) ∧
    trendingHashtags [⟨1, 3, "I love #travel", none, [], [], [], 10, Visibility.isPublic⟩] =
      [⟨"#travel", "1", 1⟩] := by
  refine ⟨?_, by decide⟩
  intro captions t ht
  simp only [trending, List.mem_map] at ht
  obtain ⟨e, he, rfl⟩ := ht
  have hmem : e ∈ hashtagCounts captions := by
    have h1 : e ∈ sortedCounts captions := List.mem_of_mem_take he
    exact (List.perm_insertionSort byCountDesc _).mem_iff.mp h1
  refine ⟨e, hmem, ?_, rfl⟩
  obtain ⟨w, hw⟩ := key_of_mem_hashtagCounts captions e hmem
  simp only [displayTag, hw]
  rfl

/-! ## Trending hashtags: the five most frequent -/

theorem mem_hashtagCounts_iff (captions : List String) (key : String) (n : Nat) :
    (key, n) ∈ hashtagCounts captions ↔
      0 < n ∧ n = ((allTokens captions).map toLowerCase).count key := by
  have hok := countsOk_hashtagCounts captions
  rw [← getCount_hashtagCounts]
  constructor
  · intro h
    exact ⟨hok.2 _ h, (getCount_of_mem _ key n hok.1 h).symm⟩
  · rintro ⟨hpos, hn⟩
    rw [hn]
    exact mem_of_getCount_pos _ key (hn ▸ hpos)

theorem mem_keys_iff (captions : List String) (key : String) :
    key ∈ (hashtagCounts captions).map Prod.fst ↔
      key ∈ (allTokens captions).map toLowerCase := by
  constructor
  · intro h
    obtain ⟨e, he, rfl⟩ := List.mem_map.mp h
    obtain ⟨k, n⟩ := e
    have := (mem_hashtagCounts_iff captions k n).mp he
    apply List.count_pos_iff.mp
    show 0 < List.count k (List.map toLowerCase (allTokens captions))
    omega
  · intro h
    have hpos := List.count_pos_iff.mpr h
    exact List.mem_map.mpr
      ⟨(key, _), (mem_hashtagCounts_iff captions key _).mpr ⟨hpos, rfl⟩, rfl⟩

theorem length_hashtagCounts (captions : List String) :
    (hashtagCounts captions).length = ((allTokens captions).map toLowerCase).dedup.length := by
  have hperm : ((hashtagCounts captions).map Prod.fst).Perm
      ((allTokens captions).map toLowerCase).dedup := by
    apply (List.perm_ext_iff_of_nodup (countsOk_hashtagCounts captions).1
      (List.nodup_dedup _)).mpr
    intro k
    rw [mem_keys_iff, List.mem_dedup]
  have := hperm.length_eq
  simpa using this

theorem sortedCounts_sorted (captions : List String) :
    (sortedCounts captions).Pairwise byCountDesc :=
  List.sorted_insertionSort byCountDesc _

theorem displayTag_key (captions : List String) (e : String × Nat)
    (h : e ∈ hashtagCounts captions) : displayTag e.1 = e.1 := by
  obtain ⟨w, hw⟩ := key_of_mem_hashtagCounts captions e h
  simp only [displayTag, hw]
  rfl

/-- C18: the trending result has exactly min(5, number of distinct lower-cased tags)
entries, hence at most 5; its counts are in non-increasing order; and no tag of the corpus
that is left out of the result has a count strictly greater than a tag included in it. -/
theorem trending_top_five (captions : List String) :
    (trending captions).length = min 5 ((allTokens captions).map toLowerCase).dedup.length ∧
    (trending captions).length ≤ 5 ∧
    ((trending captions).map Trend.count).Pairwise (fun a b => b ≤ a) ∧
    (∀ e ∈ hashtagCounts captions, (∀ t ∈ trending captions, t.tag ≠ e.1) →
      ∀ t ∈ trending captions, e.2 ≤ t.count) := by
  have hlen : (trending captions).length =
      min 5 ((allTokens captions).map toLowerCase).dedup.length := by
    simp only [trending, List.length_map, List.length_take, sortedCounts,
      List.length_insertionSort, length_hashtagCounts]
  have hsorted := sortedCounts_sorted captions
  refine ⟨hlen, by rw [hlen]; exact Nat.min_le_left _ _, ?_, ?_⟩
  · have htake : ((sortedCounts captions).take 5).Pairwise byCountDesc :=
      hsorted.sublist (List.take_sublist _ _)
    simp only [trending, List.map_map]
    rw [List.pairwise_map]
    exact htake
  · intro e he hout t ht
    have hsplit : sortedCounts captions =
        (sortedCounts captions).take 5 ++ (sortedCounts captions).drop 5 :=
      (List.take_append_drop 5 _).symm
    have hmem : e ∈ sortedCounts captions :=
      (List.perm_insertionSort byCountDesc _).mem_iff.mpr he
    simp only [trending, List.mem_map] at ht
    obtain ⟨x, hx, rfl⟩ := ht
    have hxmem : x ∈ hashtagCounts captions :=
      (List.perm_insertionSort byCountDesc _).mem_iff.mp (List.mem_of_mem_take hx)
    have hdrop : e ∈ (sortedCounts captions).drop 5 := by
      rw [hsplit] at hmem
      rcases List.mem_append.mp hmem with h | h
      · exfalso
        refine hout ⟨displayTag e.1, formatPosts e.2, e.2⟩ ?_ (displayTag_key captions e he)
        simp only [trending, List.mem_map]
        exact ⟨e, h, rfl⟩
      · exact h
    rw [hsplit] at hsorted
    exact (List.pairwise_append.mp hsorted).2.2 x hx e hdrop

/-! ## Pagination parameters -/

theorem queryInt_spec (param : Option String) (dflt : Int) :
    (parseInt (param.getD "undefined") = none → queryInt param dflt = dflt) ∧
    (parseInt (param.getD "undefined") = some 0 → queryInt param dflt = dflt) ∧
    (∀ n : Int, n ≠ 0 → parseInt (param.getD "undefined") = some n →
      queryInt param dflt = n) := by
  refine ⟨?_, ?_, ?_⟩
  · intro h; simp [queryInt, h]
  · intro h; simp [queryInt, h]
  · intro n hn h; simp [queryInt, h, hn]

theorem queryInt_pos (param : Option String) (dflt : Int) (hd : 1 ≤ dflt)
    (h : ∀ n : Int, parseInt (param.getD "undefined") = some n → 0 ≤ n) :
    1 ≤ queryInt param dflt := by
  unfold queryInt
  cases hp : parseInt (param.getD "undefined") with
  | none => exact hd
  | some n =>
    have := h n hp
    simp only
    split
    · exact hd
    · omega

theorem pageParams_spec (dflt : Int) (hd : 1 ≤ dflt) (page limit : Option String) :
    (pageParams dflt page limit).page = queryInt page 1 ∧
    (pageParams dflt page limit).limit = queryInt limit dflt ∧
    (pageParams dflt page limit).skip =
      ((pageParams dflt page limit).page - 1) * (pageParams dflt page limit).limit ∧
    ((∀ n : Int, parseInt (page.getD "undefined") = some n → 0 ≤ n) →
      (∀ n : Int, parseInt (limit.getD "undefined") = some n → 0 ≤ n) →
      1 ≤ (pageParams dflt page limit).page ∧ 1 ≤ (pageParams dflt page limit).limit ∧
        0 ≤ (pageParams dflt page limit).skip) := by
  refine ⟨rfl, rfl, rfl, ?_⟩
  intro h1 h2
  have hp := queryInt_pos page 1 (le_refl 1) h1
  have hl := queryInt_pos limit dflt hd h2
  refine ⟨hp, hl, ?_⟩
  show 0 ≤ (queryInt page 1 - 1) * queryInt limit dflt
  apply Int.mul_nonneg <;> omega

/-- C20, counterexample: the page parameter "-5" is not replaced by the default: `parseInt`
reads -5, which is truthy, so the effective page is -5 and the computed skip is -60 on the
feed and -120 on the admin listings; a negative limit is kept in the same way. -/
theorem negative_page_kept :
    parseInt "-5" = some (-5) ∧
    feedParams (some "-5") none = ⟨-5, 10, -60⟩ ∧
    (feedParams (some "-5") none).page ≠ 1 ∧
    (feedParams (some "-5") none).skip < 0 ∧
    adminParams (some "-5") none = ⟨-5, 20, -120⟩ ∧
    feedParams (some "2") (some "-3") = ⟨2, -3, -3⟩ := by
  decide

/-- C20, amended: for every value of the page and limit parameters of the feed (default
limit 10) and of the admin listings (default limit 20), the effective page is the integer
read by `parseInt` when that integer is not zero, negative integers included, and 1 when
the parameter is absent, does not start with an integer, or reads as zero; the effective
limit is read in the same way with the endpoint default; skip is (page - 1) * limit, and it
is non-negative, with page and limit at least 1, whenever neither parameter reads as a
negative integer. -/
theorem page_params_effective (page limit : Option String) :
    (∀ dflt : Int, dflt = 10 ∨ dflt = 20 →
      ((parseInt (page.getD "undefined") = none ∨ parseInt (page.getD "undefined") = some 0) →
        (pageParams dflt page limit).page = 1) ∧
      (∀ n : Int, n ≠ 0 → parseInt (page.getD "undefined") = some n →
        (pageParams dflt page limit).page = n) ∧
      ((parseInt (limit.getD "undefined") = none ∨
          parseInt (limit.getD "undefined") = some 0) →
        (pageParams dflt page limit).limit = dflt) ∧
      (∀ n : Int, n ≠ 0 → parseInt (limit.getD "undefined") = some n →
        (pageParams dflt page limit).limit = n) ∧
      (pageParams dflt page limit).skip =
        ((pageParams dflt page limit).page - 1) * (pageParams dflt page limit).limit ∧
      ((∀ n : Int, parseInt (page.getD "undefined") = some n → 0 ≤ n) →
        (∀ n : Int, parseInt (limit.getD "undefined") = some n → 0 ≤ n) →
        1 ≤ (pageParams dflt page limit).page ∧ 1 ≤ (pageParams dflt page limit).limit ∧
          0 ≤ (pageParams dflt page limit).skip)) ∧
    feedParams page limit = pageParams 10 page limit ∧
    adminParams page limit = pageParams 20 page limit ∧
    feedParams none none = ⟨1, 10, 0⟩ ∧ adminParams none none = ⟨1, 20, 0⟩ ∧
    feedParams (some "abc") (some "") = ⟨1, 10, 0⟩ ∧
    feedParams (some "0") (some "0") = ⟨1, 10, 0⟩ ∧
    feedParams (some "3") (some "25") = ⟨3, 25, 50⟩ := by
  refine ⟨?_, rfl, rfl, by decide, by decide, by decide, by decide, by decide⟩
  intro dflt hd
  have hd1 : 1 ≤ dflt := by rcases hd with h | h <;> omega
  obtain ⟨h1, h2, h3, h4⟩ := pageParams_spec dflt hd1 page limit
  have hp := queryInt_spec page 1
  have hl := queryInt_spec limit dflt
  refine ⟨?_, ?_, ?_, ?_, h3, h4⟩
  · rintro (h | h)
    · rw [h1]; exact hp.1 h
    · rw [h1]; exact hp.2.1 h
  · intro n hn h
    rw [h1]; exact hp.2.2 n hn h
  · rintro (h | h)
    · rw [h2]; exact hl.1 h
    · rw [h2]; exact hl.2.1 h
  · intro n hn h
    rw [h2]; exact hl.2.2 n hn h

/-- Witness of C20 (amended): page "-5" is kept on the feed, page "0" falls back, and page
"3" with limit "25" gives a non-negative skip. -/
theorem page_params_effective_witness :
    (pageParams 10 (some "-5") none).page = -5 ∧
    (pageParams 10 (some "0") none).page = 1 ∧
    (pageParams 20 none (some "x")).limit = 20 ∧
    (1 ≤ (pageParams 10 (some "3") (some "25")).page ∧
      1 ≤ (pageParams 10 (some "3") (some "25")).limit ∧
      0 ≤ (pageParams 10 (some "3") (some "25")).skip) :=
  ⟨((page_params_effective (some "-5") none).1 10 (Or.inl rfl)).2.1 (-5) (by decide)
      (by decide),
    ((page_params_effective (some "0") none).1 10 (Or.inl rfl)).1 (Or.inr (by decide)),
    ((page_params_effective none (some "x")).1 20 (Or.inr rfl)).2.2.1 (Or.inl (by decide)),
    ((page_params_effective (some "3") (some "25")).1 10 (Or.inl rfl)).2.2.2.2.2
      (by intro n h; have h1 : parseInt "3" = some 3 := by decide
          rw [show (some "3" : Option String).getD "undefined" = "3" from rfl, h1] at h
          cases h; decide)
      (by intro n h; have h1 : parseInt "25" = some 25 := by decide
          rw [show (some "25" : Option String).getD "undefined" = "25" from rfl, h1] at h
          cases h; decide)⟩

/-! ## The username loop of the Google strategy -/

theorem digitChar_value (n : Nat) (h : n < 10) : (Nat.digitChar n).toNat - 48 = n := by
  interval_cases n <;> rfl

theorem decode_toDigitsCore (fuel n : Nat) (ds : List Char) (h : n < fuel) :
    (Nat.toDigitsCore 10 fuel n ds).foldl (fun acc c => acc * 10 + (c.toNat - 48)) 0 =
      ds.foldl (fun acc c => acc * 10 + (c.toNat - 48)) n := by
  induction fuel generalizing n ds with
  | zero => omega
  | succ f ih =>
    have hd := digitChar_value (n % 10) (Nat.mod_lt _ (by decide))
    simp only [Nat.toDigitsCore]
    split
    · rename_i h0
      simp only [List.foldl_cons, hd]
      have : 0 * 10 + n % 10 = n := by omega
      rw [this]
    · rename_i h0
      rw [ih (n / 10) _ (by omega)]
      simp only [List.foldl_cons, hd]
      have : n / 10 * 10 + n % 10 = n := by omega
      rw [this]

theorem decode_toString (n : Nat) : decodeDecimal (toString n).data = n := by
  have h : (toString n).data = Nat.toDigits 10 n := rfl
  rw [h, decodeDecimal, Nat.toDigits, decode_toDigitsCore _ _ _ (Nat.lt_succ_self n)]
  rfl

theorem toString_injective (a b : Nat) (h : toString a = toString b) : a = b := by
  have := congrArg (fun s : String => decodeDecimal s.data) h
  simpa [decode_toString] using this

theorem toString_data_ne_nil (n : Nat) : (toString n).data ≠ [] := by
  intro h
  have := toString_getLast n
  rw [h] at this
  cases this

theorem candidate_injective (base : String) (a b : Nat)
    (h : candidate base a = candidate base b) : a = b := by
  have hne : ∀ k : Nat, base ≠ base ++ toString (k + 1) := by
    intro k hk
    have h1 := congrArg String.data hk
    rw [String.data_append] at h1
    have h2 : base.data ++ [] = base.data ++ (toString (k + 1)).data := by simpa using h1
    exact toString_data_ne_nil (k + 1) (List.append_cancel_left h2).symm
  cases a with
  | zero =>
    cases b with
    | zero => rfl
    | succ b => exact absurd h (hne b)
  | succ a =>
    cases b with
    | zero => exact absurd h.symm (hne a)
    | succ b =>
      have h1 := congrArg String.data h
      simp only [candidate, String.data_append] at h1
      have h2 := List.append_cancel_left h1
      exact toString_injective _ _ (String.ext h2)

theorem candidate_free_exists (store : List User) (base : String) :
    ∃ k, k ≤ store.length ∧ usernameTaken store (candidate base k) = false := by
  by_contra hc
  have hall : ∀ k, k ≤ store.length → usernameTaken store (candidate base k) = true := by
    intro k hk
    by_contra h
    exact hc ⟨k, hk, by simpa using h⟩
  have hnd : ((List.range (store.length + 1)).map (candidate base)).Nodup :=
    (List.nodup_range _).map (fun a b h => candidate_injective base a b h)
  have hsub : (List.range (store.length + 1)).map (candidate base) ⊆
      store.map (fun u => u.username) := by
    intro x hx
    obtain ⟨k, hk, rfl⟩ := List.mem_map.mp hx
    have := hall k (by have := List.mem_range.mp hk; omega)
    simp only [usernameTaken, List.any_eq_true, beq_iff_eq] at this
    obtain ⟨u, hu, hue⟩ := this
    exact List.mem_map.mpr ⟨u, hu, hue⟩
  have := (List.subperm_of_subset hnd hsub).length_le
  simp at this

theorem loop_step (store : List User) (base : String) (fuel j : Nat) :
    uniqueUsernameLoop store base (fuel + 1) (candidate base j) (j + 1) =
      if usernameTaken store (candidate base j) then
        uniqueUsernameLoop store base fuel (candidate base (j + 1)) (j + 2)
      else some (candidate base j) := rfl

theorem loop_result (store : List User) (base : String) (fuel j : Nat)
    (hprev : ∀ i, i < j → usernameTaken store (candidate base i) = true)
    (hfree : ∃ k, j ≤ k ∧ k < j + fuel ∧ usernameTaken store (candidate base k) = false) :
    ∃ k, uniqueUsernameLoop store base fuel (candidate base j) (j + 1) =
        some (candidate base k) ∧
      usernameTaken store (candidate base k) = false ∧
      ∀ i, i < k → usernameTaken store (candidate base i) = true := by
  induction fuel generalizing j with
  | zero =>
    obtain ⟨k, h1, h2, -⟩ := hfree
    omega
  | succ f ih =>
    rw [loop_step]
    cases ht : usernameTaken store (candidate base j) with
    | false => exact ⟨j, by simp, ht, hprev⟩
    | true =>
      simp only [if_true]
      apply ih (j + 1)
      · intro i hi
        rcases Nat.lt_succ_iff_lt_or_eq.mp hi with h | h
        · exact hprev i h
        · rw [h]; exact ht
      · obtain ⟨k, h1, h2, h3⟩ := hfree
        refine ⟨k, ?_, by omega, h3⟩
        rcases Nat.eq_or_lt_of_le h1 with h | h
        · rw [← h, ht] at h3
          cases h3
        · exact h

theorem uniqueUsername_spec (store : List User) (base : String) :
    ∃ k, uniqueUsername store base = some (candidate base k) ∧
      usernameTaken store (candidate base k) = false ∧
      ∀ i, i < k → usernameTaken store (candidate base i) = true := by
  obtain ⟨k, hk, hfree⟩ := candidate_free_exists store base
  exact loop_result store base (store.length + 1) 0 (by intro i hi; omega)
    ⟨k, by omega, by omega, hfree⟩

theorem userCreate_ok (env : Env) (store : List User) (newId : ObjectId) (nu : NewUser)
    (u : User) (store1 : List User) (h : userCreate env store newId nu = .ok (u, store1)) :
    store1 = store ++ [u] ∧ some u.username = nu.username ∧
      (∃ pw, nu.password = some pw ∧
        u.password = some (if startsWith pw "google_" then pw else env.bcryptHash pw)) ∧
      u.id = newId ∧ u.role = nu.role ∧
      some u.email = nu.email.map env.normalizeEmail := by
  rcases userCreate_cases env store newId nu with ⟨msg, hm⟩ | ⟨e, n, pw, he, hn, hp, -, -, hok⟩
  · rw [hm] at h
    cases h
  · rw [hok] at h
    simp only [Except.ok.injEq, Prod.mk.injEq] at h
    obtain ⟨h1, h2⟩ := h
    subst h1 h2
    exact ⟨rfl, by rw [hn], ⟨pw, hp, rfl⟩, rfl, rfl, by rw [he]; rfl⟩

/-- C21: for every finite user store the username loop of the Google strategy terminates
within one more iteration than there are users, and yields the first free candidate: the
base name if no user has it, otherwise the base name followed by the smallest k ≥ 1 whose
candidate is free. When the email is already registered the stored user is handed on and
the store is unchanged; when it is not, a created user carries the loop's username, which no
user of the previous store has, and is the only document added. -/
theorem google_username (env : Env) (lower : String → String) (nowMs : Nat) (newId : ObjectId)
    (store : List User) (p : GoogleProfile) :
    (∃ k, uniqueUsername store (baseUsername lower p) =
        some (candidate (baseUsername lower p) k) ∧
      usernameTaken store (candidate (baseUsername lower p) k) = false ∧
      ∀ i, i < k → usernameTaken store (candidate (baseUsername lower p) i) = true) ∧
    (∀ u, findOneByEmail env store (some p.email) = some u →
      googleVerify env lower nowMs newId store p = .ok (u, store)) ∧
    (findOneByEmail env store (some p.email) = none →
      ∀ u store1, googleVerify env lower nowMs newId store p = .ok (u, store1) →
        store1 = store ++ [u] ∧
        some u.username = uniqueUsername store (baseUsername lower p) ∧
        ∀ x ∈ store, x.username ≠ u.username) := by
  obtain ⟨k, hk, hfree, hmin⟩ := uniqueUsername_spec store (baseUsername lower p)
  refine ⟨⟨k, hk, hfree, hmin⟩, ?_, ?_⟩
  · intro u hu
    simp [googleVerify, hu]
  · intro hnone u store1 hv
    simp only [googleVerify, hnone, hk] at hv
    obtain ⟨h1, h2, -⟩ := userCreate_ok env store newId _ u store1 hv
    refine ⟨h1, by rw [hk]; exact h2, ?_⟩
    intro x hx hxu
    have hu : u.username = candidate (baseUsername lower p) k := by
      simpa using h2
    have : usernameTaken store (candidate (baseUsername lower p) k) = true := by
      simp only [usernameTaken, List.any_eq_true, beq_iff_eq]
      exact ⟨x, hx, by rw [hxu, hu]⟩
    rw [hfree] at this
    cases this

/-- Witness of C21: with "janedoe" and "janedoe1" taken, the profile "Jane  Doe" is created
as "janedoe2". -/
theorem google_username_witness :
    (∀ u store1, googleVerify referenceEnv toLowerCase 1700000000000 9
        [⟨3, "b@x.com", some "h", "janedoe", [], [], [], [], Role.user, none⟩,
          ⟨4, "c@x.com", some "h", "janedoe1", [], [], [], [], Role.user, none⟩]
        ⟨"123456789012345678901", some "Jane  Doe", "Jane@x.com"⟩ = .ok (u, store1) →
      store1 = [⟨3, "b@x.com", some "h", "janedoe", [], [], [], [], Role.user, none⟩,
          ⟨4, "c@x.com", some "h", "janedoe1", [], [], [], [], Role.user, none⟩] ++ [u] ∧
      some u.username = uniqueUsername
        [⟨3, "b@x.com", some "h", "janedoe", [], [], [], [], Role.user, none⟩,
          ⟨4, "c@x.com", some "h", "janedoe1", [], [], [], [], Role.user, none⟩]
        (baseUsername toLowerCase ⟨"123456789012345678901", some "Jane  Doe", "Jane@x.com"⟩) ∧
      ∀ x ∈ [(⟨3, "b@x.com", some "h", "janedoe", [], [], [], [], Role.user, none⟩ : User),
          ⟨4, "c@x.com", some "h", "janedoe1", [], [], [], [], Role.user, none⟩],
        x.username ≠ u.username) ∧
    (googleVerify referenceEnv toLowerCase 1700000000000 9
        [⟨3, "b@x.com", some "h", "janedoe", [], [], [], [], Role.user, none⟩,
          ⟨4, "c@x.com", some "h", "janedoe1", [], [], [], [], Role.user, none⟩]
        ⟨"123456789012345678901", some "Jane  Doe", "Jane@x.com"⟩).toOption.map
      (fun r => (r.1.username, r.1.password)) =
      some ("janedoe2", some "google_123456789012345678901_1700000000000") :=
  ⟨(google_username referenceEnv toLowerCase 1700000000000 9
    [⟨3, "b@x.com", some "h", "janedoe", [], [], [], [], Role.user, none⟩,
      ⟨4, "c@x.com", some "h", "janedoe1", [], [], [], [], Role.user, none⟩]
    ⟨"123456789012345678901", some "Jane  Doe", "Jane@x.com"⟩).2.2 (by decide), by decide⟩

/-! ## Password login of an account created by the Google strategy -/

theorem googleSentinel_prefix (p : GoogleProfile) (nowMs : Nat) :
    startsWith (googleSentinel p nowMs) "google_" = true := by
  have : googleSentinel p nowMs = "google_" ++ (p.id ++ "_" ++ toString nowMs) := by
    simp [googleSentinel, String.append_assoc]
  rw [this]
  exact startsWith_append _ _

theorem googleSentinel_not_hash (p : GoogleProfile) (nowMs : Nat) :
    startsWith (googleSentinel p nowMs) "$2" = false := by
  have : googleSentinel p nowMs = "google_" ++ (p.id ++ "_" ++ toString nowMs) := by
    simp [googleSentinel, String.append_assoc]
  rw [this]
  simp only [startsWith, String.data_append]
  rfl

theorem bcryptCompare_sentinel (env : Env) (p : GoogleProfile) (nowMs : Nat) (pw : String) :
    bcryptCompare env (some pw) (some (googleSentinel p nowMs)) =
      if jsLength (googleSentinel p nowMs) = 60 then .error "Invalid salt version"
      else .ok false := by
  simp only [bcryptCompare, googleSentinel_not_hash]
  by_cases h : jsLength (googleSentinel p nowMs) = 60 <;> simp [h]

theorem find?_append_of_none {α : Type} (q : α → Bool) (l : List α) (a : α)
    (h : l.find? q = none) (ha : q a = true) : (l ++ [a]).find? q = some a := by
  rw [List.find?_append, h]
  simp [ha]

theorem google_created (env : Env) (lower : String → String) (nowMs : Nat) (newId : ObjectId)
    (store : List User) (p : GoogleProfile) (u : User) (store1 : List User)
    (hnew : findOneByEmail env store (some p.email) = none)
    (hv : googleVerify env lower nowMs newId store p = .ok (u, store1)) :
    u.password = some (googleSentinel p nowMs) ∧
      findOneByEmail env store1 (some p.email) = some u := by
  obtain ⟨k, hk, -, -⟩ := uniqueUsername_spec store (baseUsername lower p)
  simp only [googleVerify, hnew, hk] at hv
  obtain ⟨h1, -, h3, -, -, h6⟩ := userCreate_ok env store newId _ u store1 hv
  have hpw : u.password = some (googleSentinel p nowMs) := by
    obtain ⟨pw, hpw1, hpw2⟩ := h3
    simp only [Option.some.injEq] at hpw1
    subst hpw1
    have := googleSentinel_prefix p nowMs
    simp only [googleSentinel] at this
    rw [hpw2, if_pos this]
    rfl
  refine ⟨hpw, ?_⟩
  rw [h1]
  simp only [findOneByEmail] at hnew ⊢
  apply find?_append_of_none _ _ _ hnew
  simp only [Option.map_some', Option.some.injEq] at h6
  simp [h6]

/-- C22, counterexample: a provider id of 39 characters gives a sentinel of exactly 60 code
units; bcryptjs then takes its first characters as a salt and throws, and the login under
that account's email is answered 500, not 401. -/
theorem google_login_sentinel_60 :
    jsLength (googleSentinel
      ⟨"123456789012345678901234567890123456789", some "Jane Doe", "jane@x.com"⟩
      1700000000000) = 60 ∧
    googleVerify referenceEnv toLowerCase 1700000000000 9 []
        ⟨"123456789012345678901234567890123456789", some "Jane Doe", "jane@x.com"⟩ =
      .ok (⟨9, "jane@x.com",
          some "google_123456789012345678901234567890123456789_1700000000000", "janedoe",
          [], [], [], [], Role.user, none⟩,
        [⟨9, "jane@x.com",
          some "google_123456789012345678901234567890123456789_1700000000000", "janedoe",
          [], [], [], [], Role.user, none⟩]) ∧
    login referenceEnv 5
        [⟨9, "jane@x.com",
          some "google_123456789012345678901234567890123456789_1700000000000", "janedoe",
          [], [], [], [], Role.user, none⟩]
        (some "jane@x.com") (some "secret1") =
      fail 500 "Server error during login" :=
  ⟨by decide, rfl, by decide⟩

/-- C22, amended: for every account created by the Google strategy, the stored credential
is the sentinel `google_<id>_<timestamp>`, unhashed, and a password login under that
account's email never succeeds and never issues a token, whatever password is supplied,
the sentinel itself included; it is answered 401 "Invalid credentials" for every supplied
password whenever the sentinel is not exactly 60 code units long. -/
theorem google_login_fails (env : Env) (lower : String → String) (nowMs : Nat)
    (newId : ObjectId) (store : List User) (p : GoogleProfile) (u : User)
    (store1 : List User) (hnew : findOneByEmail env store (some p.email) = none)
    (hv : googleVerify env lower nowMs newId store p = .ok (u, store1)) :
    u.password = some (googleSentinel p nowMs) ∧
    (∀ (now : Nat) (pw : Option String),
      (login env now store1 (some p.email) pw).success = false ∧
      (login env now store1 (some p.email) pw).token = none) ∧
    (jsLength (googleSentinel p nowMs) ≠ 60 → ∀ (now : Nat) (pw : String),
      login env now store1 (some p.email) (some pw) = fail 401 "Invalid credentials") := by
  obtain ⟨hpw, hfind⟩ := google_created env lower nowMs newId store p u store1 hnew hv
  refine ⟨hpw, ?_, ?_⟩
  · intro now pw
    cases pw with
    | none => simp [login, hfind, hpw, bcryptCompare, fail]
    | some s =>
      simp only [login, hfind, hpw, bcryptCompare_sentinel]
      by_cases h : jsLength (googleSentinel p nowMs) = 60 <;> simp [h, fail]
  · intro h now pw
    simp only [login, hfind, hpw, bcryptCompare_sentinel]
    simp [h]

/-- Witness of C22 (amended): an account created for a 21-digit provider id rejects its own
sentinel with 401. -/
theorem google_login_fails_witness :
    login referenceEnv 5
        [⟨9, "jane@x.com", some "google_123456789012345678901_1700000000000", "janedoe",
          [], [], [], [], Role.user, none⟩]
        (some "jane@x.com") (some "google_123456789012345678901_1700000000000") =
      fail 401 "Invalid credentials" :=
  (google_login_fails referenceEnv toLowerCase 1700000000000 9 []
    ⟨"123456789012345678901", some "Jane Doe", "jane@x.com"⟩
    ⟨9, "jane@x.com", some "google_123456789012345678901_1700000000000", "janedoe",
      [], [], [], [], Role.user, none⟩
    [⟨9, "jane@x.com", some "google_123456789012345678901_1700000000000", "janedoe",
      [], [], [], [], Role.user, none⟩]
    (by decide) rfl).2.2 (by decide) 5 "google_123456789012345678901_1700000000000"

/-! ## Admin login -/

theorem find?_replaceUser (store : List User) (q : User → Bool) (found promoted : User)
    (hid : promoted.id = found.id) (hq : q promoted = true)
    (h : store.find? q = some found) :
    (replaceUser store promoted).find? q = some promoted := by
  induction store with
  | nil => cases h
  | cons x xs ih =>
    have hcons : replaceUser (x :: xs) promoted =
        (if x.id == promoted.id then promoted else x) :: replaceUser xs promoted := rfl
    rw [hcons, List.find?_cons]
    rw [List.find?_cons] at h
    cases hx : q x with
    | true =>
      rw [hx] at h
      simp only [Option.some.injEq] at h
      subst h
      simp [hid, hq]
    | false =>
      rw [hx] at h
      by_cases hc : (x.id == promoted.id) = true
      · simp [hc, hq]
      · simp only [hc, Bool.false_eq_true, if_false, hx]
        exact ih h

theorem adminLogin_rejects (env : Env) (now : Nat) (newId : ObjectId) (store : List User)
    (email password : Option String)
    (h : ∀ cred ∈ adminCredentials, some cred.email = email → password ≠ some cred.password) :
    adminLogin env now newId store email password =
      (fail 401 "Invalid admin credentials", store) := by
  unfold adminLogin
  cases hf : adminCredentials.find? (fun cred => some cred.email == email) with
  | none => rfl
  | some cred =>
    have hmem := List.mem_of_find?_eq_some hf
    have heq : some cred.email = email := by simpa using List.find?_some hf
    have := h cred hmem heq
    simp [this]

theorem adminLogin_success (env : Env) (now : Nat) (newId : ObjectId) (store : List User)
    (email password : Option String)
    (hs : (adminLogin env now newId store email password).1.success = true) :
    ∃ u, findOneByEmail env (adminLogin env now newId store email password).2 email = some u ∧
      u.role = Role.admin ∧
      (adminLogin env now newId store email password).1.userId = some u.id ∧
      (∃ cred ∈ adminCredentials, some cred.email = email ∧ password = some cred.password) := by
  unfold adminLogin at hs ⊢
  cases hf : adminCredentials.find? (fun cred => some cred.email == email) with
  | none => simp [hf, fail] at hs
  | some cred =>
    have hmem := List.mem_of_find?_eq_some hf
    have heq : some cred.email = email := by simpa using List.find?_some hf
    simp only [hf] at hs ⊢
    by_cases hp : password = some cred.password
    swap
    · simp [hp, fail] at hs
    · have hp1 : (password != some cred.password) = false := by simp [hp]
      simp only [hp1, Bool.false_eq_true, if_false] at hs ⊢
      cases hfind : findOneByEmail env store email with
      | none =>
        simp only [hfind] at hs ⊢
        cases hc : userCreate env store newId
            { email := some cred.email, password := some cred.password,
              username := some cred.username, interests := [], emotions := [],
              role := Role.admin } with
        | error e => simp [hc, fail] at hs
        | ok r =>
          obtain ⟨u, store1⟩ := r
          obtain ⟨h1, -, -, -, h5, h6⟩ := userCreate_ok env store newId _ u store1 hc
          simp only
          refine ⟨u, ?_, h5, rfl, cred, hmem, heq, hp⟩
          rw [h1, ← heq]
          rw [← heq] at hfind
          simp only [findOneByEmail] at hfind ⊢
          apply find?_append_of_none _ _ _ hfind
          simp only [Option.map_some', Option.some.injEq] at h6
          simp [h6]
      | some found =>
        simp only [hfind] at hs ⊢
        have hfe : ∃ e, email = some e := ⟨cred.email, heq.symm⟩
        obtain ⟨e, he⟩ := hfe
        by_cases hr : found.role = Role.admin
        · have hr1 : (found.role != Role.admin) = false := by simp [hr]
          simp only [hr1, Bool.false_eq_true, if_false] at hs ⊢
          cases hcmp : bcryptCompare env password found.password with
          | error m => simp [hcmp, fail] at hs
          | ok b =>
            cases b with
            | false => simp [hcmp, fail] at hs
            | true =>
              simp only
              exact ⟨found, hfind, hr, rfl, cred, hmem, heq, hp⟩
        · have hr1 : (found.role != Role.admin) = true := by simp [hr]
          simp only [hr1, if_true] at hs ⊢
          cases hval : validateError { found with role := Role.admin } with
          | some m => simp [hval, fail] at hs
          | none =>
            simp only [hval] at hs ⊢
            cases hcmp : bcryptCompare env password found.password with
            | error m => simp [hcmp, fail] at hs
            | ok b =>
              cases b with
              | false => simp [hcmp, fail] at hs
              | true =>
                simp only
                refine ⟨{ found with role := Role.admin }, ?_, rfl, rfl, cred, hmem, heq, hp⟩
                rw [he] at hfind ⊢
                simp only [findOneByEmail] at hfind ⊢
                have hq := List.find?_some hfind
                exact find?_replaceUser store _ found _ rfl hq hfind

/-- C23: an admin-login request whose email is not allow-listed, or whose password differs
from the one allow-listed for its email, is answered 401 "Invalid admin credentials"
without token and with the user store unchanged, so no user is created or modified; and
after every successful admin-login the account stored under that email has role = admin. -/
theorem admin_login_gate (env : Env) (now : Nat) (newId : ObjectId) (store : List User)
    (email password : Option String) :
    ((∀ cred ∈ adminCredentials, some cred.email = email → password ≠ some cred.password) →
      adminLogin env now newId store email password =
        (⟨401, false, some "Invalid admin credentials", none, none⟩, store)) ∧
    ((adminLogin env now newId store email password).1.success = true →
      ∃ u, findOneByEmail env (adminLogin env now newId store email password).2 email =
          some u ∧ u.role = Role.admin) := by
  refine ⟨adminLogin_rejects env now newId store email password, ?_⟩
  intro hs
  obtain ⟨u, h1, h2, -⟩ := adminLogin_success env now newId store email password hs
  exact ⟨u, h1, h2⟩

/-- Witness of C23: an ordinary email and a wrong password are rejected on a one-user
store; the first allow-listed login on an empty store succeeds and stores an admin. -/
theorem admin_login_gate_witness :
    adminLogin referenceEnv 1000 9
        [⟨3, "bob@x.com", some "h", "bob", [], [], [], [], Role.user, none⟩]
        (some "bob@x.com") (some "admin123") =
      (⟨401, false, some "Invalid admin credentials", none, none⟩,
        [⟨3, "bob@x.com", some "h", "bob", [], [], [], [], Role.user, none⟩]) ∧
    adminLogin referenceEnv 1000 9
        [⟨3, "bob@x.com", some "h", "bob", [], [], [], [], Role.user, none⟩]
        (some "admin@aura.com") (some "admin124") =
      (⟨401, false, some "Invalid admin credentials", none, none⟩,
        [⟨3, "bob@x.com", some "h", "bob", [], [], [], [], Role.user, none⟩]) ∧
    ∃ u, findOneByEmail referenceEnv
        (adminLogin referenceEnv 1000 9 [] (some "admin@aura.com") (some "admin123")).2
        (some "admin@aura.com") = some u ∧ u.role = Role.admin :=
  ⟨(admin_login_gate referenceEnv 1000 9
      [⟨3, "bob@x.com", some "h", "bob", [], [], [], [], Role.user, none⟩]
      (some "bob@x.com") (some "admin123")).1 (by decide),
    (admin_login_gate referenceEnv 1000 9
      [⟨3, "bob@x.com", some "h", "bob", [], [], [], [], Role.user, none⟩]
      (some "admin@aura.com") (some "admin124")).1 (by decide),
    (admin_login_gate referenceEnv 1000 9 [] (some "admin@aura.com") (some "admin123")).2
      (by decide)⟩

/-- C27, the behaviour of the code: an ordinary account sits under the allow-listed email
admin@aura.com with another password; the request carrying the allow-listed password is
answered 401, and the stored account has been promoted to role = admin by the `save()` that
runs before the stored password is compared. -/
theorem admin_login_rejected_promotes :
    adminLogin referenceEnv 1000 9
        [⟨3, "admin@aura.com",
          some "$2a$10$abcdefghijklmnopqrstuvwxyzabcdefghijklmnopqrstuvwxyzA", "mallory",
          [], [], [], [], Role.user, none⟩]
        (some "admin@aura.com") (some "admin123") =
      (⟨401, false, some "Invalid admin credentials", none, none⟩,
        [⟨3, "admin@aura.com",
          some "$2a$10$abcdefghijklmnopqrstuvwxyzabcdefghijklmnopqrstuvwxyzA", "mallory",
          [], [], [], [], Role.admin, none⟩]) := by
  decide

/-! ## Follow and unfollow -/

theorem setBoth_eq (store : List User) (c t : ObjectId) (fl fr : List ObjectId) :
    setFollowers (setFollowing store c fl) t fr = store.map (writeBoth c t fl fr) := by
  simp only [setFollowers, setFollowing, List.map_map]
  apply List.map_congr_left
  intro x _
  simp only [Function.comp, writeBoth]
  by_cases h1 : (x.id == c) = true <;> by_cases h2 : (x.id == t) = true <;> simp [h1, h2]

theorem writeBoth_id (c t : ObjectId) (fl fr : List ObjectId) (x : User) :
    (writeBoth c t fl fr x).id = x.id := rfl

theorem findById_map (store : List User) (h : User → User) (hid : ∀ x, (h x).id = x.id)
    (id : ObjectId) : findById (store.map h) id = (findById store id).map h := by
  simp only [findById, List.find?_map]
  have : ((fun x : User => x.id == id) ∘ h) = (fun x : User => x.id == id) := by
    funext x
    simp [Function.comp, hid]
  rw [this]

theorem findById_id (store : List User) (id : ObjectId) (u : User)
    (h : findById store id = some u) : u.id = id := by
  have := List.find?_some h
  simpa using this

theorem symmetric_map (store : List User) (c t : ObjectId) (fl fr : List ObjectId)
    (h : ∀ a ∈ store, ∀ b ∈ store,
      (b.id ∈ (writeBoth c t fl fr a).following ↔ a.id ∈ (writeBoth c t fl fr b).followers)) :
    Symmetric (store.map (writeBoth c t fl fr)) := by
  intro a1 ha1 b1 hb1
  obtain ⟨a, ha, rfl⟩ := List.mem_map.mp ha1
  obtain ⟨b, hb, rfl⟩ := List.mem_map.mp hb1
  exact h a ha b hb

theorem follow_symmetric (store : List User) (c t : ObjectId) (cu tu : User)
    (hcu : cu ∈ store) (htu : tu ∈ store) (hcid : cu.id = c) (htid : tu.id = t)
    (hs : Symmetric store) :
    Symmetric (store.map (writeBoth c t (cu.following ++ [t]) (tu.followers ++ [c]))) := by
  apply symmetric_map
  intro a ha b hb
  simp only [writeBoth, beq_iff_eq]
  by_cases h1 : a.id = c <;> by_cases h2 : b.id = t
  · simp [h1, h2]
  · have := hs cu hcu b hb
    rw [hcid] at this
    simp [h1, h2, this]
  · have := hs a ha tu htu
    rw [htid] at this
    simp [h1, h2, this]
  · simp [h1, h2, hs a ha b hb]

theorem unfollow_symmetric (store : List User) (c t : ObjectId) (cu tu : User)
    (hcu : cu ∈ store) (htu : tu ∈ store) (hcid : cu.id = c) (htid : tu.id = t)
    (hs : Symmetric store) :
    Symmetric (store.map (writeBoth c t (cu.following.filter (fun id => id != t))
      (tu.followers.filter (fun id => id != c)))) := by
  apply symmetric_map
  intro a ha b hb
  simp only [writeBoth, beq_iff_eq]
  by_cases h1 : a.id = c <;> by_cases h2 : b.id = t
  · simp [h1, h2]
  · have := hs cu hcu b hb
    rw [hcid] at this
    simp [h1, h2, this]
  · have := hs a ha tu htu
    rw [htid] at this
    simp [h1, h2, this]
  · simp [h1, h2, hs a ha b hb]

theorem follow_success (store : List User) (c t : ObjectId)
    (h : (follow store c t).1.success = true) :
    ∃ cu tu, c ≠ t ∧ findById store t = some tu ∧ findById store c = some cu ∧
      t ∉ cu.following ∧
      (follow store c t).2 =
        store.map (writeBoth c t (cu.following ++ [t]) (tu.followers ++ [c])) := by
  unfold follow at h ⊢
  by_cases hct : c = t
  · simp [hct, failFollow] at h
  · have hct1 : (c == t) = false := by simpa using hct
    simp only [hct1, Bool.false_eq_true, if_false] at h ⊢
    cases ht : findById store t with
    | none => simp [ht, failFollow] at h
    | some tu =>
      simp only [ht] at h ⊢
      cases hc : findById store c with
      | none => simp [hc, failFollow] at h
      | some cu =>
        simp only [hc] at h ⊢
        by_cases hin : cu.following.contains t = true
        · rw [if_pos hin] at h
          simp [failFollow] at h
        · rw [if_neg hin] at h ⊢
          cases h1 : docError { cu with following := cu.following ++ [t] } with
          | some m => simp [h1, failFollow] at h
          | none =>
            simp only [h1] at h ⊢
            cases h2 : docError { tu with followers := tu.followers ++ [c] } with
            | some m => simp [h2, failFollow] at h
            | none =>
              simp only
              refine ⟨cu, tu, hct, rfl, rfl, by simpa using hin, ?_⟩
              exact setBoth_eq store c t _ _

theorem unfollow_success (store : List User) (c t : ObjectId)
    (h : (unfollow store c t).1.success = true) :
    ∃ cu tu, findById store t = some tu ∧ findById store c = some cu ∧
      (unfollow store c t).2 =
        store.map (writeBoth c t (cu.following.filter (fun id => id != t))
          (tu.followers.filter (fun id => id != c))) := by
  unfold unfollow at h ⊢
  cases ht : findById store t with
  | none => simp [ht, failFollow] at h
  | some tu =>
    simp only [ht] at h ⊢
    cases hc : findById store c with
    | none => simp [hc, failFollow] at h
    | some cu =>
      simp only [hc] at h ⊢
      cases h1 : docError
          { cu with following := cu.following.filter (fun id => id != t) } with
      | some m => simp [h1, failFollow] at h
      | none =>
        simp only [h1] at h ⊢
        cases h2 : docError
            { tu with followers := tu.followers.filter (fun id => id != c) } with
        | some m => simp [h2, failFollow] at h
        | none =>
          simp only
          exact ⟨cu, tu, rfl, rfl, setBoth_eq store c t _ _⟩

theorem follow_total (store : List User) (c t : ObjectId) (cu tu : User) (hct : c ≠ t)
    (ht : findById store t = some tu) (hc : findById store c = some cu)
    (hin : t ∉ cu.following) (h1 : docError cu = none) (h2 : docError tu = none) :
    (follow store c t).1.success = true := by
  have hct1 : (c == t) = false := by simpa using hct
  have hin1 : cu.following.contains t = false := by simpa using hin
  have e1 : docError { cu with following := cu.following ++ [t] } = none := h1
  have e2 : docError { tu with followers := tu.followers ++ [c] } = none := h2
  simp only [follow, hct1, ht, hc, hin1, e1, e2, Bool.false_eq_true, if_false]

theorem unfollow_total (store : List User) (c t : ObjectId) (cu tu : User)
    (ht : findById store t = some tu) (hc : findById store c = some cu)
    (h1 : docError cu = none) (h2 : docError tu = none) :
    (unfollow store c t).1.success = true := by
  have e1 : docError { cu with following := cu.following.filter (fun id => id != t) } = none :=
    h1
  have e2 : docError { tu with followers := tu.followers.filter (fun id => id != c) } = none :=
    h2
  simp only [unfollow, ht, hc, e1, e2]

/-- C24: in a store whose follow graph is symmetric, a completed follow (both writes saved)
and a completed unfollow yield a store whose follow graph is symmetric; after a completed
follow of B by A, B is in the following of A and A is in the followers of B. -/
theorem follow_graph_symmetric (store : List User) (a b : ObjectId) (hs : Symmetric store) :
    ((follow store a b).1.success = true →
      Symmetric (follow store a b).2 ∧
      ∃ ua ub, findById (follow store a b).2 a = some ua ∧
        findById (follow store a b).2 b = some ub ∧
        b ∈ ua.following ∧ a ∈ ub.followers) ∧
    ((unfollow store a b).1.success = true → Symmetric (unfollow store a b).2) := by
  constructor
  · intro h
    obtain ⟨cu, tu, hne, ht, hc, -, hst⟩ := follow_success store a b h
    rw [hst]
    refine ⟨follow_symmetric store a b cu tu (findById_mem store a cu hc)
      (findById_mem store b tu ht) (findById_id store a cu hc) (findById_id store b tu ht) hs,
      ?_⟩
    rw [findById_map _ _ (writeBoth_id a b _ _), findById_map _ _ (writeBoth_id a b _ _),
      hc, ht]
    refine ⟨_, _, rfl, rfl, ?_, ?_⟩
    · simp [writeBoth, findById_id store a cu hc]
    · simp [writeBoth, findById_id store b tu ht]
  · intro h
    obtain ⟨cu, tu, ht, hc, hst⟩ := unfollow_success store a b h
    rw [hst]
    exact unfollow_symmetric store a b cu tu (findById_mem store a cu hc)
      (findById_mem store b tu ht) (findById_id store a cu hc) (findById_id store b tu ht) hs

/-- Witness of C24: Bob (3) follows Alice (4) in a store without follow edges. -/
theorem follow_graph_symmetric_witness :
    Symmetric (follow [⟨3, "bob@x.com", some "h", "bob", [], [], [], [], Role.user, none⟩,
        ⟨4, "al@x.com", some "h", "alice", [], [], [], [], Role.user, none⟩] 3 4).2 ∧
    ∃ ua ub,
      findById (follow [⟨3, "bob@x.com", some "h", "bob", [], [], [], [], Role.user, none⟩,
        ⟨4, "al@x.com", some "h", "alice", [], [], [], [], Role.user, none⟩] 3 4).2 3 =
        some ua ∧
      findById (follow [⟨3, "bob@x.com", some "h", "bob", [], [], [], [], Role.user, none⟩,
        ⟨4, "al@x.com", some "h", "alice", [], [], [], [], Role.user, none⟩] 3 4).2 4 =
        some ub ∧
      4 ∈ ua.following ∧ 3 ∈ ub.followers :=
  (follow_graph_symmetric
    [⟨3, "bob@x.com", some "h", "bob", [], [], [], [], Role.user, none⟩,
      ⟨4, "al@x.com", some "h", "alice", [], [], [], [], Role.user, none⟩] 3 4
    (by
      intro x hx y hy
      simp only [List.mem_cons, List.mem_singleton, List.not_mem_nil, or_false] at hx hy
      rcases hx with rfl | rfl <;> rcases hy with rfl | rfl <;> simp)).1 (by decide)

/-- C25: after Bob's successful follow of Alice the check answers isFollowing = true, and
after Bob's successful unfollow of Alice, from any state, it answers isFollowing = false;
for distinct stored users whose documents satisfy the schema the unfollow succeeds, and so
does the follow when Bob does not follow Alice yet. -/
theorem follow_check (store : List User) (bob alice : ObjectId) :
    ((follow store bob alice).1.success = true →
      checkFollowing (follow store bob alice).2 bob alice = (200, some true)) ∧
    ((unfollow store bob alice).1.success = true →
      checkFollowing (unfollow store bob alice).2 bob alice = (200, some false)) ∧
    (bob ≠ alice → ∀ ub ua, findById store bob = some ub → findById store alice = some ua →
      docError ub = none → docError ua = none →
      (unfollow store bob alice).1.success = true ∧
      (alice ∉ ub.following → (follow store bob alice).1.success = true)) := by
  refine ⟨?_, ?_, ?_⟩
  · intro h
    obtain ⟨cu, tu, -, -, hc, -, hst⟩ := follow_success store bob alice h
    rw [hst]
    simp only [checkFollowing, findById_map _ _ (writeBoth_id bob alice _ _), hc,
      Option.map_some']
    simp [writeBoth, findById_id store bob cu hc]
  · intro h
    obtain ⟨cu, tu, -, hc, hst⟩ := unfollow_success store bob alice h
    rw [hst]
    simp only [checkFollowing, findById_map _ _ (writeBoth_id bob alice _ _), hc,
      Option.map_some']
    simp [writeBoth, findById_id store bob cu hc]
  · intro hne ub ua hb ha h1 h2
    exact ⟨unfollow_total store bob alice ub ua ha hb h1 h2,
      fun hin => follow_total store bob alice ub ua hne ha hb hin h1 h2⟩

/-- Witness of C25: Bob (3) follows and then unfollows Alice (4). -/
theorem follow_check_witness :
    checkFollowing
      (follow [⟨3, "bob@x.com", some "h", "bob", [], [], [], [], Role.user, none⟩,
        ⟨4, "al@x.com", some "h", "alice", [], [], [], [], Role.user, none⟩] 3 4).2 3 4 =
      (200, some true) ∧
    checkFollowing
      (unfollow [⟨3, "bob@x.com", some "h", "bob", [], [], [], [4], Role.user, none⟩,
        ⟨4, "al@x.com", some "h", "alice", [], [], [3], [], Role.user, none⟩] 3 4).2 3 4 =
      (200, some false) :=
  ⟨(follow_check [⟨3, "bob@x.com", some "h", "bob", [], [], [], [], Role.user, none⟩,
      ⟨4, "al@x.com", some "h", "alice", [], [], [], [], Role.user, none⟩] 3 4).1 (by decide),
    (follow_check [⟨3, "bob@x.com", some "h", "bob", [], [], [], [4], Role.user, none⟩,
      ⟨4, "al@x.com", some "h", "alice", [], [], [3], [], Role.user, none⟩] 3 4).2.1
      (by decide)⟩

/-! ## Deleting a memory -/

theorem eraseP_no_id (store : List Memory) (id : ObjectId)
    (hnd : (store.map (fun m => m.id)).Nodup) (hmem : ∃ m ∈ store, m.id = id) :
    ∀ x ∈ store.eraseP (fun m => m.id == id), x.id ≠ id := by
  induction store with
  | nil => intro x hx; cases hx
  | cons y ys ih =>
    simp only [List.map_cons, List.nodup_cons] at hnd
    by_cases hy : y.id = id
    · have : (y :: ys).eraseP (fun m => m.id == id) = ys := by
        simp [List.eraseP_cons, hy]
      rw [this]
      intro x hx hxid
      exact hnd.1 (List.mem_map.mpr ⟨x, hx, by rw [hxid, hy]⟩)
    · have hy1 : ((fun m : Memory => m.id == id) y) = false := by simpa using hy
      rw [List.eraseP_cons_of_neg (by simp [hy])]
      intro x hx
      rcases List.mem_cons.mp hx with rfl | hx
      · exact hy
      · obtain ⟨m, hm, hmid⟩ := hmem
        rcases List.mem_cons.mp hm with rfl | hm
        · exact absurd hmid hy
        · exact ih hnd.2 ⟨m, hm, hmid⟩ x hx

/-- C26: for an existing memory, the delete handler removes it exactly when the actor is
its owner: the answer is 200 and the collection loses one document, every memory with
another id is kept, and no memory with that id remains; for every other actor the answer is
403 and for an id no memory has the answer is 404, the collection unchanged in both cases. -/
theorem delete_memory_owner_only (store : List Memory) (actor id : ObjectId) :
    (∀ m, findMemoryById store id = some m → m.user = actor →
      (deleteMemory store actor id).1 = ⟨200, true, some "Memory deleted successfully", none⟩ ∧
      (deleteMemory store actor id).2.length + 1 = store.length ∧
      (∀ x : Memory, x.id ≠ id → (x ∈ (deleteMemory store actor id).2 ↔ x ∈ store)) ∧
      ((store.map (fun m => m.id)).Nodup →
        ∀ x ∈ (deleteMemory store actor id).2, x.id ≠ id)) ∧
    (∀ m, findMemoryById store id = some m → m.user ≠ actor →
      deleteMemory store actor id =
        (⟨403, false, some "Not authorized to delete this memory", none⟩, store)) ∧
    (findMemoryById store id = none →
      deleteMemory store actor id = (⟨404, false, some "Memory not found", none⟩, store)) := by
  refine ⟨?_, ?_, ?_⟩
  · intro m hm hown
    have hmem : m ∈ store := List.mem_of_find?_eq_some hm
    have hid := findMemoryById_id store id m hm
    have hd : deleteMemory store actor id =
        (⟨200, true, some "Memory deleted successfully", none⟩,
          store.eraseP (fun m => m.id == id)) := by
      simp [deleteMemory, hm, hown]
    rw [hd]
    refine ⟨rfl, ?_, ?_, ?_⟩
    · have hlen : (store.eraseP (fun m => m.id == id)).length = store.length - 1 :=
        List.length_eraseP_of_mem hmem (by simp [hid])
      have hpos : 0 < store.length := List.length_pos_of_mem hmem
      simp only at hlen ⊢
      omega
    · intro x hx
      exact List.mem_eraseP_of_neg (by simpa using hx)
    · intro hnd
      exact eraseP_no_id store id hnd ⟨m, hmem, hid⟩
  · intro m hm hown
    have : (m.user != actor) = true := by simpa using hown
    simp [deleteMemory, hm, this, failMemory]
  · intro hm
    simp [deleteMemory, hm, failMemory]

/-- Witness of C26: the owner 3 deletes memory 1; actor 4 is refused; id 7 is not found. -/
theorem delete_memory_owner_only_witness :
    (deleteMemory [⟨1, 3, "a", none, [], [], [], 10, Visibility.isPublic⟩,
        ⟨2, 4, "b", none, [], [], [], 11, Visibility.isPublic⟩] 3 1).2.length + 1 = 2 ∧
    deleteMemory [⟨1, 3, "a", none, [], [], [], 10, Visibility.isPublic⟩,
        ⟨2, 4, "b", none, [], [], [], 11, Visibility.isPublic⟩] 4 1 =
      (⟨403, false, some "Not authorized to delete this memory", none⟩,
        [⟨1, 3, "a", none, [], [], [], 10, Visibility.isPublic⟩,
          ⟨2, 4, "b", none, [], [], [], 11, Visibility.isPublic⟩]) ∧
    deleteMemory [⟨1, 3, "a", none, [], [], [], 10, Visibility.isPublic⟩,
        ⟨2, 4, "b", none, [], [], [], 11, Visibility.isPublic⟩] 3 7 =
      (⟨404, false, some "Memory not found", none⟩,
        [⟨1, 3, "a", none, [], [], [], 10, Visibility.isPublic⟩,
          ⟨2, 4, "b", none, [], [], [], 11, Visibility.isPublic⟩]) :=
  ⟨((delete_memory_owner_only [⟨1, 3, "a", none, [], [], [], 10, Visibility.isPublic⟩,
      ⟨2, 4, "b", none, [], [], [], 11, Visibility.isPublic⟩] 3 1).1
      ⟨1, 3, "a", none, [], [], [], 10, Visibility.isPublic⟩ (by decide) (by decide)).2.1,
    (delete_memory_owner_only [⟨1, 3, "a", none, [], [], [], 10, Visibility.isPublic⟩,
      ⟨2, 4, "b", none, [], [], [], 11, Visibility.isPublic⟩] 4 1).2.1
      ⟨1, 3, "a", none, [], [], [], 10, Visibility.isPublic⟩ (by decide) (by decide),
    (delete_memory_owner_only [⟨1, 3, "a", none, [], [], [], 10, Visibility.isPublic⟩,
      ⟨2, 4, "b", none, [], [], [], 11, Visibility.isPublic⟩] 3 7).2.2 (by decide)⟩

/-! ## The flag `hasMore` of the admin listings -/

theorem returnedCount_eq (page limit : Int) (total : Nat) (hp : 1 ≤ page) (hl : 1 ≤ limit) :
    (returnedCount page limit total : Int) =
      min limit (max 0 ((total : Int) - (page - 1) * limit)) := by
  have hs : 0 ≤ (page - 1) * limit := Int.mul_nonneg (by omega) (by omega)
  simp only [returnedCount, List.length_take, List.length_drop, List.length_range]
  generalize (page - 1) * limit = s at hs ⊢
  omega

/-- C28: for page ≥ 1 and limit ≥ 1 the flag of the admin listings, `skip + limit < total`,
equals the Paginate definition `skip + returnedCount < total`, where returnedCount =
min(limit, max(0, total - skip)) is the number of items the listing returns, and it equals
the flag the feed computes from the returned items. -/
theorem admin_hasMore_refines (page limit : Int) (total : Nat) (hp : 1 ≤ page)
    (hl : 1 ≤ limit) :
    adminHasMore page limit total = paginateHasMoreSpec page limit total ∧
    (returnedCount page limit total : Int) =
      min limit (max 0 ((total : Int) - (page - 1) * limit)) ∧
    adminHasMore page limit total = feedHasMore page limit total := by
  have hs : 0 ≤ (page - 1) * limit := Int.mul_nonneg (by omega) (by omega)
  have hr := returnedCount_eq page limit total hp hl
  refine ⟨?_, hr, ?_⟩
  · simp only [adminHasMore, paginateHasMoreSpec]
    generalize (page - 1) * limit = s at hs ⊢
    apply decide_eq_decide.mpr
    omega
  · simp only [adminHasMore, feedHasMore, hr]
    generalize (page - 1) * limit = s at hs ⊢
    apply decide_eq_decide.mpr
    omega

/-- Witness of C28: page 2 of 20 over 45 items has more; page 3 has not. -/
theorem admin_hasMore_refines_witness :
    (adminHasMore 2 20 45 = paginateHasMoreSpec 2 20 45 ∧
      (returnedCount 2 20 45 : Int) = min 20 (max 0 ((45 : Nat) - (2 - 1) * 20)) ∧
      adminHasMore 2 20 45 = feedHasMore 2 20 45) ∧
    adminHasMore 2 20 45 = true ∧ adminHasMore 3 20 45 = false :=
  ⟨admin_hasMore_refines 2 20 45 (by decide) (by decide), by decide, by decide⟩

/-! ## The frame of a profile update -/

theorem updateProfile_cases (store : List User) (actor : ObjectId) (pb : ProfileBody) :
    (updateProfile store actor pb).2 = store ∨
      ∃ old, findById store actor = some old ∧
        (updateProfile store actor pb).2 = replaceUser store (applyProfile old pb) := by
  unfold updateProfile
  split
  · left; rfl
  · split
    · left; rfl
    · split
      · left; rfl
      · rename_i user hfind
        cases hs : saveError store (applyProfile user pb) with
        | some e =>
          left
          simp only [hs]
        | none =>
          right
          exact ⟨user, hfind, by simp only [hs]⟩

theorem applyProfile_frame (old : User) (pb : ProfileBody) :
    (applyProfile old pb).id = old.id ∧ (applyProfile old pb).email = old.email ∧
    (applyProfile old pb).password = old.password ∧ (applyProfile old pb).role = old.role ∧
    (applyProfile old pb).followers = old.followers ∧
    (applyProfile old pb).following = old.following ∧
    (pb.username = none → (applyProfile old pb).username = old.username) ∧
    (pb.interests = none → (applyProfile old pb).interests = old.interests) ∧
    (pb.emotions = none → (applyProfile old pb).emotions = old.emotions) ∧
    (pb.profilePicture = none → (applyProfile old pb).profilePicture = old.profilePicture) := by
  obtain ⟨n, i, e, pp⟩ := pb
  cases n <;> cases i <;> cases e <;> cases pp <;> simp [applyProfile]

theorem mem_replaceUser_other (store : List User) (u x : User) (hx : x.id ≠ u.id) :
    x ∈ replaceUser store u ↔ x ∈ store := by
  simp only [replaceUser, List.mem_map]
  constructor
  · rintro ⟨y, hy, hyx⟩
    by_cases hc : (y.id == u.id) = true
    · simp only [hc, if_true] at hyx
      exact absurd (by rw [hyx]) hx
    · simp only [hc, Bool.false_eq_true, if_false] at hyx
      rw [← hyx]; exact hy
  · intro h
    refine ⟨x, h, ?_⟩
    have : (x.id == u.id) = false := by simpa using hx
    simp [this]

theorem replaceUser_ids (store : List User) (u : User) :
    (replaceUser store u).map (fun x => x.id) = store.map (fun x => x.id) := by
  simp only [replaceUser, List.map_map]
  apply List.map_congr_left
  intro x _
  by_cases hc : (x.id == u.id) = true
  · have hx : x.id = u.id := by simpa using hc
    simp only [Function.comp, hc, if_true]
    exact hx.symm
  · simp [Function.comp, hc]

/-- C29: a profile update keeps the ids of the stored documents in place, leaves every
document with another id than the caller's as it was, and in the caller's own document
leaves the email, password, role, followers and following unchanged; the username,
interests, emotions and profile picture are unchanged too whenever the body does not carry
them. -/
theorem profile_update_frame (store : List User) (actor : ObjectId) (pb : ProfileBody) :
    (updateProfile store actor pb).2.map (fun x => x.id) = store.map (fun x => x.id) ∧
    (∀ x : User, x.id ≠ actor → (x ∈ (updateProfile store actor pb).2 ↔ x ∈ store)) ∧
    (findById store actor = none → (updateProfile store actor pb).2 = store) ∧
    (∀ old, findById store actor = some old →
      ∃ new, findById (updateProfile store actor pb).2 actor = some new ∧
        new.id = old.id ∧ new.email = old.email ∧ new.password = old.password ∧
        new.role = old.role ∧ new.followers = old.followers ∧
        new.following = old.following ∧
        (pb.username = none → new.username = old.username) ∧
        (pb.interests = none → new.interests = old.interests) ∧
        (pb.emotions = none → new.emotions = old.emotions) ∧
        (pb.profilePicture = none → new.profilePicture = old.profilePicture)) := by
  rcases updateProfile_cases store actor pb with hs | ⟨old, hfind, hs⟩
  · rw [hs]
    refine ⟨rfl, fun _ _ => Iff.rfl, fun _ => rfl, ?_⟩
    intro old hold
    exact ⟨old, hold, rfl, rfl, rfl, rfl, rfl, rfl, fun _ => rfl, fun _ => rfl, fun _ => rfl,
      fun _ => rfl⟩
  · rw [hs]
    have hf := applyProfile_frame old pb
    have hid := findById_id store actor old hfind
    refine ⟨?_, ?_, ?_, ?_⟩
    · exact replaceUser_ids store _
    · intro x hx
      exact mem_replaceUser_other store _ x (by rw [hf.1, hid]; exact hx)
    · intro hnone
      rw [hfind] at hnone
      cases hnone
    · intro old1 hold1
      rw [hfind] at hold1
      cases hold1
      refine ⟨applyProfile old pb, ?_, hf⟩
      exact find?_replaceUser store (fun x => x.id == actor) old _ hf.1
        (by simp [hf.1, hid]) hfind

/-- Witness of C29: Bob (3) sets his interests; his email, password, role, follow lists and
username are unchanged, and so is the document of Alice (4). -/
theorem profile_update_frame_witness :
    (⟨4, "al@x.com", some "h2", "alice", ["x"], [], [3], [], Role.admin, none⟩ ∈
        (updateProfile [⟨3, "bob@x.com", some "h", "bob", [], [], [], [4], Role.user, none⟩,
          ⟨4, "al@x.com", some "h2", "alice", ["x"], [], [3], [], Role.admin, none⟩] 3
          ⟨none, some ["a"], none, none⟩).2 ↔
      ⟨4, "al@x.com", some "h2", "alice", ["x"], [], [3], [], Role.admin, none⟩ ∈
        [(⟨3, "bob@x.com", some "h", "bob", [], [], [], [4], Role.user, none⟩ : User),
          ⟨4, "al@x.com", some "h2", "alice", ["x"], [], [3], [], Role.admin, none⟩]) ∧
    (∃ new, findById
        (updateProfile [⟨3, "bob@x.com", some "h", "bob", [], [], [], [4], Role.user, none⟩,
          ⟨4, "al@x.com", some "h2", "alice", ["x"], [], [3], [], Role.admin, none⟩] 3
          ⟨none, some ["a"], none, none⟩).2 3 = some new ∧
      new.id = 3 ∧ new.email = "bob@x.com" ∧ new.password = some "h" ∧
      new.role = Role.user ∧ new.followers = [] ∧ new.following = [4] ∧
      ((none : Option String) = none → new.username = "bob") ∧
      ((some ["a"] : Option (List String)) = none → new.interests = []) ∧
      ((none : Option (List String)) = none → new.emotions = []) ∧
      ((none : Option (Option String)) = none → new.profilePicture = none)) ∧
    findById
        (updateProfile [⟨3, "bob@x.com", some "h", "bob", [], [], [], [4], Role.user, none⟩,
          ⟨4, "al@x.com", some "h2", "alice", ["x"], [], [3], [], Role.admin, none⟩] 3
          ⟨none, some ["a"], none, none⟩).2 3 =
      some ⟨3, "bob@x.com", some "h", "bob", ["a"], [], [], [4], Role.user, none⟩ :=
  ⟨(profile_update_frame
      [⟨3, "bob@x.com", some "h", "bob", [], [], [], [4], Role.user, none⟩,
        ⟨4, "al@x.com", some "h2", "alice", ["x"], [], [3], [], Role.admin, none⟩] 3
      ⟨none, some ["a"], none, none⟩).2.1 _ (by decide),
    (profile_update_frame
      [⟨3, "bob@x.com", some "h", "bob", [], [], [], [4], Role.user, none⟩,
        ⟨4, "al@x.com", some "h2", "alice", ["x"], [], [3], [], Role.admin, none⟩] 3
      ⟨none, some ["a"], none, none⟩).2.2.2
      ⟨3, "bob@x.com", some "h", "bob", [], [], [], [4], Role.user, none⟩ (by decide),
    by decide⟩

/-! ## User growth by month -/

theorem monthEnd_before_next (year month : Int) (i : Nat) :
    monthEnd year month (i + 1) + 1000 = monthStart year month i := by
  simp only [monthEnd, monthStart, jsDate]
  have : month - ((i + 1 : Nat) : Int) + 1 = month - (i : Int) := by push_cast; ring
  rw [this]
  ring

/-- C30, the behaviour of the code: the upper bound of every bucket is the last day of its
month at 23:59:59.000, one full second before the next bucket starts, whereas the sibling
handler of the daily activity ends its range at 23:59:59.999. An instant in the last
second of a month, such as 2024-02-29 23:59:59.500 seen from March 2024, lies inside the
twelve-month period and in no bucket: the twelve counts sum to 0 for one created user. -/
theorem user_growth_drops_last_second :
    (∀ (year month : Int) (i : Nat),
      monthEnd year month (i + 1) + 1000 = monthStart year month i) ∧
    dayEndMs 0 = 86400000 - 1 ∧
    monthStart 2024 2 11 ≤ 1709251199500 ∧ 1709251199500 ≤ monthEnd 2024 2 0 ∧
    (userGrowth 2024 2 [1709251199500]).length = 12 ∧
    ((userGrowth 2024 2 [1709251199500]).map Prod.snd).sum = 0 ∧
    (∀ i, i < 12 →
      ¬ (monthStart 2024 2 i ≤ 1709251199500 ∧ 1709251199500 ≤ monthEnd 2024 2 i)) := by
  refine ⟨monthEnd_before_next, by decide, by decide, by decide, by decide, by decide, ?_⟩
  intro i hi
  interval_cases i <;> decide

/-! ## The feed -/

theorem feedParams_of_parse (page limit : Option String) (N P : Int) (hN : 1 ≤ N)
    (hP : 1 ≤ P) (hp : parseInt (page.getD "undefined") = some N)
    (hl : parseInt (limit.getD "undefined") = some P) :
    feedParams page limit = ⟨N, P, (N - 1) * P⟩ := by
  have h1 := (queryInt_spec page 1).2.2 N (by omega) hp
  have h2 := (queryInt_spec limit 10).2.2 P (by omega) hl
  simp [feedParams, pageParams, h1, h2]

theorem feed_ok (store : List Memory) (page limit : Option String) (N P : Int) (hN : 1 ≤ N)
    (hP : 1 ≤ P) (hp : parseInt (page.getD "undefined") = some N)
    (hl : parseInt (limit.getD "undefined") = some P) :
    feed store page limit = .ok
      { memories := ((publicFeed store).drop ((N - 1) * P).toNat).take P.natAbs
        likesCounts :=
          (((publicFeed store).drop ((N - 1) * P).toNat).take P.natAbs).map
            (fun m => m.likes.length)
        hasMore := decide ((N - 1) * P +
          ((((publicFeed store).drop ((N - 1) * P).toNat).take P.natAbs).length : Int) <
            ((publicFeed store).length : Int))
        page := N
        limit := P
        total := (publicFeed store).length } := by
  have hs : 0 ≤ (N - 1) * P := Int.mul_nonneg (by omega) (by omega)
  have hs1 : ¬ (N - 1) * P < 0 := by omega
  simp only [feed, feedParams_of_parse page limit N P hN hP hp hl, feedWith, hs1, if_false]

theorem publicFeed_length (store : List Memory) :
    (publicFeed store).length =
      (store.filter (fun m => m.visibility == Visibility.isPublic)).length := by
  simp [publicFeed, List.length_insertionSort]

/-- C1: for page N ≥ 1 and limit P ≥ 1 read from the query, over T public memories, the
feed answers 200 with exactly min(P, max(0, T - (N-1)*P)) items, which are the items at the
positions (N-1)*P, (N-1)*P + 1, ... of the public memories ordered by creation time, newest
first; that order is a sorted rearrangement of the public memories of the store. -/
theorem feed_page_items (store : List Memory) (page limit : Option String) (N P : Int)
    (hN : 1 ≤ N) (hP : 1 ≤ P) (hp : parseInt (page.getD "undefined") = some N)
    (hl : parseInt (limit.getD "undefined") = some P) :
    ∃ r, feed store page limit = .ok r ∧
      (r.memories.length : Int) =
        min P (max 0 (((store.filter (fun m => m.visibility == Visibility.isPublic)).length
          : Int) - (N - 1) * P)) ∧
      (∀ i, i < r.memories.length →
        r.memories[i]? = (publicFeed store)[((N - 1) * P).toNat + i]?) ∧
      r.total = (store.filter (fun m => m.visibility == Visibility.isPublic)).length ∧
      (publicFeed store).Pairwise byCreatedDesc ∧
      (publicFeed store).Perm (store.filter (fun m => m.visibility == Visibility.isPublic)) := by
  refine ⟨_, feed_ok store page limit N P hN hP hp hl, ?_, ?_, publicFeed_length store,
    List.sorted_insertionSort byCreatedDesc _, List.perm_insertionSort byCreatedDesc _⟩
  · have hs : 0 ≤ (N - 1) * P := Int.mul_nonneg (by omega) (by omega)
    simp only [List.length_take, List.length_drop, ← publicFeed_length]
    generalize (N - 1) * P = s at hs ⊢
    omega
  · intro i hi
    simp only [List.length_take, List.length_drop] at hi
    rw [List.getElem?_take_of_lt (by omega), List.getElem?_drop]

/-- Witness of C1: page 2 with limit 1 over two public memories and a private one returns
the older public memory. -/
theorem feed_page_items_witness :
    ∃ r, feed [⟨1, 3, "a", none, [], [], [], 10, Visibility.isPublic⟩,
        ⟨2, 4, "b", none, [], [], [], 30, Visibility.isPrivate⟩,
        ⟨5, 4, "c", none, [], [], [], 20, Visibility.isPublic⟩] (some "2") (some "1") = .ok r ∧
      (r.memories.length : Int) =
        min 1 (max 0 (((([⟨1, 3, "a", none, [], [], [], 10, Visibility.isPublic⟩,
          ⟨2, 4, "b", none, [], [], [], 30, Visibility.isPrivate⟩,
          ⟨5, 4, "c", none, [], [], [], 20, Visibility.isPublic⟩] : List Memory).filter
            (fun m => m.visibility == Visibility.isPublic)).length : Int) - (2 - 1) * 1)) ∧
      r.memories = [⟨1, 3, "a", none, [], [], [], 10, Visibility.isPublic⟩] := by
  obtain ⟨r, h1, h2, -⟩ := feed_page_items
    [⟨1, 3, "a", none, [], [], [], 10, Visibility.isPublic⟩,
      ⟨2, 4, "b", none, [], [], [], 30, Visibility.isPrivate⟩,
      ⟨5, 4, "c", none, [], [], [], 20, Visibility.isPublic⟩] (some "2") (some "1") 2 1
    (by decide) (by decide) (by decide) (by decide)
  refine ⟨r, h1, h2, ?_⟩
  have h3 := feed_ok [⟨1, 3, "a", none, [], [], [], 10, Visibility.isPublic⟩,
      ⟨2, 4, "b", none, [], [], [], 30, Visibility.isPrivate⟩,
      ⟨5, 4, "c", none, [], [], [], 20, Visibility.isPublic⟩] (some "2") (some "1") 2 1
    (by decide) (by decide) (by decide) (by decide)
  rw [h3] at h1
  cases h1
  decide

/-- C2: for page N ≥ 1, limit P ≥ 1 and T public memories, the flag hasMore of the feed,
computed as skip + returnedCount < total with skip = (N-1)*P, is true exactly when
N*P < T. -/
theorem feed_hasMore (store : List Memory) (page limit : Option String) (N P : Int)
    (hN : 1 ≤ N) (hP : 1 ≤ P) (hp : parseInt (page.getD "undefined") = some N)
    (hl : parseInt (limit.getD "undefined") = some P) :
    ∃ r, feed store page limit = .ok r ∧
      r.hasMore = decide ((N - 1) * P + (r.memories.length : Int) < (r.total : Int)) ∧
      (r.hasMore = true ↔
        N * P < ((store.filter (fun m => m.visibility == Visibility.isPublic)).length : Int)) := by
  refine ⟨_, feed_ok store page limit N P hN hP hp hl, rfl, ?_⟩
  have hs : 0 ≤ (N - 1) * P := Int.mul_nonneg (by omega) (by omega)
  have hnp : N * P = (N - 1) * P + P := by ring
  simp only [decide_eq_true_eq, List.length_take, List.length_drop, ← publicFeed_length, hnp]
  generalize (N - 1) * P = s at hs ⊢
  omega

/-- Witness of C2: with two public memories, page 1 of limit 1 has more and page 2 has not. -/
theorem feed_hasMore_witness :
    (∃ r, feed [⟨1, 3, "a", none, [], [], [], 10, Visibility.isPublic⟩,
        ⟨5, 4, "c", none, [], [], [], 20, Visibility.isPublic⟩] (some "1") (some "1") = .ok r ∧
      r.hasMore = decide ((1 - 1) * 1 + (r.memories.length : Int) < (r.total : Int)) ∧
      (r.hasMore = true ↔
        (1 : Int) * 1 < ((([⟨1, 3, "a", none, [], [], [], 10, Visibility.isPublic⟩,
          ⟨5, 4, "c", none, [], [], [], 20, Visibility.isPublic⟩] : List Memory).filter
            (fun m => m.visibility == Visibility.isPublic)).length : Int))) ∧
    (∃ r, feed [⟨1, 3, "a", none, [], [], [], 10, Visibility.isPublic⟩,
        ⟨5, 4, "c", none, [], [], [], 20, Visibility.isPublic⟩] (some "2") (some "1") = .ok r ∧
      r.hasMore = decide ((2 - 1) * 1 + (r.memories.length : Int) < (r.total : Int)) ∧
      (r.hasMore = true ↔
        (2 : Int) * 1 < ((([⟨1, 3, "a", none, [], [], [], 10, Visibility.isPublic⟩,
          ⟨5, 4, "c", none, [], [], [], 20, Visibility.isPublic⟩] : List Memory).filter
            (fun m => m.visibility == Visibility.isPublic)).length : Int))) :=
  ⟨feed_hasMore _ (some "1") (some "1") 1 1 (by decide) (by decide) (by decide) (by decide),
    feed_hasMore _ (some "2") (some "1") 2 1 (by decide) (by decide) (by decide) (by decide)⟩

/-! ## The memories of one user -/

/-- C3: when the caller asks for the memories of another user id, every returned memory
belongs to that user and has visibility public, so no private or friends memory is ever
returned; when the caller asks for their own id, the result is a rearrangement, newest
first, of all their memories whatever the visibility. -/
theorem user_memories_visibility (store : List Memory) (actor userId : ObjectId) :
    (actor ≠ userId → ∀ m ∈ userMemories store actor userId,
      m.visibility = Visibility.isPublic ∧ m.user = userId ∧ m ∈ store) ∧
    (actor ≠ userId → ∀ m ∈ store, m.user = userId → m.visibility = Visibility.isPublic →
      m ∈ userMemories store actor userId) ∧
    ((userMemories store actor actor).Perm (store.filter (fun m => m.user == actor))) ∧
    (userMemories store actor userId).Pairwise byCreatedDesc := by
  refine ⟨?_, ?_, ?_, List.sorted_insertionSort byCreatedDesc _⟩
  · intro hne m hm
    have hne1 : (actor == userId) = false := by simpa using hne
    have := (List.perm_insertionSort byCreatedDesc _).mem_iff.mp hm
    simp only [List.mem_filter, hne1, Bool.false_or, Bool.and_eq_true, beq_iff_eq] at this
    exact ⟨this.2.2, this.2.1, this.1⟩
  · intro hne m hm hu hv
    have hne1 : (actor == userId) = false := by simpa using hne
    apply (List.perm_insertionSort byCreatedDesc _).mem_iff.mpr
    simp [List.mem_filter, hm, hu, hv]
  · have : (store.filter (fun m =>
        m.user == actor && (actor == actor || m.visibility == Visibility.isPublic))) =
        store.filter (fun m => m.user == actor) := by
      apply List.filter_congr
      intro m _
      simp
    unfold userMemories
    rw [this]
    exact List.perm_insertionSort byCreatedDesc _

/-- Witness of C3: user 4 has a private and a public memory; user 3 sees the public one,
user 4 sees both. -/
theorem user_memories_visibility_witness :
    (∀ m ∈ userMemories [⟨1, 3, "a", none, [], [], [], 10, Visibility.isPublic⟩,
        ⟨2, 4, "b", none, [], [], [], 30, Visibility.isPrivate⟩,
        ⟨5, 4, "c", none, [], [], [], 20, Visibility.isPublic⟩] 3 4,
      m.visibility = Visibility.isPublic ∧ m.user = 4 ∧
        m ∈ [(⟨1, 3, "a", none, [], [], [], 10, Visibility.isPublic⟩ : Memory),
          ⟨2, 4, "b", none, [], [], [], 30, Visibility.isPrivate⟩,
          ⟨5, 4, "c", none, [], [], [], 20, Visibility.isPublic⟩]) ∧
    userMemories [⟨1, 3, "a", none, [], [], [], 10, Visibility.isPublic⟩,
        ⟨2, 4, "b", none, [], [], [], 30, Visibility.isPrivate⟩,
        ⟨5, 4, "c", none, [], [], [], 20, Visibility.isPublic⟩] 3 4 =
      [⟨5, 4, "c", none, [], [], [], 20, Visibility.isPublic⟩] ∧
    userMemories [⟨1, 3, "a", none, [], [], [], 10, Visibility.isPublic⟩,
        ⟨2, 4, "b", none, [], [], [], 30, Visibility.isPrivate⟩,
        ⟨5, 4, "c", none, [], [], [], 20, Visibility.isPublic⟩] 4 4 =
      [⟨2, 4, "b", none, [], [], [], 30, Visibility.isPrivate⟩,
        ⟨5, 4, "c", none, [], [], [], 20, Visibility.isPublic⟩] :=
  ⟨(user_memories_visibility [⟨1, 3, "a", none, [], [], [], 10, Visibility.isPublic⟩,
      ⟨2, 4, "b", none, [], [], [], 30, Visibility.isPrivate⟩,
      ⟨5, 4, "c", none, [], [], [], 20, Visibility.isPublic⟩] 3 4).1 (by decide),
    by decide, by decide⟩

/-! ## The two middleware -/

/-- C4: the auth middleware answers 401 and does not call next exactly when the
Authorization header is absent, does not start with "Bearer ", or the token after the
7-character prefix fails verification; otherwise it calls next with `req.user.id` bound to
the identifier the verification returns. -/
theorem auth_rejects_iff (env : Env) (now : Nat) (authHeader : Option String) :
    ((∃ res, auth env now authHeader = AuthOutcome.rejected res) ↔
      (authHeader = none ∨
        ∃ h, authHeader = some h ∧
          (startsWith h "Bearer " = false ∨
            env.jwt.verify (substringFrom h 7) env.jwtSecret now = none))) ∧
    (∀ res, auth env now authHeader = AuthOutcome.rejected res →
      res.status = 401 ∧ res.success = false) ∧
    (∀ h id, authHeader = some h → startsWith h "Bearer " = true →
      env.jwt.verify (substringFrom h 7) env.jwtSecret now = some id →
      auth env now authHeader = AuthOutcome.next id) := by
  refine ⟨?_, ?_, ?_⟩
  · cases authHeader with
    | none => simp [auth]
    | some h =>
      cases hs : startsWith h "Bearer " with
      | false => simp [auth, hs]
      | true =>
        cases hv : env.jwt.verify (substringFrom h 7) env.jwtSecret now with
        | none => simp [auth, hs, hv]
        | some id => simp [auth, hs, hv]
  · intro res hres
    cases authHeader with
    | none =>
      simp only [auth, AuthOutcome.rejected.injEq] at hres
      rw [← hres]; exact ⟨rfl, rfl⟩
    | some h =>
      cases hs : startsWith h "Bearer " with
      | false =>
        simp only [auth, hs, Bool.not_false, if_true, AuthOutcome.rejected.injEq] at hres
        rw [← hres]; exact ⟨rfl, rfl⟩
      | true =>
        cases hv : env.jwt.verify (substringFrom h 7) env.jwtSecret now with
        | none =>
          simp only [auth, hs, hv, Bool.not_true, Bool.false_eq_true, if_false,
            AuthOutcome.rejected.injEq] at hres
          rw [← hres]; exact ⟨rfl, rfl⟩
        | some id => simp [auth, hs, hv] at hres
  · intro h id hh hs hv
    simp [auth, hh, hs, hv]

/-- Witness of C4: a token issued by the reference library is accepted; the same header
without the prefix is refused. -/
theorem auth_rejects_iff_witness :
    auth referenceEnv 5 (some ("Bearer " ++ referenceJwt.sign 2 "s3cret" 0 10)) =
      AuthOutcome.next 2 ∧
    ∃ res, auth referenceEnv 5 (some "Token abc") = AuthOutcome.rejected res :=
  ⟨(auth_rejects_iff referenceEnv 5 (some ("Bearer " ++ referenceJwt.sign 2 "s3cret" 0 10))).2.2
      _ 2 rfl (by decide) (by decide),
    (auth_rejects_iff referenceEnv 5 (some "Token abc")).1.mpr
      (Or.inr ⟨_, rfl, Or.inl (by decide)⟩)⟩

theorem adminAuth_next_iff (store : List User) (reqUser : Option ObjectId) :
    (adminAuth store reqUser).1 = AdminOutcome.next ↔
      ∃ id u, reqUser = some id ∧ findById store id = some u ∧ u.role = Role.admin := by
  cases reqUser with
  | none => simp [adminAuth]
  | some id =>
    cases h : findById store id with
    | none => simp [adminAuth, h]
    | some u =>
      by_cases hr : u.role = Role.admin <;> simp [adminAuth, h, hr]

/-- C5: the adminAuth middleware answers 401 when no identity is bound to the request,
otherwise 404 when the bound identity is not in the store, otherwise 403 when that user's
role is not admin, and calls next exactly when the bound identity is a stored user with
role admin; in every case the user store is returned as it was read. -/
theorem adminAuth_outcomes (store : List User) (reqUser : Option ObjectId) :
    (reqUser = none →
      (adminAuth store reqUser).1 = AdminOutcome.rejected (fail 401 "Authentication required")) ∧
    (∀ id, reqUser = some id → findById store id = none →
      (adminAuth store reqUser).1 = AdminOutcome.rejected (fail 404 "User not found")) ∧
    (∀ id u, reqUser = some id → findById store id = some u → u.role ≠ Role.admin →
      (adminAuth store reqUser).1 =
        AdminOutcome.rejected (fail 403 "Admin access required")) ∧
    ((adminAuth store reqUser).1 = AdminOutcome.next ↔
      ∃ id u, reqUser = some id ∧ findById store id = some u ∧ u.role = Role.admin) ∧
    (adminAuth store reqUser).2 = store := by
  refine ⟨?_, ?_, ?_, ?_, ?_⟩
  · rintro rfl; rfl
  · rintro id rfl h
    simp [adminAuth, h]
  · rintro id u rfl h hr
    simp [adminAuth, h, hr]
  · exact adminAuth_next_iff store reqUser
  · cases reqUser with
    | none => rfl
    | some id =>
      cases h : findById store id with
      | none => simp [adminAuth, h]
      | some u =>
        by_cases hr : u.role = Role.admin <;> simp [adminAuth, h, hr]

/-- Witness of C5: no identity, an unknown identity, an ordinary user and an admin. -/
theorem adminAuth_outcomes_witness :
    (adminAuth [⟨3, "bob@x.com", some "h", "bob", [], [], [], [], Role.user, none⟩,
        ⟨4, "al@x.com", some "h", "alice", [], [], [], [], Role.admin, none⟩] none).1 =
      AdminOutcome.rejected (fail 401 "Authentication required") ∧
    (adminAuth [⟨3, "bob@x.com", some "h", "bob", [], [], [], [], Role.user, none⟩,
        ⟨4, "al@x.com", some "h", "alice", [], [], [], [], Role.admin, none⟩] (some 9)).1 =
      AdminOutcome.rejected (fail 404 "User not found") ∧
    (adminAuth [⟨3, "bob@x.com", some "h", "bob", [], [], [], [], Role.user, none⟩,
        ⟨4, "al@x.com", some "h", "alice", [], [], [], [], Role.admin, none⟩] (some 3)).1 =
      AdminOutcome.rejected (fail 403 "Admin access required") ∧
    (adminAuth [⟨3, "bob@x.com", some "h", "bob", [], [], [], [], Role.user, none⟩,
        ⟨4, "al@x.com", some "h", "alice", [], [], [], [], Role.admin, none⟩] (some 4)).1 =
      AdminOutcome.next :=
  ⟨(adminAuth_outcomes _ none).1 rfl,
    (adminAuth_outcomes _ (some 9)).2.1 9 rfl (by decide),
    (adminAuth_outcomes _ (some 3)).2.2.1 3 _ rfl (show findById _ 3 = some _ from rfl)
      (by decide),
    (adminAuth_outcomes _ (some 4)).2.2.2.1.mpr ⟨4, _, rfl, (show findById _ 4 = some _ from rfl),
      rfl⟩⟩

/-! ## The admin router -/

theorem runRoute_gated (env : Env) (now : Nat) (store : List User)
    (authHeader : Option String) (r : Route)
    (hr : r.middleware = [Middleware.auth, Middleware.adminAuth]) :
    runRoute env now store r authHeader =
      match auth env now authHeader with
      | .rejected res => .rejected res
      | .next id =>
        match (adminAuth store (some id)).1 with
        | .rejected res => .rejected res
        | .next => .handler (some id) := by
  simp only [runRoute, hr, runMiddleware]

/-- C6: every route of the admin router names the auth middleware and then the adminAuth
middleware before its handler; on each of them a request without token is answered 401, a
request with a valid token of a stored user whose role is not admin is answered 403, and
the handler is reached only with a verified identity that is a stored admin. -/
theorem admin_routes_gated (env : Env) (now : Nat) (store : List User) :
    adminRoutes.length = 8 ∧
    (∀ r ∈ adminRoutes, r.middleware = [Middleware.auth, Middleware.adminAuth]) ∧
    (∀ r ∈ adminRoutes,
      runRoute env now store r none = RouteOutcome.rejected (fail 401 "No token provided")) ∧
    (∀ r ∈ adminRoutes, ∀ tok id u, env.jwt.verify tok env.jwtSecret now = some id →
      findById store id = some u → u.role ≠ Role.admin →
      runRoute env now store r (some ("Bearer " ++ tok)) =
        RouteOutcome.rejected (fail 403 "Admin access required")) ∧
    (∀ r ∈ adminRoutes, ∀ header reqUser,
      runRoute env now store r header = RouteOutcome.handler reqUser →
      ∃ id u, reqUser = some id ∧ auth env now header = AuthOutcome.next id ∧
        findById store id = some u ∧ u.role = Role.admin) := by
  have hmw : ∀ r ∈ adminRoutes, r.middleware = [Middleware.auth, Middleware.adminAuth] := by
    decide
  refine ⟨rfl, hmw, ?_, ?_, ?_⟩
  · intro r hr
    rw [runRoute_gated env now store none r (hmw r hr)]
    rfl
  · intro r hr tok id u hv hf hrole
    rw [runRoute_gated env now store _ r (hmw r hr)]
    have hsub : substringFrom ("Bearer " ++ tok) 7 = tok := substringFrom_append "Bearer " tok
    have ha : auth env now (some ("Bearer " ++ tok)) = AuthOutcome.next id := by
      simp only [auth, startsWith_append, Bool.not_true, Bool.false_eq_true, if_false, hsub, hv]
    rw [ha]
    simp [adminAuth, hf, hrole]
  · intro r hr header reqUser hrun
    rw [runRoute_gated env now store header r (hmw r hr)] at hrun
    cases ha : auth env now header with
    | rejected res => simp [ha] at hrun
    | next id =>
      simp only [ha] at hrun
      cases hadm : (adminAuth store (some id)).1 with
      | rejected res => simp [hadm] at hrun
      | next =>
        simp only [hadm, RouteOutcome.handler.injEq] at hrun
        obtain ⟨id1, u, h1, h2, h3⟩ := (adminAuth_next_iff store (some id)).mp hadm
        simp only [Option.some.injEq] at h1
        subst h1
        exact ⟨id, u, hrun.symm, rfl, h2, h3⟩

/-- Witness of C6: on `GET /admin/users` a request of the ordinary user 3 with a valid
token is answered 403. -/
theorem admin_routes_gated_witness :
    runRoute referenceEnv 5
        [⟨3, "bob@x.com", some "h", "bob", [], [], [], [], Role.user, none⟩]
        ⟨"GET", "/users", [Middleware.auth, Middleware.adminAuth]⟩
        (some ("Bearer " ++ referenceJwt.sign 3 "s3cret" 0 10)) =
      RouteOutcome.rejected (fail 403 "Admin access required") :=
  (admin_routes_gated referenceEnv 5
    [⟨3, "bob@x.com", some "h", "bob", [], [], [], [], Role.user, none⟩]).2.2.2.1
    ⟨"GET", "/users", [Middleware.auth, Middleware.adminAuth]⟩ (by decide)
    (referenceJwt.sign 3 "s3cret" 0 10) 3
    ⟨3, "bob@x.com", some "h", "bob", [], [], [], [], Role.user, none⟩
    (by decide) (by decide) (by decide)

/-! ## The like toggle -/

theorem toggledLikes_nodup (likes : List ObjectId) (actor : ObjectId) (h : likes.Nodup) :
    (toggledLikes likes actor).Nodup := by
  unfold toggledLikes
  split
  · exact h.filter _
  · rename_i hc
    have : actor ∉ likes := by simpa using hc
    exact List.Nodup.append h (List.nodup_singleton actor) (by simpa using this)

theorem mem_toggledLikes (likes : List ObjectId) (actor x : ObjectId) :
    x ∈ toggledLikes likes actor ↔ (if x = actor then actor ∉ likes else x ∈ likes) := by
  unfold toggledLikes
  by_cases hc : actor ∈ likes
  · have hc1 : likes.contains actor = true := by simpa using hc
    rw [if_pos hc1]
    by_cases hx : x = actor
    · subst hx
      simp [hc]
    · simp [hx]
  · have hc1 : ¬ (likes.contains actor = true) := by simpa using hc
    rw [if_neg hc1]
    by_cases hx : x = actor
    · subst hx
      simp [hc]
    · simp [hx]

theorem toggledLikes_others (likes : List ObjectId) (actor : ObjectId) :
    (toggledLikes likes actor).filter (fun id => id != actor) =
      likes.filter (fun id => id != actor) := by
  unfold toggledLikes
  split
  · simp [List.filter_filter]
  · simp [List.filter_append]

/-- C8: the like toggle preserves the absence of duplicates: if the likes list holds no
user id twice, neither does the list after a toggle, for every actor; hence every likes
list reachable from the empty one by toggles is duplicate-free. -/
theorem toggle_keeps_nodup :
    (∀ (likes : List ObjectId) (actor : ObjectId), likes.Nodup →
      (toggledLikes likes actor).Nodup) ∧
    (∀ likes : List ObjectId, LikesReachable likes → likes.Nodup) ∧
    (∀ (store : List Memory) (actor id : ObjectId) (memory m1 : Memory),
      findMemoryById store id = some memory → memory.likes.Nodup →
      findMemoryById (toggleLike store actor id).2 id = some m1 → m1.likes.Nodup) := by
  refine ⟨toggledLikes_nodup, ?_, ?_⟩
  · intro likes h
    induction h with
    | empty => exact List.nodup_nil
    | toggle l a _ ih => exact toggledLikes_nodup l a ih
  · intro store actor id memory m1 hfind hnd hm1
    unfold toggleLike at hm1
    rw [hfind] at hm1
    simp only at hm1
    cases hs : memorySaveError { memory with likes := toggledLikes memory.likes actor } with
    | some msg =>
      rw [hs] at hm1
      simp only at hm1
      rw [hfind] at hm1
      cases hm1
      exact hnd
    | none =>
      rw [hs] at hm1
      simp only at hm1
      rw [findMemoryById_replace store id memory
        { memory with likes := toggledLikes memory.likes actor } hfind
        (findMemoryById_id store id memory hfind)] at hm1
      cases hm1
      exact toggledLikes_nodup _ _ hnd

/-- Witness of C8: toggling 5 on the likes [3, 5] and on the likes [3]. -/
theorem toggle_keeps_nodup_witness :
    (toggledLikes [3, 5] 5).Nodup ∧ (toggledLikes [3] 5).Nodup ∧
      toggledLikes [3, 5] 5 = [3] ∧ toggledLikes [3] 5 = [3, 5] :=
  ⟨toggle_keeps_nodup.1 [3, 5] 5 (by decide), toggle_keeps_nodup.1 [3] 5 (by decide),
    by decide, by decide⟩

theorem memorySaveError_likes (memory : Memory) (likes : List ObjectId) :
    memorySaveError { memory with likes := likes } = memorySaveError memory := rfl

theorem toggleLike_existing (store : List Memory) (actor id : ObjectId) (memory : Memory)
    (hfind : findMemoryById store id = some memory) :
    toggleLike store actor id =
      match memorySaveError memory with
      | some msg => (failMemory 500 msg, store)
      | none =>
        (⟨200, true, none, some { memory with likes := toggledLikes memory.likes actor }⟩,
          replaceMemory store { memory with likes := toggledLikes memory.likes actor }) := by
  simp only [toggleLike, hfind, memorySaveError_likes]

/-- C9: for an existing memory, after a successful like toggle the actor is in the likes
exactly when the actor was not in them before, the other users keep their membership and
their relative order, no other field of the memory and no other memory changes; the toggle
succeeds whenever the stored memory satisfies its schema; and for an id no memory has the
toggle answers 404 and changes nothing. -/
theorem toggle_like_effect (store : List Memory) (actor id : ObjectId) :
    (∀ memory, findMemoryById store id = some memory →
      ((toggleLike store actor id).1.success = true →
        ∃ m1 : Memory,
          (toggleLike store actor id).1.memory = some m1 ∧
          findMemoryById (toggleLike store actor id).2 id = some m1 ∧
          (actor ∈ m1.likes ↔ actor ∉ memory.likes) ∧
          (∀ x, x ≠ actor → (x ∈ m1.likes ↔ x ∈ memory.likes)) ∧
          m1.likes.filter (fun x => x != actor) = memory.likes.filter (fun x => x != actor) ∧
          m1 = { memory with likes := m1.likes } ∧
          ∀ x ∈ (toggleLike store actor id).2, x.id ≠ id → x ∈ store) ∧
      (memorySaveError memory = none → (toggleLike store actor id).1.success = true)) ∧
    (findMemoryById store id = none →
      toggleLike store actor id = (⟨404, false, some "Memory not found", none⟩, store)) := by
  constructor
  · intro memory hfind
    have hid := findMemoryById_id store id memory hfind
    rw [toggleLike_existing store actor id memory hfind]
    cases hs : memorySaveError memory with
    | some msg => simp [failMemory]
    | none =>
      simp only [forall_true_left, and_true]
      refine ⟨{ memory with likes := toggledLikes memory.likes actor }, rfl, ?_, ?_, ?_, ?_,
        rfl, ?_⟩
      · exact findMemoryById_replace store id memory _ hfind hid
      · have := mem_toggledLikes memory.likes actor actor
        simpa using this
      · intro x hx
        have := mem_toggledLikes memory.likes actor x
        simpa [hx] using this
      · exact toggledLikes_others memory.likes actor
      · intro x hx hne
        exact mem_replaceMemory_other store _ x hx (by simpa [hid] using hne)
  · intro hnone
    simp [toggleLike, hnone, failMemory]

/-- Witness of C9: actor 5 likes the memory 1 liked by 3, and nothing happens for id 7. -/
theorem toggle_like_effect_witness :
    (toggleLike [⟨1, 3, "Hello", none, [], [3], [], 10, Visibility.isPublic⟩] 5 1).1.success =
      true ∧
    findMemoryById
        (toggleLike [⟨1, 3, "Hello", none, [], [3], [], 10, Visibility.isPublic⟩] 5 1).2 1 =
      some ⟨1, 3, "Hello", none, [], [3, 5], [], 10, Visibility.isPublic⟩ ∧
    toggleLike [⟨1, 3, "Hello", none, [], [3], [], 10, Visibility.isPublic⟩] 5 7 =
      (⟨404, false, some "Memory not found", none⟩,
        [⟨1, 3, "Hello", none, [], [3], [], 10, Visibility.isPublic⟩]) :=
  ⟨((toggle_like_effect [⟨1, 3, "Hello", none, [], [3], [], 10, Visibility.isPublic⟩] 5 1).1
      ⟨1, 3, "Hello", none, [], [3], [], 10, Visibility.isPublic⟩ (by decide)).2 (by decide),
    by decide,
    (toggle_like_effect [⟨1, 3, "Hello", none, [], [3], [], 10, Visibility.isPublic⟩] 5 7).2
      (by decide)⟩

theorem length_filter_ne (l : List ObjectId) (a : ObjectId) :
    (l.filter (fun id => id != a)).length + l.count a = l.length := by
  induction l with
  | nil => rfl
  | cons x xs ih =>
    by_cases hx : x = a
    · subst hx
      simp [List.filter_cons, List.count_cons]
      omega
    · have hx1 : ¬ a = x := fun e => hx e.symm
      simp [List.filter_cons, List.count_cons, hx, hx1]
      omega

theorem double_toggle (l : List ObjectId) (a : ObjectId) (h : l.count a ≤ 1) :
    (toggledLikes (toggledLikes l a) a).length = l.length ∧
      ∀ x, x ∈ toggledLikes (toggledLikes l a) a ↔ x ∈ l := by
  constructor
  · by_cases hc : a ∈ l
    · have hc1 : l.contains a = true := by simpa using hc
      have hcount : 0 < l.count a := List.count_pos_iff.mpr hc
      have hnot : ¬ ((l.filter (fun id => id != a)).contains a = true) := by simp
      have hlen := length_filter_ne l a
      have e1 : toggledLikes l a = l.filter (fun id => id != a) := by
        unfold toggledLikes
        rw [if_pos hc1]
      have e2 : toggledLikes (l.filter (fun id => id != a)) a =
          l.filter (fun id => id != a) ++ [a] := by
        unfold toggledLikes
        rw [if_neg hnot]
      rw [e1, e2, List.length_append, List.length_singleton]
      omega
    · have hc1 : ¬ (l.contains a = true) := by simpa using hc
      have hc2 : (l ++ [a]).contains a = true := by simp
      have hf : (l ++ [a]).filter (fun id => id != a) = l := by
        rw [List.filter_append]
        have : l.filter (fun id => id != a) = l := by
          apply List.filter_eq_self.mpr
          intro x hx
          have : x ≠ a := fun e => hc (e ▸ hx)
          simpa using this
        simp [this]
      have e1 : toggledLikes l a = l ++ [a] := by
        unfold toggledLikes
        rw [if_neg hc1]
      have e2 : toggledLikes (l ++ [a]) a = l := by
        unfold toggledLikes
        rw [if_pos hc2, hf]
      rw [e1, e2]
  · intro x
    simp only [mem_toggledLikes]
    by_cases hx : x = a
    · subst hx
      simp
    · simp [hx]

/-- C7, counterexample: on a memory whose likes hold the actor twice, the first toggle
removes both entries and the second adds one: the count goes from 2 to 1. -/
theorem double_toggle_duplicate :
    (findMemoryById
        (toggleLike
          (toggleLike [⟨1, 3, "Hello", none, [], [5, 5], [], 10, Visibility.isPublic⟩] 5 1).2
          5 1).2 1).map (fun m => m.likes.length) = some 1 ∧
    (findMemoryById [⟨1, 3, "Hello", none, [], [5, 5], [], 10, Visibility.isPublic⟩] 1).map
        (fun m => m.likes.length) = some 2 := by
  decide

/-- C7, amended: for every memory whose likes hold the actor at most once, applying the
like toggle twice with the same actor returns the memory to its original likesCount, the
length of its likes list, with the same members and every other field unchanged. -/
theorem double_toggle_count (store : List Memory) (actor id : ObjectId) (memory : Memory)
    (hfind : findMemoryById store id = some memory) (hcount : memory.likes.count actor ≤ 1) :
    ∃ m2 : Memory,
      findMemoryById (toggleLike (toggleLike store actor id).2 actor id).2 id = some m2 ∧
      m2.likes.length = memory.likes.length ∧
      (∀ x, x ∈ m2.likes ↔ x ∈ memory.likes) ∧
      m2 = { memory with likes := m2.likes } := by
  have hid := findMemoryById_id store id memory hfind
  rw [toggleLike_existing store actor id memory hfind]
  cases hs : memorySaveError memory with
  | some msg =>
    simp only
    rw [toggleLike_existing store actor id memory hfind, hs]
    exact ⟨memory, hfind, rfl, fun _ => Iff.rfl, rfl⟩
  | none =>
    simp only
    have hfind1 := findMemoryById_replace store id memory
      { memory with likes := toggledLikes memory.likes actor } hfind hid
    rw [toggleLike_existing _ actor id _ hfind1, memorySaveError_likes, hs]
    simp only
    obtain ⟨h1, h2⟩ := double_toggle memory.likes actor hcount
    refine ⟨{ memory with likes := toggledLikes (toggledLikes memory.likes actor) actor },
      ?_, h1, h2, rfl⟩
    exact findMemoryById_replace _ id _
      { memory with likes := toggledLikes (toggledLikes memory.likes actor) actor } hfind1 hid

/-- Witness of C7 (amended): actor 5 toggles twice on a memory liked by 3 and 5. -/
theorem double_toggle_count_witness :
    ∃ m2 : Memory,
      findMemoryById
        (toggleLike
          (toggleLike [⟨1, 3, "Hello", none, [], [3, 5], [], 10, Visibility.isPublic⟩] 5 1).2
          5 1).2 1 = some m2 ∧
      m2.likes.length = 2 ∧
      (∀ x, x ∈ m2.likes ↔ x ∈ [3, 5]) ∧
      m2 = { (⟨1, 3, "Hello", none, [], [3, 5], [], 10, Visibility.isPublic⟩ : Memory) with
        likes := m2.likes } :=
  double_toggle_count [⟨1, 3, "Hello", none, [], [3, 5], [], 10, Visibility.isPublic⟩] 5 1
    ⟨1, 3, "Hello", none, [], [3, 5], [], 10, Visibility.isPublic⟩ (by decide) (by decide)

/-! ## Uniform failure of the login -/

theorem login_unknown_email (env : Env) (now : Nat) (store : List User)
    (email password : Option String) (h : findOneByEmail env store email = none) :
    login env now store email password = ⟨401, false, some "Invalid credentials", none, none⟩ := by
  simp [login, h, fail]

theorem bcryptCompare_wrong (env : Env) (p h : String)
    (hstored : jsLength h = 60 → startsWith h "$2" = true) (hwrong : env.bcryptHash p ≠ h) :
    bcryptCompare env (some p) (some h) = .ok false := by
  simp only [bcryptCompare]
  by_cases hl : jsLength h = 60
  · have h2 := hstored hl
    simp [hl, h2, hwrong]
  · simp [hl]

/-- C10, counterexample: a signup with a 60-character password that starts with `google_`
is stored unhashed by the pre-save hook; `bcrypt.compare` takes that value as a hash and
throws on its salt, so a login under this known email with a wrong password is answered
500 "Server error during login", while a login under an unknown email is answered 401
"Invalid credentials". -/
theorem login_raw_credential_differs :
    (signup referenceEnv 1000 7 []
        ⟨some "al@x.com", some "google_aaaaaaaaaaaaaaaaaaaaaaaaaaaaaaaaaaaaaaaaaaaaaaaaaaaaa", some "al", none, none⟩).2 =
      [⟨7, "al@x.com", some "google_aaaaaaaaaaaaaaaaaaaaaaaaaaaaaaaaaaaaaaaaaaaaaaaaaaaaa", "al", [], [], [], [], Role.user, none⟩] ∧
    login referenceEnv 5
        [⟨7, "al@x.com", some "google_aaaaaaaaaaaaaaaaaaaaaaaaaaaaaaaaaaaaaaaaaaaaaaaaaaaaa", "al", [], [], [], [], Role.user, none⟩]
        (some "al@x.com") (some "wrong") = fail 500 "Server error during login" ∧
    login referenceEnv 5
        [⟨7, "al@x.com", some "google_aaaaaaaaaaaaaaaaaaaaaaaaaaaaaaaaaaaaaaaaaaaaaaaaaaaaa", "al", [], [], [], [], Role.user, none⟩]
        (some "nobody@x.com") (some "wrong") = fail 401 "Invalid credentials" ∧
    login referenceEnv 5
        [⟨7, "al@x.com", some "google_aaaaaaaaaaaaaaaaaaaaaaaaaaaaaaaaaaaaaaaaaaaaaaaaaaaaa", "al", [], [], [], [], Role.user, none⟩]
        (some "al@x.com") (some "wrong") ≠
      login referenceEnv 5
        [⟨7, "al@x.com", some "google_aaaaaaaaaaaaaaaaaaaaaaaaaaaaaaaaaaaaaaaaaaaaaaaaaaaaa", "al", [], [], [], [], Role.user, none⟩]
        (some "nobody@x.com") (some "wrong") := by
  refine ⟨by decide, by decide, by decide, by decide⟩

/-- C10, amended: for every user store, a login under an unknown email and a login under a
known email with a wrong password are answered alike, with status 401 and the body
success false, "Invalid credentials", without token, whenever the stored credential of the
known account is a bcrypt hash or any value that is not exactly 60 code units long. -/
theorem login_failures_uniform (env : Env) (now : Nat) (store : List User)
    (e1 e2 p1 : Option String) (p2 h : String) (u : User)
    (h1 : findOneByEmail env store e1 = none) (h2 : findOneByEmail env store e2 = some u)
    (hpw : u.password = some h)
    (hstored : jsLength h = 60 → startsWith h "$2" = true)
    (hwrong : env.bcryptHash p2 ≠ h) :
    login env now store e1 p1 = ⟨401, false, some "Invalid credentials", none, none⟩ ∧
    login env now store e2 (some p2) = ⟨401, false, some "Invalid credentials", none, none⟩ ∧
    login env now store e1 p1 = login env now store e2 (some p2) := by
  have ha := login_unknown_email env now store e1 p1 h1
  have hb : login env now store e2 (some p2) =
      ⟨401, false, some "Invalid credentials", none, none⟩ := by
    simp only [login, h2, hpw, bcryptCompare_wrong env p2 h hstored hwrong]
    rfl
  exact ⟨ha, hb, by rw [ha, hb]⟩

/-- Witness of C10 (amended): the account of a signup with the password "secret1" and an
unknown email both answer 401 to the password "wrong". -/
theorem login_failures_uniform_witness :
    (signup referenceEnv 1000 7 []
        ⟨some "al@x.com", some "secret1", some "al", none, none⟩).2 =
      [⟨7, "al@x.com", some "$2a$10$secret1", "al", [], [], [], [], Role.user, none⟩] ∧
    login referenceEnv 5
        [⟨7, "al@x.com", some "$2a$10$secret1", "al", [], [], [], [], Role.user, none⟩]
        (some "nobody@x.com") (some "wrong") =
      ⟨401, false, some "Invalid credentials", none, none⟩ ∧
    login referenceEnv 5
        [⟨7, "al@x.com", some "$2a$10$secret1", "al", [], [], [], [], Role.user, none⟩]
        (some "al@x.com") (some "wrong") =
      ⟨401, false, some "Invalid credentials", none, none⟩ ∧
    login referenceEnv 5
        [⟨7, "al@x.com", some "$2a$10$secret1", "al", [], [], [], [], Role.user, none⟩]
        (some "nobody@x.com") (some "wrong") =
      login referenceEnv 5
        [⟨7, "al@x.com", some "$2a$10$secret1", "al", [], [], [], [], Role.user, none⟩]
        (some "al@x.com") (some "wrong") :=
  ⟨by decide,
    login_failures_uniform referenceEnv 5
      [⟨7, "al@x.com", some "$2a$10$secret1", "al", [], [], [], [], Role.user, none⟩]
      (some "nobody@x.com") (some "al@x.com") (some "wrong") "wrong" "$2a$10$secret1"
      ⟨7, "al@x.com", some "$2a$10$secret1", "al", [], [], [], [], Role.user, none⟩
      (by decide) (by decide) rfl (by decide) (by decide)⟩

end Aura
